import Mathlib

/-!
# odo — Docker component adapter

A shallow embedding of `pkg/devfile/adapters/docker/component` (`adapter.go`, `utils.go`),
of `validateComponents` (`pkg/devfile/validate`), of the validation of
`odo catalog describe component` and of `ListWithDetailedStatus` (`pkg/service`).

* Go strings are Lean `String`s, Go slices are `List`s.
* A Go `map[string]string` is an association list read with `List.lookup`
  (the first binding of a key is the binding of the map).
* A Go `error` is `Option Error` (`none` is `nil`); a `(T, error)` result is `Except Error T`.
* The Docker client is an environment: every client method is a field of `Client` that
  answers from the calls made so far (`Trace`) and the arguments, so a call may succeed
  once and fail later. Every function of the adapter takes the trace `h` of the calls
  made before it and returns the events it performed itself.
-/

namespace Odo

/-! ## Go and Docker data -/

abbrev Error := String

/-- Go `map[string]string`. A `nil` map reads like the empty map: `[]`. -/
abbrev Labels := List (String × String)

/-- The one-value index expression `m[k]`: the zero value `""` for a missing key. -/
def getLabel (m : Labels) (k : String) : String :=
  (m.lookup k).getD ""

/-- The assignment `m[k] = v`: the binding of `k` is replaced, the other keys keep theirs. -/
def setLabel (m : Labels) (k v : String) : Labels :=
  (k, v) :: m.filter (fun kv => kv.1 != k)

/-- `errors.Wrap(err, msg)`. -/
def wrap (err : Error) (msg : String) : Error :=
  msg ++ ": " ++ err

/-- `unicode.IsSpace`. -/
def isSpace (c : Char) : Bool :=
  let n := c.toNat
  n == 0x09 || n == 0x0A || n == 0x0B || n == 0x0C || n == 0x0D || n == 0x20 ||
  n == 0x85 || n == 0xA0 || n == 0x1680 || (0x2000 ≤ n && n ≤ 0x200A) ||
  n == 0x2028 || n == 0x2029 || n == 0x202F || n == 0x205F || n == 0x3000

/-- `strings.TrimSpace`: leading and trailing white space removed. -/
def TrimSpace (s : String) : String :=
  ⟨((s.data.dropWhile isSpace).reverse.dropWhile isSpace).reverse⟩

/-- `mount.TypeBind` of the Docker API. -/
def TypeBind : String := "bind"

/-- `mount.TypeVolume` of the Docker API. -/
def TypeVolume : String := "volume"

/-- `types.MountPoint` of the Docker API. -/
structure MountPoint where
  Type_ : String
  Name : String
  Source : String
  Destination : String
  deriving DecidableEq, Repr

/-- `types.Container` of the Docker API (the fields the adapter reads). -/
structure Container where
  ID : String
  Image : String
  Command : String
  Labels : Labels
  Mounts : List MountPoint
  deriving DecidableEq, Repr

/-- `types.Volume` of the Docker API. -/
structure Volume where
  Name : String
  Labels : Labels
  deriving DecidableEq, Repr

/-- Modelled from the spec: the constant `utils.ProjectsVolume` of
`pkg/devfile/adapters/docker/utils` is missing; it is the value of the `type` label of the
source volume, `"projects"` in `TestAdapterDeleteVolumes`. -/
def ProjectsVolume : String := "projects"

/-- Modelled from the spec: the constant `utils.SupervisordVolume` of
`pkg/devfile/adapters/docker/utils` is missing; it is the value of the `type` label of the
supervisord volume, `"supervisord"` in `TestAdapterDeleteVolumes`. -/
def SupervisordVolume : String := "supervisord"

/-! ## Devfile data (`pkg/devfile/parser/data/common`) -/

/-- `versionsCommon.Env`. -/
structure Env where
  Name : String
  Value : String
  deriving DecidableEq, Repr

/-- `versionsCommon.Endpoint`. -/
structure Endpoint where
  Name : String
  TargetPort : Int
  deriving DecidableEq, Repr

/-- `versionsCommon.Container`, the container of a devfile component. -/
structure DevfileContainer where
  Name : String
  Image : String
  Command : List String
  Args : List String
  Env : List Env
  Endpoints : List Endpoint
  MountSources : Bool
  SourceMapping : String
  deriving DecidableEq, Repr

/-- `versionsCommon.DevfileComponent` of a supported (container) component. -/
structure DevfileComponent where
  Container : DevfileContainer
  deriving DecidableEq, Repr

/-- `versionsCommon.Exec`. -/
structure Exec where
  Id : String
  CommandLine : String
  Component : String
  WorkingDir : String
  Attributes : Labels
  deriving DecidableEq, Repr

/-- `versionsCommon.DevfileCommand`. -/
structure DevfileCommand where
  Exec : Exec
  deriving DecidableEq, Repr

/-- `common.DevfileVolume`. -/
structure DevfileVolume where
  Name : String
  ContainerPath : String
  Size : String
  deriving DecidableEq, Repr

/-- `common.Storage`. -/
structure Storage where
  Name : String
  Volume : DevfileVolume
  deriving DecidableEq, Repr

/-- An entry of the `Url` list of `env.yaml` (`envinfo.EnvInfoURL`). -/
structure EnvInfoURL where
  Name : String
  Port : Int
  ExposedPort : Int
  deriving DecidableEq, Repr

/-! ## Docker configuration -/

/-- `mount.Mount` of the Docker API. -/
structure Mount where
  Type_ : String
  Source : String
  Target : String
  deriving DecidableEq, Repr

/-- `nat.Port` with protocol `tcp`: the port number of `"<number>/tcp"`. -/
structure Port where
  number : Nat
  deriving DecidableEq, Repr

/-- `nat.PortBinding`. -/
structure PortBinding where
  HostIP : String
  HostPort : String
  deriving DecidableEq, Repr

/-- `nat.PortMap`, a Go map read with `List.lookup`. -/
abbrev PortMap := List (Port × List PortBinding)

/-- `container.Config` of the Docker API. -/
structure ContainerConfig where
  Image : String
  Entrypoint : List String
  Cmd : List String
  Env : List String
  Labels : Labels
  ExposedPorts : List Port
  deriving DecidableEq, Repr

/-- `container.HostConfig` of the Docker API. -/
structure HostConfig where
  Privileged : Bool
  PublishAllPorts : Bool
  PortBindings : PortMap
  Mounts : List Mount
  deriving DecidableEq, Repr

/-! ## The Docker client as an environment -/

/-- A call of a method of `lclient.Client`, of the storage adapter or of `pkg/exec`. -/
inductive Call where
  | GetContainerList
  | GetContainersByComponentAndAlias (componentName containerAlias : String)
  | GetContainerConfigHostConfigAndMounts (containerID : String)
  | GetVolumes
  | GetVolumesByLabel (labels : Labels)
  | CreateVolume (name : String) (labels : Labels)
  | RemoveVolume (name : String)
  | PullImage (image : String)
  | StartContainer (config : ContainerConfig) (hostConfig : HostConfig)
  | RemoveContainer (containerID : String)
  | WaitForContainer (containerID : String)
  | StorageCreate (storages : List Storage)
  | ExecuteDevfileCommandSynchronously (exec : Exec) (containerName : String)
  | ExecuteDevfileRunAction (exec : Exec) (containerName : String)
  | ExecuteDevfileRunActionWithoutRestart (exec : Exec) (containerName : String)
  | ExecuteCommand (containerName : String) (command : List String)
  deriving DecidableEq, Repr

/-- A call together with its outcome: `ok = false` when it returned an error. -/
structure Event where
  call : Call
  ok : Bool
  deriving DecidableEq, Repr

abbrev Trace := List Event

/-- The answers of the Docker daemon (and of the packages the adapter calls through the
client). Each method answers from the events so far and its arguments. -/
structure Client where
  GetContainerList : Trace → Except Error (List Container)
  GetContainersByComponentAndAlias : Trace → String → String → Except Error (List Container)
  GetContainerConfigHostConfigAndMounts :
    Trace → String → Except Error (ContainerConfig × HostConfig × List MountPoint)
  GetVolumes : Trace → Except Error (List Volume)
  GetVolumesByLabel : Trace → Labels → Except Error (List Volume)
  CreateVolume : Trace → String → Labels → Option Error
  RemoveVolume : Trace → String → Option Error
  PullImage : Trace → String → Option Error
  StartContainer : Trace → ContainerConfig → HostConfig → Except Error String
  RemoveContainer : Trace → String → Option Error
  WaitForContainer : Trace → String → Option Error
  StorageCreate : Trace → List Storage → Option Error
  ExecuteDevfileCommandSynchronously : Trace → Exec → String → Option Error
  ExecuteDevfileRunAction : Trace → Exec → String → Option Error
  ExecuteDevfileRunActionWithoutRestart : Trace → Exec → String → Option Error
  ExecuteCommand : Trace → String → List String → Option Error

/-- The order in which `for name := range m` visits the keys of a Go map: unspecified,
every key once. -/
structure RangeOrder where
  order : List String → List String
  perm : ∀ keys, (order keys).Perm keys

/-- Modelled from the spec: `lclient.Client.GetContainersByComponent` is missing; it keeps
the containers of the list whose `component` label is the component name. -/
def GetContainersByComponent (componentName : String) (containers : List Container) :
    List Container :=
  containers.filter (fun c => getLabel c.Labels "component" == componentName)

/-! ## `Adapter.Delete` (`adapter.go`) -/

/-- The keys of `volumesNotToDelete`: every mount name of every container that is not part
of the component. -/
def volumesNotToDelete (componentName : String) (containers : List Container) : List String :=
  (containers.filter (fun c => getLabel c.Labels "component" != componentName)).flatMap
    (fun c => c.Mounts.map (·.Name))

/-- The test under which `Delete` appends a listed volume to `vols`. -/
def isComponentVolume (componentName : String) (vol : Volume) : Bool :=
  if getLabel vol.Labels "component" == componentName then
    if (TrimSpace (getLabel vol.Labels "storage-name")).length > 0 then true
    else if getLabel vol.Labels "type" == ProjectsVolume then true
    else if getLabel vol.Labels "type" == SupervisordVolume then true
    else false
  else false

/-- The keys of `volumeNames`: the names of the mounts of type volume of a container. -/
def volumeNames (container : Container) : List String :=
  (container.Mounts.filter (fun m => m.Type_ == TypeVolume)).map (·.Name)

/-- The assignment `volumesToDelete[name] = name` on the key list of the map. -/
def addKey (keys : List String) (name : String) : List String :=
  if name ∈ keys then keys else keys ++ [name]

/-- The inner loop `for _, vol := range vols` of `Delete`, for one removed container. -/
def markVolumes (notToDelete names : List String) :
    List Volume → List String → List String
  | [], toDelete => toDelete
  | vol :: vols, toDelete =>
    if vol.Name ∈ notToDelete then markVolumes notToDelete names vols toDelete
    else if vol.Name ∈ names then
      markVolumes notToDelete names vols (addKey toDelete vol.Name)
    else markVolumes notToDelete names vols toDelete

/-- The loop `for _, container := range componentContainer` of `Delete`: the events
performed, and the error of the early return or the keys of `volumesToDelete`. -/
def removeContainers (cl : Client) (componentName : String) (vols : List Volume)
    (notToDelete : List String) :
    Trace → List Container → List String → Trace × Except Error (List String)
  | _, [], toDelete => ([], .ok toDelete)
  | h, container :: rest, toDelete =>
    match cl.RemoveContainer h container.ID with
    | some err =>
      ([⟨.RemoveContainer container.ID, false⟩],
        .error (wrap err ("unable to remove container ID " ++ container.ID ++
          " of component " ++ componentName)))
    | none =>
      let ev : Event := ⟨.RemoveContainer container.ID, true⟩
      let toDelete := markVolumes notToDelete (volumeNames container) vols toDelete
      let r := removeContainers cl componentName vols notToDelete (h ++ [ev]) rest toDelete
      (ev :: r.1, r.2)

/-- The loop `for name := range volumesToDelete` of `Delete`, on the keys in the order of
the range. -/
def removeVolumes (cl : Client) (componentName : String) :
    Trace → List String → Trace × Option Error
  | _, [] => ([], none)
  | h, name :: rest =>
    match cl.RemoveVolume h name with
    | some err =>
      ([⟨.RemoveVolume name, false⟩],
        some (wrap err ("Unable to remove volume " ++ name ++ " of component " ++
          componentName)))
    | none =>
      let ev : Event := ⟨.RemoveVolume name, true⟩
      let r := removeVolumes cl componentName (h ++ [ev]) rest
      (ev :: r.1, r.2)

/-- `Adapter.Delete`: the events performed and the error returned. -/
def Delete (cl : Client) (ord : RangeOrder) (h : Trace) (labels : Labels) :
    Trace × Option Error :=
  match labels.lookup "component" with
  | none => ([], some "unable to delete component without a component label")
  | some componentName =>
    match cl.GetContainerList h with
    | .error err =>
      ([⟨.GetContainerList, false⟩],
        some (wrap err "unable to retrieve container list for delete operation"))
    | .ok containers =>
      let t1 : Trace := [⟨.GetContainerList, true⟩]
      let notToDelete := volumesNotToDelete componentName containers
      let componentContainer := GetContainersByComponent componentName containers
      if componentContainer.length = 0 then (t1, none)
      else
        match cl.GetVolumes (h ++ t1) with
        | .error err =>
          (t1 ++ [⟨.GetVolumes, false⟩],
            some (wrap err "unable to retrieve list of all Docker volumes"))
        | .ok allVolumes =>
          let t2 : Trace := t1 ++ [⟨.GetVolumes, true⟩]
          let vols := allVolumes.filter (isComponentVolume componentName)
          match removeContainers cl componentName vols notToDelete (h ++ t2)
              componentContainer [] with
          | (t3, .error err) => (t2 ++ t3, some err)
          | (t3, .ok toDelete) =>
            let r := removeVolumes cl componentName (h ++ t2 ++ t3) (ord.order toDelete)
            (t2 ++ t3 ++ r.1, r.2)

/-! ## Helpers of other packages used by `utils.go` -/

/-- Modelled from the spec: the constant `lclient.OdoSourceVolumeMount` is missing: the
default path at which the source volume is mounted. -/
def OdoSourceVolumeMount : String := "/projects"

/-- Modelled from the spec: the constant `common.EnvCheProjectsRoot` is missing: the name
of the project-root variable. -/
def EnvCheProjectsRoot : String := "CHE_PROJECTS_ROOT"

/-- Modelled from the spec: the constant `common.EnvOdoCommandRun` is missing: the name of
the variable carrying the run command line. -/
def EnvOdoCommandRun : String := "ODO_COMMAND_RUN"

/-- Modelled from the spec: the constant `common.EnvOdoCommandRunWorkingDir` is missing:
the name of the variable carrying the working directory of the run command. -/
def EnvOdoCommandRunWorkingDir : String := "ODO_COMMAND_RUN_WORKING_DIR"

/-- Modelled from the spec: the constant `common.SupervisordMountPath` is missing: the path
at which the supervisord volume is mounted. -/
def SupervisordMountPath : String := "/opt/odo/"

/-- Modelled from the spec: the constant `common.SupervisordBinaryPath` is missing: the
supervisor process the entrypoint is rewritten to. -/
def SupervisordBinaryPath : String := "/opt/odo/bin/supervisord"

/-- Modelled from the spec: the constant `common.SupervisordConfFile` is missing: the
configuration file handed to the supervisor. -/
def SupervisordConfFile : String := "/opt/odo/conf/devfile-supervisor.conf"

/-- Modelled from the spec: `common.IsPortPresent` is missing; it tells whether one of the
declared endpoints has the port. -/
def IsPortPresent (endpoints : List Endpoint) (port : Int) : Bool :=
  endpoints.any (fun e => e.TargetPort == port)

/-- Modelled from the spec: `common.IsEnvPresent` is missing; it tells whether the list has
an entry of that name. -/
def IsEnvPresent (envVars : List Env) (envVarName : String) : Bool :=
  envVars.any (fun e => e.Name == envVarName)

/-- Modelled from the spec: `utils.AddVolumeToContainer` is missing; it attaches the named
volume to the host configuration at the path. -/
def AddVolumeToContainer (volumeName volumeMount : String) (hostConfig : HostConfig) :
    HostConfig :=
  { hostConfig with
    Mounts := hostConfig.Mounts ++ [⟨TypeVolume, volumeName, volumeMount⟩] }

/-- Modelled from the spec: `utils.ConvertEnvs` is missing; it turns the devfile variables
into the `NAME=value` strings of Docker. -/
def ConvertEnvs (vars : List Env) : List String :=
  vars.map (fun e => e.Name ++ "=" ++ e.Value)

/-- Modelled from the spec: `utils.ConvertPorts` is missing; it turns the declared
endpoints into the exposed ports of Docker. -/
def ConvertPorts (endpoints : List Endpoint) : List Port :=
  endpoints.map (fun e => ⟨e.TargetPort.toNat⟩)

/-- Modelled from the spec: `utils.GetContainerLabels` is missing; the label contract of a
managed container is `component=<name>`, `alias=<unit-name>`. -/
def GetContainerLabels (componentName containerAlias : String) : Labels :=
  [("component", componentName), ("alias", containerAlias)]

/-- Modelled from the spec: `lclient.Client.GenerateContainerConfig` is missing; it builds
the container configuration from its arguments. -/
def GenerateContainerConfig (image : String) (entrypoint cmd envVars : List String)
    (labels : Labels) (ports : List Port) : ContainerConfig :=
  ⟨image, entrypoint, cmd, envVars, labels, ports⟩

/-- Modelled from the spec: `lclient.Client.GenerateHostConfig` is missing; it builds the
host configuration from its arguments. -/
def GenerateHostConfig (isPrivileged publishPorts : Bool) (portmap : PortMap) : HostConfig :=
  ⟨isPrivileged, publishPorts, portmap, []⟩

/-- `nat.NewPort("tcp", strconv.Itoa(port))`: the port must parse as an unsigned 16-bit
number. -/
def NewPort (port : Int) : Except Error Port :=
  if 0 ≤ port ∧ port ≤ 65535 then .ok ⟨port.toNat⟩ else .error "invalid port"

/-- `Port.Port()`: the number of the port as a string. -/
def Port.port (p : Port) : String :=
  toString p.number

/-- The assignment `m[k] = v` on a Go map kept as an association list. -/
def mapSet {α β : Type} [BEq α] (m : List (α × β)) (k : α) (v : β) : List (α × β) :=
  (k, v) :: m.filter (fun kv => !(kv.1 == k))

/-! ## The component adapter (`adapter.go`, `utils.go`) -/

/-- The `Adapter` of the Docker component adapter, with what it reads from outside the
client: the working directory, `env.yaml`, and the missing functions over the devfile. -/
structure Adapter where
  Client : Client
  ComponentName : String
  /-- The field `Context` of `common.AdapterContext`. -/
  Context : String
  componentAliasToVolumes : List (String × List DevfileVolume)
  uniqueStorage : List Storage
  volumeNameToDockerVolName : Labels
  devfileRunCmd : String
  supervisordVolumeName : String
  projectVolumeName : String
  /-- The result of `common.GetSupportedComponents(a.Devfile.Data)`. -/
  supportedComponents : List DevfileComponent
  /-- The function `common.GetRunCommand(a.Devfile.Data, ·)`. -/
  GetRunCommand : String → Except Error DevfileCommand
  /-- The result of `os.Getwd()`. -/
  Getwd : Except Error String
  /-- The URL list `envinfo.NewEnvSpecificInfo(dir)` reads, `GetURL()` of it. -/
  NewEnvSpecificInfo : String → Except Error (List EnvInfoURL)
  /-- The function `utils.DoesContainerNeedUpdating`. -/
  DoesContainerNeedUpdating :
    DevfileComponent → ContainerConfig → HostConfig → List Mount → List MountPoint →
      PortMap → Bool

/-- `LocalhostIP`. -/
def LocalhostIP : String := "127.0.0.1"

/-- The loop `for _, url := range urlArr` of `getPortMap`. -/
def portMapLoop (endpoints : List Endpoint) :
    List EnvInfoURL → PortMap → List (Port × String) →
      Except Error (PortMap × List (Port × String))
  | [], portmap, namePortMapping => .ok (portmap, namePortMapping)
  | url :: urls, portmap, namePortMapping =>
    if url.ExposedPort > 0 && IsPortPresent endpoints url.Port then
      match NewPort url.Port with
      | .error err => .error err
      | .ok port =>
        portMapLoop endpoints urls
          (mapSet portmap port [⟨LocalhostIP, toString url.ExposedPort⟩])
          (mapSet namePortMapping port url.Name)
    else if url.ExposedPort > 0 && endpoints.length > 0 &&
        !IsPortPresent endpoints url.Port then
      .error ("error creating url: odo url config's port is not present in the devfile. " ++
        "Please re-create odo url with the new devfile port")
    else portMapLoop endpoints urls portmap namePortMapping

/-- `getPortMap`. The flag `show` only selects log output. -/
def getPortMap (a : Adapter) (context : String) (endpoints : List Endpoint) (_show : Bool) :
    Except Error (PortMap × List (Port × String)) :=
  let dir : Except Error String := if context == "" then a.Getwd else .ok context
  match dir with
  | .error err => .error err
  | .ok dir =>
    match a.NewEnvSpecificInfo dir with
    | .error err => .error err
    | .ok urlArr => portMapLoop endpoints urlArr [] []

/-- `Adapter.generateAndGetHostConfig`. -/
def generateAndGetHostConfig (a : Adapter) (endpoints : List Endpoint) :
    HostConfig × List (Port × String) × Option Error :=
  match getPortMap a a.Context endpoints true with
  | .error err => (⟨false, false, [], []⟩, [], some err)
  | .ok (portMap, namePortMapping) =>
    let hostConfig : HostConfig :=
      if portMap.length > 0 then GenerateHostConfig false false portMap
      else ⟨false, false, [], []⟩
    (hostConfig, namePortMapping, none)

/-- `updateComponentWithSupervisord`: the component and the host configuration after the
call. -/
def updateComponentWithSupervisord (comp : DevfileComponent) (runCommand : DevfileCommand)
    (supervisordVolumeName : String) (hostConfig : HostConfig) :
    DevfileComponent × HostConfig :=
  if runCommand.Exec.Component == comp.Container.Name then
    let hostConfig := AddVolumeToContainer supervisordVolumeName SupervisordMountPath hostConfig
    let c := comp.Container
    let c : DevfileContainer :=
      if c.Command.length == 0 && c.Args.length == 0 then
        { c with Command := c.Command ++ [SupervisordBinaryPath],
                 Args := c.Args ++ ["-c", SupervisordConfFile] }
      else c
    let c : DevfileContainer :=
      if !IsEnvPresent c.Env EnvOdoCommandRun then
        { c with Env := c.Env ++ [⟨EnvOdoCommandRun, runCommand.Exec.CommandLine⟩] }
      else c
    let c : DevfileContainer :=
      if !IsEnvPresent c.Env EnvOdoCommandRunWorkingDir && runCommand.Exec.WorkingDir != "" then
        { c with Env := c.Env ++ [⟨EnvOdoCommandRunWorkingDir, runCommand.Exec.WorkingDir⟩] }
      else c
    (⟨c⟩, hostConfig)
  else (comp, hostConfig)

/-- The block `if comp.Container.MountSources` of `startComponent`. -/
def mountSources (a : Adapter) (comp : DevfileComponent) (hostConfig : HostConfig) :
    DevfileComponent × HostConfig :=
  if comp.Container.MountSources then
    let hostConfig :=
      if comp.Container.SourceMapping != "" then
        AddVolumeToContainer a.projectVolumeName comp.Container.SourceMapping hostConfig
      else AddVolumeToContainer a.projectVolumeName OdoSourceVolumeMount hostConfig
    let c := comp.Container
    let c : DevfileContainer :=
      if !IsEnvPresent c.Env EnvCheProjectsRoot then
        { c with Env := c.Env ++ [⟨EnvCheProjectsRoot, OdoSourceVolumeMount⟩] }
      else c
    (⟨c⟩, hostConfig)
  else (comp, hostConfig)

/-- `Adapter.generateAndGetContainerConfig`. -/
def generateAndGetContainerConfig (componentName : String) (comp : DevfileComponent) :
    ContainerConfig :=
  GenerateContainerConfig comp.Container.Image comp.Container.Command comp.Container.Args
    (ConvertEnvs comp.Container.Env)
    (GetContainerLabels componentName comp.Container.Name)
    (ConvertPorts comp.Container.Endpoints)

/-- The loop `for port, urlName := range namePortMapping` that labels a container
configuration with the URL names. -/
def labelPorts (config : ContainerConfig) (namePortMapping : List (Port × String)) :
    ContainerConfig :=
  namePortMapping.foldl
    (fun cfg pu => { cfg with Labels := setLabel cfg.Labels pu.1.port pu.2 }) config

/-- `Adapter.startComponent`. -/
def startComponent (a : Adapter) (h : Trace) (mounts : List Mount) (comp : DevfileComponent) :
    Trace × Option Error :=
  match generateAndGetHostConfig a comp.Container.Endpoints with
  | (_, _, some err) => ([], some err)
  | (hostConfig, namePortMapping, none) =>
    let hostConfig := { hostConfig with Mounts := mounts }
    match a.GetRunCommand a.devfileRunCmd with
    | .error err => ([], some err)
    | .ok runCommand =>
      let (comp, hostConfig) :=
        updateComponentWithSupervisord comp runCommand a.supervisordVolumeName hostConfig
      let (comp, hostConfig) := mountSources a comp hostConfig
      let containerConfig :=
        labelPorts (generateAndGetContainerConfig a.ComponentName comp) namePortMapping
      match a.Client.StartContainer h containerConfig hostConfig with
      | .error err => ([⟨.StartContainer containerConfig hostConfig, false⟩], some err)
      | .ok _ => ([⟨.StartContainer containerConfig hostConfig, true⟩], none)

/-- `Adapter.pullAndStartContainer`. -/
def pullAndStartContainer (a : Adapter) (h : Trace) (mounts : List Mount)
    (comp : DevfileComponent) : Trace × Option Error :=
  match a.Client.PullImage h comp.Container.Image with
  | some err =>
    ([⟨.PullImage comp.Container.Image, false⟩],
      some (wrap err ("Unable to pull " ++ comp.Container.Image ++ " image")))
  | none =>
    let ev : Event := ⟨.PullImage comp.Container.Image, true⟩
    match startComponent a (h ++ [ev]) mounts comp with
    | (t, some err) =>
      (ev :: t,
        some (wrap err ("unable to start container for devfile component " ++
          comp.Container.Name)))
    | (t, none) => (ev :: t, none)

/-- The loop that fills `dockerVolumeMounts` for a component, in `createComponent` and in
`updateComponent`. -/
def dockerVolumeMounts (a : Adapter) (comp : DevfileComponent) : List Mount :=
  ((a.componentAliasToVolumes.lookup comp.Container.Name).getD []).map
    (fun vol => ⟨TypeVolume, getLabel a.volumeNameToDockerVolName vol.Name, vol.ContainerPath⟩)

/-- The loop `for _, comp := range supportedComponents` of `createComponent`. -/
def createLoop (a : Adapter) : Trace → List DevfileComponent → Trace × Option Error
  | _, [] => ([], none)
  | h, comp :: comps =>
    match pullAndStartContainer a h (dockerVolumeMounts a comp) comp with
    | (t, some err) =>
      (t, some (wrap err ("unable to pull and start container " ++ comp.Container.Name ++
        " for component " ++ a.ComponentName)))
    | (t, none) =>
      let r := createLoop a (h ++ t) comps
      (t ++ r.1, r.2)

/-- `Adapter.createComponent`. -/
def createComponent (a : Adapter) (h : Trace) : Trace × Option Error :=
  if a.supportedComponents.length == 0 then
    ([], some "no valid components found in the devfile")
  else
    match a.Client.StorageCreate h a.uniqueStorage with
    | some err =>
      ([⟨.StorageCreate a.uniqueStorage, false⟩],
        some (wrap err ("unable to create Docker storage adapter for component " ++
          a.ComponentName)))
    | none =>
      let ev : Event := ⟨.StorageCreate a.uniqueStorage, true⟩
      let r := createLoop a (h ++ [ev]) a.supportedComponents
      (ev :: r.1, r.2)

/-- How one pass through the body of the loop of `updateComponent` ends: the loop goes on
with the value of `componentExists`, or the function returns. -/
inductive Step where
  | next (componentExists : Bool)
  | ret (componentExists : Bool) (err : Error)
  deriving DecidableEq, Repr

/-- The body of the loop `for _, comp := range supportedComponents` of `updateComponent`,
entered with the current value of `componentExists`. -/
def updateUnit (a : Adapter) (h : Trace) (componentExists : Bool) (comp : DevfileComponent) :
    Trace × Step :=
  let lookup : Call := .GetContainersByComponentAndAlias a.ComponentName comp.Container.Name
  match a.Client.GetContainersByComponentAndAlias h a.ComponentName comp.Container.Name with
  | .error err =>
    ([⟨lookup, false⟩],
      .ret false (wrap err ("unable to list containers for component " ++ a.ComponentName)))
  | .ok containers =>
    let t1 : Trace := [⟨lookup, true⟩]
    let mounts := dockerVolumeMounts a comp
    match containers with
    | [] =>
      match pullAndStartContainer a (h ++ t1) mounts comp with
      | (t, some err) =>
        (t1 ++ t,
          .ret false (wrap err ("unable to pull and start container " ++ comp.Container.Name ++
            " for component " ++ a.ComponentName)))
      | (t, none) => (t1 ++ t, .next false)
    | [container] =>
      let containerID := container.ID
      match a.Client.GetContainerConfigHostConfigAndMounts (h ++ t1) containerID with
      | .error err =>
        (t1 ++ [⟨.GetContainerConfigHostConfigAndMounts containerID, false⟩],
          .ret componentExists
            (wrap err ("unable to get the container config for component " ++ a.ComponentName)))
      | .ok (containerConfig, hostConfig, containerMounts) =>
        let t2 : Trace := t1 ++ [⟨.GetContainerConfigHostConfigAndMounts containerID, true⟩]
        match getPortMap a a.Context comp.Container.Endpoints false with
        | .error err =>
          (t2, .ret componentExists
            (wrap err ("unable to get the port map from env.yaml file for component " ++
              a.ComponentName)))
        | .ok (portMap, namePortMapping) =>
          let containerConfig := labelPorts containerConfig namePortMapping
          if a.DoesContainerNeedUpdating comp containerConfig hostConfig mounts containerMounts
              portMap then
            match a.Client.RemoveContainer (h ++ t2) containerID with
            | some err =>
              (t2 ++ [⟨.RemoveContainer containerID, false⟩],
                .ret componentExists
                  (wrap err ("unable to remove container " ++ containerID ++ " for component " ++
                    comp.Container.Name)))
            | none =>
              let t3 : Trace := t2 ++ [⟨.RemoveContainer containerID, true⟩]
              match startComponent a (h ++ t3) mounts comp with
              | (t, some err) =>
                (t3 ++ t,
                  .ret false (wrap err ("unable to start container for devfile component " ++
                    comp.Container.Name)))
              | (t, none) => (t3 ++ t, .next false)
          else (t2, .next componentExists)
    | _ :: _ :: _ =>
      (t1, .ret true ("found multiple running containers for devfile component " ++
        comp.Container.Name ++ " and cannot push changes"))

/-- The loop `for _, comp := range supportedComponents` of `updateComponent` and the bare
`return` after it, which returns `componentExists` and the error `storageErr` that
`stoAdapter.Create` left in the named result `err`. -/
def updateLoop (a : Adapter) (storageErr : Option Error) :
    Trace → Bool → List DevfileComponent → Trace × Bool × Option Error
  | _, componentExists, [] => ([], componentExists, storageErr)
  | h, componentExists, comp :: comps =>
    match updateUnit a h componentExists comp with
    | (t, .ret flag err) => (t, flag, some err)
    | (t, .next flag) =>
      let r := updateLoop a storageErr (h ++ t) flag comps
      (t ++ r.1, r.2)

/-- `Adapter.updateComponent`: the events performed, `componentExists` and `err`. -/
def updateComponent (a : Adapter) (h : Trace) : Trace × Bool × Option Error :=
  let componentExists := true
  let storageErr := a.Client.StorageCreate h a.uniqueStorage
  let ev : Event := ⟨.StorageCreate a.uniqueStorage, storageErr.isNone⟩
  if a.supportedComponents.length == 0 then
    ([ev], componentExists, some "no valid components found in the devfile")
  else
    let r := updateLoop a storageErr (h ++ [ev]) componentExists a.supportedComponents
    (ev :: r.1, r.2)

/-! ## Commands and system volumes (`utils.go`), `Push` (`adapter.go`) -/

/-- `strings.HasPrefix` on the characters of two strings. -/
def hasPrefixChars : List Char → List Char → Bool
  | _, [] => true
  | [], _ :: _ => false
  | c :: s, p :: ps => c == p && hasPrefixChars s ps

/-- `strings.Contains` on the characters of two strings. -/
def containsChars : List Char → List Char → Bool
  | [], substr => hasPrefixChars [] substr
  | c :: s, substr => hasPrefixChars (c :: s) substr || containsChars s substr

/-- `strings.Contains`. -/
def Contains (s substr : String) : Bool :=
  containsChars s.data substr.data

/-- `versionsCommon.DevfileCommandGroupType`. -/
inductive DevfileCommandGroupType where
  | InitCommandGroupType
  | BuildCommandGroupType
  | RunCommandGroupType
  | TestCommandGroupType
  | DebugCommandGroupType
  deriving DecidableEq, Repr

open DevfileCommandGroupType

/-- `common.PushCommandsMap`, a Go map read with `List.lookup`. -/
abbrev PushCommandsMap := List (DevfileCommandGroupType × DevfileCommand)

/-- `common.PushParameters`. -/
structure PushParameters where
  Path : String
  IgnoredFiles : List String
  ForceBuild : Bool
  Show : Bool
  DevfileInitCmd : String
  DevfileBuildCmd : String
  DevfileRunCmd : String
  deriving DecidableEq, Repr

/-- `common.ComponentInfo`. -/
structure ComponentInfo where
  ContainerName : String
  SourceMount : String
  deriving DecidableEq, Repr

/-- `common.SyncParameters`. -/
structure SyncParameters where
  PushParams : PushParameters
  CompInfo : ComponentInfo
  ComponentExists : Bool
  deriving DecidableEq, Repr

/-- The functions of other packages of the repository that `utils.go` and `Push` call and
that are missing: each is a parameter. Those that talk to the daemon or draw a random
name answer from the events so far. -/
structure Deps where
  /-- The function `storage.GenerateVolName`. -/
  GenerateVolName : Trace → String → String → Except Error String
  /-- The function `common.IsRestartRequired`. -/
  IsRestartRequired : DevfileCommand → Bool
  /-- The function `utils.GetContainerIDForAlias`. -/
  GetContainerIDForAlias : List Container → String → String
  /-- The function `utils.GetSupervisordVolumeLabels`. -/
  GetSupervisordVolumeLabels : String → Labels
  /-- The function `common.GetBootstrapperImage`. -/
  GetBootstrapperImage : String
  /-- The function `utils.ComponentExists` on the client and the devfile. -/
  ComponentExists : Trace → String → Except Error Bool
  /-- The result of `common.GetVolumes(a.Devfile)`. -/
  GetVolumes : List (String × List DevfileVolume)
  /-- The function `storage.ProcessVolumes` on the client. -/
  ProcessVolumes :
    Trace → String → List (String × List DevfileVolume) → Except Error (List Storage × Labels)
  /-- The function `common.ValidateAndGetPushDevfileCommands` on the devfile. -/
  ValidateAndGetPushDevfileCommands : String → String → String → Except Error PushCommandsMap
  /-- The function `utils.GetComponentContainers` on the client. -/
  GetComponentContainers : Trace → String → Except Error (List Container)
  /-- The method `SyncFiles` of the sync adapter. -/
  SyncFiles : Trace → SyncParameters → Except Error Bool

/-- Modelled from the spec: the constant `lclient.ProjectSourceVolumeName` is missing: the
name the source-sync volume is generated from and recognised by. -/
def ProjectSourceVolumeName : String := "odo-project-source"

/-- Modelled from the spec: the constant `common.SupervisordVolumeName` is missing: the
name the bootstrap volume is generated from. -/
def SupervisordVolumeName : String := "odo-supervisord-shared-data"

/-- Modelled from the spec: the constant `common.OdoInitImageContents` is missing: the
payload the bootstrap container copies into the volume. -/
def OdoInitImageContents : String := "/opt/odo-init/."

/-- Modelled from the spec: `utils.GetProjectVolumeLabels` is missing; the source-sync
volume of a component is labelled `component=<name>` and with the projects type. -/
def GetProjectVolumeLabels (componentName : String) : Labels :=
  [("component", componentName), ("type", ProjectsVolume)]

/-- One call of `exec.ExecuteDevfileCommandSynchronously` for a command, in the container
of its component. -/
def execCommand (d : Deps) (a : Adapter) (h : Trace) (containers : List Container)
    (command : DevfileCommand) : Trace × Option Error :=
  let containerID := d.GetContainerIDForAlias containers command.Exec.Component
  let err := a.Client.ExecuteDevfileCommandSynchronously h command.Exec containerID
  ([⟨.ExecuteDevfileCommandSynchronously command.Exec containerID, err.isNone⟩], err)

/-- The loop of `initRunContainerSupervisord`, entered with the value of the named result
`err`: every pass that starts the supervisor assigns it anew. -/
def initRunContainerSupervisordLoop (a : Adapter) (component : String) :
    Trace → Option Error → List Container → Trace × Option Error
  | _, err, [] => ([], err)
  | h, err, container :: rest =>
    if getLabel container.Labels "alias" == component &&
        !Contains container.Command SupervisordBinaryPath then
      let command := [SupervisordBinaryPath, "-c", SupervisordConfFile, "-d"]
      let err := a.Client.ExecuteCommand h container.ID command
      let ev : Event := ⟨.ExecuteCommand container.ID command, err.isNone⟩
      let r := initRunContainerSupervisordLoop a component (h ++ [ev]) err rest
      (ev :: r.1, r.2)
    else initRunContainerSupervisordLoop a component h err rest

/-- `Adapter.initRunContainerSupervisord`. -/
def initRunContainerSupervisord (a : Adapter) (h : Trace) (component : String)
    (containers : List Container) : Trace × Option Error :=
  initRunContainerSupervisordLoop a component h none containers

/-- The block `if !componentExists` of `execDevfile`: the init command. -/
def execInit (d : Deps) (a : Adapter) (h : Trace) (commandsMap : PushCommandsMap)
    (componentExists : Bool) (containers : List Container) : Trace × Option Error :=
  if !componentExists then
    match commandsMap.lookup InitCommandGroupType with
    | some command => execCommand d a h containers command
    | none => ([], none)
  else ([], none)

/-- The block `// Get Build Command` of `execDevfile`. -/
def execBuild (d : Deps) (a : Adapter) (h : Trace) (commandsMap : PushCommandsMap)
    (containers : List Container) : Trace × Option Error :=
  match commandsMap.lookup BuildCommandGroupType with
  | some command => execCommand d a h containers command
  | none => ([], none)

/-- The block `// Get Run command` of `execDevfile`, to the end of the function. -/
def execRun (d : Deps) (a : Adapter) (h : Trace) (commandsMap : PushCommandsMap)
    (componentExists : Bool) (containers : List Container) : Trace × Option Error :=
  match commandsMap.lookup RunCommandGroupType with
  | none => ([], none)
  | some command =>
    let started : Trace × Option Error :=
      if !componentExists then initRunContainerSupervisord a h command.Exec.Component containers
      else ([], none)
    match started with
    | (t, some err) => (t, some err)
    | (t, none) =>
      let containerID := d.GetContainerIDForAlias containers command.Exec.Component
      if componentExists && !d.IsRestartRequired command then
        let err := a.Client.ExecuteDevfileRunActionWithoutRestart (h ++ t) command.Exec containerID
        (t ++ [⟨.ExecuteDevfileRunActionWithoutRestart command.Exec containerID, err.isNone⟩],
          err)
      else
        let err := a.Client.ExecuteDevfileRunAction (h ++ t) command.Exec containerID
        (t ++ [⟨.ExecuteDevfileRunAction command.Exec containerID, err.isNone⟩], err)

/-- `Adapter.execDevfile`. The flag `show` only selects output. -/
def execDevfile (d : Deps) (a : Adapter) (h : Trace) (commandsMap : PushCommandsMap)
    (componentExists _show : Bool) (containers : List Container) : Trace × Option Error :=
  if commandsMap.length == 0 then
    ([], some "error executing devfile commands - there should be at least 1 command")
  else
    match execInit d a h commandsMap componentExists containers with
    | (t1, some err) => (t1, some err)
    | (t1, none) =>
      match execBuild d a (h ++ t1) commandsMap containers with
      | (t2, some err) => (t1 ++ t2, some err)
      | (t2, none) =>
        let r := execRun d a (h ++ t1 ++ t2) commandsMap componentExists containers
        (t1 ++ t2 ++ r.1, r.2)

/-- `Adapter.createProjectVolumeIfReqd`: the events performed, and the error or the name
of the project volume. -/
def createProjectVolumeIfReqd (d : Deps) (a : Adapter) (h : Trace) :
    Trace × Except Error String :=
  let componentName := a.ComponentName
  let projectVolumeLabels := GetProjectVolumeLabels componentName
  match a.Client.GetVolumesByLabel h projectVolumeLabels with
  | .error err =>
    ([⟨.GetVolumesByLabel projectVolumeLabels, false⟩],
      .error (wrap err ("unable to retrieve source volume for component " ++ componentName)))
  | .ok projectVols =>
    let t1 : Trace := [⟨.GetVolumesByLabel projectVolumeLabels, true⟩]
    match projectVols with
    | [] =>
      match d.GenerateVolName (h ++ t1) ProjectSourceVolumeName componentName with
      | .error err =>
        (t1, .error (wrap err ("unable to generate project source volume name for component " ++
          componentName)))
      | .ok projectVolumeName =>
        match a.Client.CreateVolume (h ++ t1) projectVolumeName projectVolumeLabels with
        | some err =>
          (t1 ++ [⟨.CreateVolume projectVolumeName projectVolumeLabels, false⟩],
            .error (wrap err ("unable to create project source volume for component " ++
              componentName)))
        | none =>
          (t1 ++ [⟨.CreateVolume projectVolumeName projectVolumeLabels, true⟩],
            .ok projectVolumeName)
    | [vol] => (t1, .ok vol.Name)
    | _ :: _ :: _ =>
      (t1, .error ("multiple source volumes found for component " ++ componentName))

/-- `Adapter.startBootstrapSupervisordInitContainer`. -/
def startBootstrapSupervisordInitContainer (d : Deps) (a : Adapter) (h : Trace)
    (supervisordVolumeName : String) : Trace × Option Error :=
  let supervisordLabels := d.GetSupervisordVolumeLabels a.ComponentName
  let image := d.GetBootstrapperImage
  let command := ["/usr/bin/cp"]
  let args := ["-r", OdoInitImageContents, SupervisordMountPath]
  match a.Client.PullImage h image with
  | some err => ([⟨.PullImage image, false⟩], some (wrap err ("unable to pull " ++ image ++ " image")))
  | none =>
    let t1 : Trace := [⟨.PullImage image, true⟩]
    let containerConfig := GenerateContainerConfig image command args [] supervisordLabels []
    let hostConfig :=
      AddVolumeToContainer supervisordVolumeName SupervisordMountPath ⟨false, false, [], []⟩
    match a.Client.StartContainer (h ++ t1) containerConfig hostConfig with
    | .error err => (t1 ++ [⟨.StartContainer containerConfig hostConfig, false⟩], some err)
    | .ok containerID =>
      let t2 : Trace := t1 ++ [⟨.StartContainer containerConfig hostConfig, true⟩]
      match a.Client.WaitForContainer (h ++ t2) containerID with
      | some err =>
        (t2 ++ [⟨.WaitForContainer containerID, false⟩],
          some (wrap err ("supervisord init container " ++ containerID ++ " failed to complete")))
      | none =>
        let t3 : Trace := t2 ++ [⟨.WaitForContainer containerID, true⟩]
        match a.Client.RemoveContainer (h ++ t3) containerID with
        | some err =>
          (t3 ++ [⟨.RemoveContainer containerID, false⟩],
            some (wrap err ("unable to remove supervisord init container " ++ containerID)))
        | none => (t3 ++ [⟨.RemoveContainer containerID, true⟩], none)

/-- `Adapter.createAndInitSupervisordVolumeIfReqd`: the events performed, and the error or
the name of the supervisord volume. -/
def createAndInitSupervisordVolumeIfReqd (d : Deps) (a : Adapter) (h : Trace)
    (componentExists : Bool) : Trace × Except Error String :=
  let componentName := a.ComponentName
  let supervisordLabels := d.GetSupervisordVolumeLabels componentName
  match a.Client.GetVolumesByLabel h supervisordLabels with
  | .error err =>
    ([⟨.GetVolumesByLabel supervisordLabels, false⟩],
      .error (wrap err "unable to retrieve supervisord volume for component"))
  | .ok supervisordVolumes =>
    let t1 : Trace := [⟨.GetVolumesByLabel supervisordLabels, true⟩]
    let named : Trace × Except Error String :=
      match supervisordVolumes with
      | [] =>
        match d.GenerateVolName (h ++ t1) SupervisordVolumeName componentName with
        | .error err => (t1, .error (wrap err "unable to generate volume name for supervisord"))
        | .ok supervisordVolumeName =>
          match a.Client.CreateVolume (h ++ t1) supervisordVolumeName supervisordLabels with
          | some err =>
            (t1 ++ [⟨.CreateVolume supervisordVolumeName supervisordLabels, false⟩],
              .error (wrap err "unable to create supervisord volume for component"))
          | none =>
            (t1 ++ [⟨.CreateVolume supervisordVolumeName supervisordLabels, true⟩],
              .ok supervisordVolumeName)
      | vol :: _ => (t1, .ok vol.Name)
    match named with
    | (t2, .error err) => (t2, .error err)
    | (t2, .ok supervisordVolumeName) =>
      if !componentExists then
        match startBootstrapSupervisordInitContainer d a (h ++ t2) supervisordVolumeName with
        | (t3, some err) =>
          (t2 ++ t3, .error (wrap err "unable to start supervisord container for component"))
        | (t3, none) => (t2 ++ t3, .ok supervisordVolumeName)
      else (t2, .ok supervisordVolumeName)

/-- `getFirstContainerWithSourceVolume`: the ID of the container, the destination of the
mount, and the error. -/
def getFirstContainerWithSourceVolume : List Container → String × String × Option Error
  | [] =>
    ("", "", some ("in order to sync files, odo requires at least one component in a " ++
      "devfile to set \x27mountSources: true\x27"))
  | c :: containers =>
    match c.Mounts.find? (fun m => Contains m.Name ProjectSourceVolumeName) with
    | some m => (c.ID, m.Destination, none)
    | none => getFirstContainerWithSourceVolume containers

/-- `Adapter.Push`: the events performed and the error returned. The adapter is the
receiver, whose fields `Push` assigns on its way. -/
def Push (d : Deps) (a : Adapter) (h : Trace) (parameters : PushParameters) :
    Trace × Option Error :=
  match d.ComponentExists h a.ComponentName with
  | .error err =>
    ([], some (wrap err ("unable to determine if component " ++ a.ComponentName ++ " exists")))
  | .ok componentExists =>
    let a := { a with componentAliasToVolumes := d.GetVolumes }
    match d.ProcessVolumes h a.ComponentName a.componentAliasToVolumes with
    | .error err =>
      ([], some (wrap err ("unable to process volumes for component " ++ a.ComponentName)))
    | .ok (uniqueStorage, volumeNameToDockerVolName) =>
      let a := { a with
        uniqueStorage := uniqueStorage
        volumeNameToDockerVolName := volumeNameToDockerVolName
        devfileRunCmd := parameters.DevfileRunCmd }
      match d.ValidateAndGetPushDevfileCommands parameters.DevfileInitCmd
          parameters.DevfileBuildCmd parameters.DevfileRunCmd with
      | .error err =>
        ([], some (wrap err "failed to validate devfile build and run commands"))
      | .ok pushDevfileCommands =>
        match createAndInitSupervisordVolumeIfReqd d a h componentExists with
        | (t1, .error err) =>
          (t1, some (wrap err ("unable to create supervisord volume for component " ++
            a.ComponentName)))
        | (t1, .ok supervisordVolumeName) =>
          let a := { a with supervisordVolumeName := supervisordVolumeName }
          match createProjectVolumeIfReqd d a (h ++ t1) with
          | (t2, .error err) =>
            (t1 ++ t2,
              some (wrap err ("unable to determine the project source volume for component " ++
                a.ComponentName)))
          | (t2, .ok projectVolumeName) =>
            let a := { a with projectVolumeName := projectVolumeName }
            let reconciled : Trace × Bool × Option Error :=
              if componentExists then updateComponent a (h ++ t1 ++ t2)
              else
                let r := createComponent a (h ++ t1 ++ t2)
                (r.1, componentExists, r.2)
            match reconciled with
            | (t3, _, some err) =>
              (t1 ++ t2 ++ t3, some (wrap err "unable to create or update component"))
            | (t3, componentExists, none) =>
              let t := t1 ++ t2 ++ t3
              match d.GetComponentContainers (h ++ t) a.ComponentName with
              | .error err =>
                (t, some (wrap err ("error while retrieving container for odo component " ++
                  a.ComponentName)))
              | .ok containers =>
                match getFirstContainerWithSourceVolume containers with
                | (_, _, some err) =>
                  (t, some (wrap err ("error while retrieving container for odo component " ++
                    a.ComponentName ++ " with a mounted project volume")))
                | (containerID, sourceMount, none) =>
                  let compInfo : ComponentInfo := ⟨containerID, sourceMount⟩
                  let syncParams : SyncParameters := ⟨parameters, compInfo, componentExists⟩
                  match d.SyncFiles (h ++ t) syncParams with
                  | .error err =>
                    (t, some (wrap err ("failed to sync to component with name " ++
                      a.ComponentName)))
                  | .ok execRequired =>
                    if execRequired then
                      match execDevfile d a (h ++ t) pushDevfileCommands componentExists
                          parameters.Show containers with
                      | (t4, some err) =>
                        (t ++ t4,
                          some (wrap err ("failed to execute devfile commands for component " ++
                            a.ComponentName)))
                      | (t4, none) => (t ++ t4, none)
                    else (t, none)

/-! ## Devfile validation (`pkg/devfile/validate`) -/

/-- `common.DevfileComponent` as `validateComponents` reads it: the pointer `Container` is
`nil` for a component that is not of type container. -/
structure validate.DevfileComponent where
  Container : Option DevfileContainer
  deriving DecidableEq, Repr

/-- `ErrorNoComponents`. -/
def ErrorNoComponents : String := "no components present"

/-- Modelled from the spec: the constant `common.ContainerComponentType` is missing: the
type of a container component. -/
def ContainerComponentType : String := "container"

/-- `ErrorNoContainerComponent`. -/
def ErrorNoContainerComponent : String :=
  "odo requires atleast one component of type \x27" ++ ContainerComponentType ++
    "\x27 in devfile"

/-- The loop of `validateComponents` that sets `isContainerComponentPresent` and breaks at
the first component of type container. -/
def isContainerComponentPresent : List validate.DevfileComponent → Bool
  | [] => false
  | component :: components =>
    if component.Container.isSome then true else isContainerComponentPresent components

/-- `validateComponents`. -/
def validateComponents (components : List validate.DevfileComponent) : Option Error :=
  if components.length < 1 then some ErrorNoComponents
  else if !isContainerComponentPresent components then some ErrorNoContainerComponent
  else none

/-! ## Catalog describe (`pkg/odo/cli/catalog/describe/component.go`) -/

/-- `errors.Wrapf` of `github.com/pkg/errors`: `nil` when the error is `nil`, the error
with the message in front otherwise. -/
def Wrapf (err : Option Error) (msg : String) : Option Error :=
  match err with
  | none => none
  | some e => some (wrap e msg)

/-- `catalog.DevfileComponentType` (the fields the command reads). -/
structure DevfileComponentType where
  Name : String
  Link : String
  Registry : String
  deriving DecidableEq, Repr

/-- `DescribeComponentOptions`, without the generic context. -/
structure DescribeComponentOptions where
  componentName : String
  devfileComponents : List DevfileComponentType
  component : String
  deriving DecidableEq, Repr

/-- `DescribeComponentOptions.GetDevfileComponentsByName`: the options after the call. -/
def DescribeComponentOptions.GetDevfileComponentsByName (o : DescribeComponentOptions)
    (items : List DevfileComponentType) : DescribeComponentOptions :=
  { o with
    devfileComponents :=
      o.devfileComponents ++ items.filter (fun devfileComponent =>
        devfileComponent.Name == o.componentName) }

/-- `DescribeComponentOptions.Validate`. The named result `err` is `nil` when it is handed
to `errors.Wrapf`. -/
def DescribeComponentOptions.Validate (o : DescribeComponentOptions) : Option Error :=
  let err : Option Error := none
  if o.devfileComponents.length == 0 && o.component == "" then
    Wrapf err ("No components with the name \"" ++ o.componentName ++ "\" found")
  else none

/-! ## Services (`pkg/service/service.go`) -/

/-- `provisionedAndBoundStatus`. -/
def provisionedAndBoundStatus : String := "ProvisionedAndBound"

/-- `provisionedAndLinkedStatus`. -/
def provisionedAndLinkedStatus : String := "ProvisionedAndLinked"

/-- `Service`: the name of its `ObjectMeta`, its `Spec` and the status of its `Status`. -/
structure Service where
  Name : String
  Type_ : String
  Plan : String
  Status : String
  deriving DecidableEq, Repr

/-- `corev1.Secret` (its name). -/
structure Secret where
  Name : String
  deriving DecidableEq, Repr

/-- `corev1.EnvFromSource`: the name of the secret the pointer `SecretRef` refers to, `none`
when the pointer is `nil` (a source that is a config map). -/
structure EnvFromSource where
  SecretRef : Option String
  deriving DecidableEq, Repr

/-- `corev1.Container` of a pod template (the field `EnvFrom`). -/
structure PodContainer where
  EnvFrom : List EnvFromSource
  deriving DecidableEq, Repr

/-- `appsv1.DeploymentConfig`: the containers `Spec.Template.Spec.Containers` of its pod
template. -/
structure DeploymentConfig where
  Name : String
  Containers : List PodContainer
  deriving DecidableEq, Repr

/-- The inner loop `for _, env := range ...EnvFrom` of
`updateStatusIfMatchingDeploymentExists` with what follows it in the pass: the services
and `foundMatchingSecret` after the loop; `none` when `env.SecretRef` is `nil` and the read
of its name panics. The loop ends with `break` in its first pass. -/
def envFromLoop (secretName : String) (services : List Service) (index : Nat) :
    List EnvFromSource → Option (List Service × Bool)
  | [] => some (services, false)
  | env :: _ =>
    match env.SecretRef with
    | none => none
    | some name =>
      let services :=
        if name == secretName then
          services.modify (fun s => { s with Status := provisionedAndLinkedStatus }) index
        else services
      some (services, true)

/-- `updateStatusIfMatchingDeploymentExists`: the services after the call, `none` when the
call panics (a deployment configuration without container, a source without secret). -/
def updateStatusIfMatchingDeploymentExists :
    List DeploymentConfig → String → List Service → Nat → Option (List Service)
  | [], _, services, _ => some services
  | dc :: dcs, secretName, services, index =>
    match dc.Containers with
    | [] => none
    | container :: _ =>
      match envFromLoop secretName services index container.EnvFrom with
      | none => none
      | some (services, foundMatchingSecret) =>
        if foundMatchingSecret then some services
        else updateStatusIfMatchingDeploymentExists dcs secretName services index

/-- The loop `for _, secret := range secrets` of `ListWithDetailedStatus` for the service
at index `i`. -/
def secretsLoop (deploymentConfigs : List DeploymentConfig) (serviceName : String) (i : Nat) :
    List Secret → List Service → Option (List Service)
  | [], items => some items
  | secret :: secrets, items =>
    if secret.Name == serviceName then
      let items := items.modify (fun s => { s with Status := provisionedAndBoundStatus }) i
      updateStatusIfMatchingDeploymentExists deploymentConfigs secret.Name items i
    else secretsLoop deploymentConfigs serviceName i secrets items

/-- The loop `for i, service := range services.Items` of `ListWithDetailedStatus`, on the
services `range` still has to visit, from index `i`. -/
def servicesLoop (deploymentConfigs : List DeploymentConfig) (secrets : List Secret) :
    List Service → Nat → List Service → Option (List Service)
  | [], _, items => some items
  | service :: rest, i, items =>
    match secretsLoop deploymentConfigs service.Name i secrets items with
    | none => none
    | some items => servicesLoop deploymentConfigs secrets rest (i + 1) items

/-- The answers of the cluster to `ListWithDetailedStatus`: the services `List` returns for
the application, the secrets, and the deployment configurations of the application. -/
structure Cluster where
  ListSecrets : String → Except Error (List Secret)
  GetDeploymentConfigsFromSelector : String → Except Error (List DeploymentConfig)
  /-- The selector `util.ConvertLabelsToSelector` builds for the application label. -/
  applicationSelector : String → String
  /-- The result of `List(client, applicationName)`. -/
  List : String → Except Error (List Service)

/-- `ListWithDetailedStatus`: the items of the list returned or the error; `none` when the
call panics. -/
def ListWithDetailedStatus (client : Cluster) (applicationName : String) :
    Option (Except Error (List Service)) :=
  match client.List applicationName with
  | .error err => some (.error err)
  | .ok services =>
    match client.ListSecrets "" with
    | .error err =>
      some (.error (wrap err "unable to list secrets as part of the bindings check"))
    | .ok secrets =>
      match client.GetDeploymentConfigsFromSelector (client.applicationSelector applicationName) with
      | .error err => some (.error err)
      | .ok deploymentConfigs =>
        match servicesLoop deploymentConfigs secrets services 0 services with
        | none => none
        | some items => some (.ok items)

/-! ## Properties of `Delete`, in the words of the specification -/

/-- A label value is non-blank when it has a character that is not white space. -/
def nonBlank (s : String) : Prop :=
  ∃ c ∈ s.data, isSpace c = false

/-- Stated from the spec: the ownership predicate of a volume, `component=<target>` together
with a non-blank `storage-name` label or a `type` label of the projects or supervisord
volume. -/
def IsCandidate (target : String) (v : Volume) : Prop :=
  getLabel v.Labels "component" = target ∧
    (nonBlank (getLabel v.Labels "storage-name") ∨ getLabel v.Labels "type" = ProjectsVolume ∨
      getLabel v.Labels "type" = SupervisordVolume)

/-- Stated from the spec: the name is mounted, with mount type volume, into a container
whose `component` label is the target. -/
def IsMounted (containers : List Container) (target name : String) : Prop :=
  ∃ c ∈ containers, getLabel c.Labels "component" = target ∧
    ∃ m ∈ c.Mounts, m.Type_ = TypeVolume ∧ m.Name = name

/-- Stated from the spec: the name is a mount name of a container whose `component` label
differs from the target. -/
def IsExcluded (containers : List Container) (target name : String) : Prop :=
  ∃ c ∈ containers, getLabel c.Labels "component" ≠ target ∧ ∃ m ∈ c.Mounts, m.Name = name

/-! ## Properties of traces -/

/-- The calls that remove a container, start a container or pull an image. -/
def Call.mutates : Call → Bool
  | .RemoveContainer _ => true
  | .StartContainer _ _ => true
  | .PullImage _ => true
  | _ => false

/-- Every start of a container in the trace comes right after the event `before config`,
`config` being the configuration of the container started. -/
def StartsFollow (before : ContainerConfig → Event) (t : Trace) : Prop :=
  ∀ i config hostConfig ok, t[i]? = some ⟨.StartContainer config hostConfig, ok⟩ →
    ∃ j, i = j + 1 ∧ t[j]? = some (before config)

/-- The successful pull of the image of a configuration. -/
def pullOf (config : ContainerConfig) : Event :=
  ⟨.PullImage config.Image, true⟩

/-- The check of `StartsFollow` along a trace, `prev` being the event before it. -/
def startsFollow (before : ContainerConfig → Event) : Option Event → Trace → Bool
  | _, [] => true
  | prev, e :: rest =>
    (match e.call with
      | .StartContainer config _ => prev == some (before config)
      | _ => true) && startsFollow before (some e) rest

/-- The event of the lookup of the containers of a unit. -/
def lookupEvent (a : Adapter) (comp : DevfileComponent) : Event :=
  ⟨.GetContainersByComponentAndAlias a.ComponentName comp.Container.Name, true⟩

/-- The calls that pull an image. -/
def Call.isPull : Call → Bool
  | .PullImage _ => true
  | _ => false

/-- The calls that start a container. -/
def Call.isStart : Call → Bool
  | .StartContainer _ _ => true
  | _ => false

/-! ## Properties of traces of commands -/

/-- The calls that execute a devfile command synchronously (init, build). -/
def Call.isSync : Call → Bool
  | .ExecuteDevfileCommandSynchronously _ _ => true
  | _ => false

/-- The calls that execute the run command, with or without restart. -/
def Call.isRunAction : Call → Bool
  | .ExecuteDevfileRunAction _ _ => true
  | .ExecuteDevfileRunActionWithoutRestart _ _ => true
  | _ => false

/-- The synchronous executions of a trace, in order. -/
def syncs (t : Trace) : Trace :=
  t.filter (fun e => e.call.isSync)

/-- The executions of the run command of a trace, in order. -/
def runActions (t : Trace) : Trace :=
  t.filter (fun e => e.call.isRunAction)

/-- The event of the synchronous execution of a command with its outcome. -/
def syncEvent (d : Deps) (containers : List Container) (command : DevfileCommand) (ok : Bool) :
    Event :=
  ⟨.ExecuteDevfileCommandSynchronously command.Exec
    (d.GetContainerIDForAlias containers command.Exec.Component), ok⟩

/-- The volumes created with success and with the given labels by the events of a trace. -/
def createdVolumes (labels : Labels) : Trace → List Volume
  | [] => []
  | ⟨.CreateVolume name l, true⟩ :: t =>
    if l = labels then ⟨name, l⟩ :: createdVolumes labels t else createdVolumes labels t
  | _ :: t => createdVolumes labels t

/-- The event of the lookup of the source volumes of the component. -/
def projectLookupEvent (a : Adapter) : Event :=
  ⟨.GetVolumesByLabel (GetProjectVolumeLabels a.ComponentName), true⟩

/-- Stated from the spec: the unit has no observed container, so that its container is
created. -/
def IsCreated (obs : String → Except Error (List Container)) (u : DevfileComponent) : Prop :=
  obs u.Container.Name = .ok []

/-- Stated from the spec: the unit has exactly one observed container, whose observed
spec is compared with the desired one: `needs = true` when it drifted and the container
is replaced, `needs = false` when the container needs no update. -/
def ObservedOne (a : Adapter) (obs : String → Except Error (List Container))
    (insp : String → Except Error (ContainerConfig × HostConfig × List MountPoint))
    (u : DevfileComponent) (needs : Bool) : Prop :=
  ∃ c cfg hc ms pm npm,
    obs u.Container.Name = .ok [c] ∧ insp c.ID = .ok (cfg, hc, ms) ∧
    getPortMap a a.Context u.Container.Endpoints false = .ok (pm, npm) ∧
    a.DoesContainerNeedUpdating u (labelPorts cfg npm) hc (dockerVolumeMounts a u) ms pm = needs

/-- The number of entries of a name in a list of variables. -/
def countName (envVars : List Env) (name : String) : Nat :=
  (envVars.filter (fun e => e.Name == name)).length

/-- The configurations of the containers that the events of a trace start. -/
def startedConfigs : Trace → List (ContainerConfig × HostConfig)
  | [] => []
  | ⟨.StartContainer config hostConfig, _⟩ :: t => (config, hostConfig) :: startedConfigs t
  | _ :: t => startedConfigs t

/-- Stated from the spec: the mount is a mount of the source-sync volume, its name has the
name of the source volume in it. -/
def IsSourceMount (m : MountPoint) : Prop :=
  Contains m.Name ProjectSourceVolumeName = true

/-- The calls that remove a volume. -/
def Call.isRemoveVolume : Call → Bool
  | .RemoveVolume _ => true
  | _ => false

/-- Stated from the spec: the entry of a port map comes from a configured URL whose exposed
port is positive and whose port is declared among the endpoints, and its bindings are the
one binding of that exposed port on the loopback address. -/
def IsLoopbackBinding (endpoints : List Endpoint) (urlArr : List EnvInfoURL)
    (entry : Port × List PortBinding) : Prop :=
  ∃ url ∈ urlArr, NewPort url.Port = .ok entry.1 ∧ 0 < url.ExposedPort ∧
    (∃ e ∈ endpoints, e.TargetPort = url.Port) ∧
    entry.2 = [⟨"127.0.0.1", toString url.ExposedPort⟩]

/-! ## Docker states used in the examples -/

/-- A client on which every call succeeds and every listing is empty. -/
def Client.quiet : Client where
  GetContainerList := fun _ => .ok []
  GetContainersByComponentAndAlias := fun _ _ _ => .ok []
  GetContainerConfigHostConfigAndMounts := fun _ _ =>
    .ok (⟨"", [], [], [], [], []⟩, ⟨false, false, [], []⟩, [])
  GetVolumes := fun _ => .ok []
  GetVolumesByLabel := fun _ _ => .ok []
  CreateVolume := fun _ _ _ => none
  RemoveVolume := fun _ _ => none
  PullImage := fun _ _ => none
  StartContainer := fun _ _ _ => .ok "started"
  RemoveContainer := fun _ _ => none
  WaitForContainer := fun _ _ => none
  StorageCreate := fun _ _ => none
  ExecuteDevfileCommandSynchronously := fun _ _ _ => none
  ExecuteDevfileRunAction := fun _ _ _ => none
  ExecuteDevfileRunActionWithoutRestart := fun _ _ _ => none
  ExecuteCommand := fun _ _ _ => none

/-- A daemon that lists these containers and volumes and on which no call fails. -/
def daemon (containers : List Container) (volumes : List Volume) : Client :=
  { Client.quiet with
    GetContainerList := fun _ => .ok containers
    GetVolumes := fun _ => .ok volumes }

/-- The containers a daemon still lists after the events of a trace: a container removed
with success is gone. -/
def containersAfter (t : Trace) (containers : List Container) : List Container :=
  containers.filter (fun c => decide ((⟨.RemoveContainer c.ID, true⟩ : Event) ∉ t))

/-- The volumes a daemon still lists after the events of a trace: a volume removed with
success is gone. -/
def volumesAfter (t : Trace) (volumes : List Volume) : List Volume :=
  volumes.filter (fun v => decide ((⟨.RemoveVolume v.Name, true⟩ : Event) ∉ t))

/-- The range order that visits the keys in the order of their insertion. -/
def RangeOrder.insertion : RangeOrder :=
  ⟨fun keys => keys, fun _ => List.Perm.refl _⟩

/-- The range order that visits the keys against the order of their insertion. -/
def RangeOrder.reversed : RangeOrder :=
  ⟨fun keys => keys.reverse, fun keys => List.reverse_perm keys⟩

/-- `containerWithMount` of `TestAdapterDeleteVolumes`. -/
def containerWithMount (componentName : String) (mountPoints : List MountPoint) : Container :=
  ⟨componentName, "", "", [("component", componentName)], mountPoints⟩

/-- A mount point of `TestAdapterDeleteVolumes`: a name and a type. -/
def mountPoint (name type : String) : MountPoint :=
  ⟨type, name, "", ""⟩

/-- The containers of Case 3 of `TestAdapterDeleteVolumes`. -/
def case3Containers : List Container :=
  [containerWithMount "my-component" [mountPoint "my-src-mount" TypeBind]]

/-- The volumes of Case 3 of `TestAdapterDeleteVolumes`. -/
def case3Volumes : List Volume :=
  [⟨"my-src-mount", [("component", "my-component"), ("type", "projects")]⟩]

/-- The containers of Case 5 of `TestAdapterDeleteVolumes`. -/
def case5Containers : List Container :=
  [containerWithMount "my-component"
    [mountPoint "my-src-mount" TypeVolume, mountPoint "my-storage-mount" TypeVolume,
     mountPoint "another-volume-1" TypeVolume, mountPoint "another-volume-2" TypeVolume]]

/-- The near-miss volume `another-volume-1` of Case 5. -/
def nearMissType : Volume :=
  ⟨"another-volume-1", [("component", "my-component"), ("type", "projects-but-not-really")]⟩

/-- The near-miss volume `another-volume-2` of Case 5. -/
def nearMissKey : Volume :=
  ⟨"another-volume-2",
    [("component", "my-component"), ("storage-name-but-not-really", "anyval")]⟩

/-- The volumes of Case 5 of `TestAdapterDeleteVolumes`. -/
def case5Volumes : List Volume :=
  [⟨"my-src-mount", [("component", "my-component"), ("type", "projects")]⟩,
   ⟨"my-storage-mount", [("component", "my-component"), ("storage-name", "anyval")]⟩,
   nearMissType, nearMissKey]

/-- The containers of Case 6 of `TestAdapterDeleteVolumes`. -/
def case6Containers : List Container :=
  [containerWithMount "my-component" [mountPoint "my-storage-mount" TypeVolume],
   containerWithMount "a-non-odo-container-for-example"
     [mountPoint "my-storage-mount" TypeVolume]]

/-- The volumes of Case 6 of `TestAdapterDeleteVolumes`: the shared volume carries the
labels of `my-component`. -/
def case6Volumes : List Volume :=
  [⟨"my-storage-mount", [("component", "my-component"), ("storage-name", "anyval")]⟩]

/-- Case 6 with the shared volume labelled for the second component. -/
def sharedVolumes : List Volume :=
  [⟨"my-storage-mount",
    [("component", "a-non-odo-container-for-example"), ("storage-name", "anyval")]⟩]

/-- A devfile unit with a name and an image and nothing else declared. -/
def unit (name image : String) : DevfileComponent :=
  ⟨⟨name, image, [], [], [], [], false, ""⟩⟩

/-- An observed container of component `nodejs` with an ID and an alias. -/
def observed (id containerAlias : String) : Container :=
  ⟨id, "", "", [("component", "nodejs"), ("alias", containerAlias)], []⟩

/-- An adapter of component `nodejs` on a daemon where the unit `tools` has no container,
the unit `runtime` has one and the unit `db` has two; `needsUpdating` is the answer of
`DoesContainerNeedUpdating`. -/
def exampleAdapter (units : List DevfileComponent) (needsUpdating : Bool) : Adapter where
  Client := { Client.quiet with
    GetContainersByComponentAndAlias := fun _ _ containerAlias =>
      if containerAlias == "runtime" then .ok [observed "r1" "runtime"]
      else if containerAlias == "db" then .ok [observed "d1" "db", observed "d2" "db"]
      else .ok [] }
  ComponentName := "nodejs"
  Context := "/home/user/nodejs"
  componentAliasToVolumes := []
  uniqueStorage := []
  volumeNameToDockerVolName := []
  devfileRunCmd := ""
  supervisordVolumeName := "supervisord-nodejs"
  projectVolumeName := "projects-nodejs"
  supportedComponents := units
  GetRunCommand := fun _ => .ok ⟨⟨"run", "npm start", "runtime", "", []⟩⟩
  Getwd := .ok "/home/user/nodejs"
  NewEnvSpecificInfo := fun _ => .ok []
  DoesContainerNeedUpdating := fun _ _ _ _ _ _ => needsUpdating

/-- The unit `runtime`. -/
def runtimeUnit : DevfileComponent :=
  unit "runtime" "runtime-image"

/-- The example adapter with the unit `runtime`, whose container needs no update. -/
def steadyAdapter : Adapter :=
  exampleAdapter [runtimeUnit] false

/-- The example adapter with the unit `runtime`, whose container needs an update. -/
def driftAdapter : Adapter :=
  exampleAdapter [runtimeUnit] true

/-! ## Commands and daemons used in the examples -/

/-- An init command of the unit `runtime`. -/
def initCommand : DevfileCommand :=
  ⟨⟨"devinit", "echo hello", "runtime", "", []⟩⟩

/-- A build command of the unit `runtime`. -/
def buildCommand : DevfileCommand :=
  ⟨⟨"devbuild", "npm install", "runtime", "", []⟩⟩

/-- A run command of the unit `runtime` with the attribute `restart` set to `false`. -/
def runCommand : DevfileCommand :=
  ⟨⟨"devrun", "npm start", "runtime", "", [("restart", "false")]⟩⟩

/-- The container of the unit `runtime` with the source volume mounted. -/
def runtimeContainer : Container :=
  ⟨"r1", "runtime-image", "/opt/odo/bin/supervisord -c /opt/odo/conf/devfile-supervisor.conf",
    [("component", "nodejs"), ("alias", "runtime")],
    [⟨TypeVolume, "odo-project-source-nodejs-abcd", "", "/projects"⟩]⟩

/-- Example answers of the missing functions: the component exists, the devfile has an
init, a build and a run command, the files are always synced. -/
def exampleDeps : Deps where
  GenerateVolName := fun _ name componentName => .ok (name ++ "-" ++ componentName ++ "-abcd")
  IsRestartRequired := fun command => getLabel command.Exec.Attributes "restart" != "false"
  GetContainerIDForAlias := fun containers containerAlias =>
    ((containers.find? (fun c => getLabel c.Labels "alias" == containerAlias)).map (·.ID)).getD ""
  GetSupervisordVolumeLabels := fun componentName =>
    [("component", componentName), ("type", SupervisordVolume)]
  GetBootstrapperImage := "registry.access.redhat.com/openshiftdo/odo-init-image"
  ComponentExists := fun _ _ => .ok true
  GetVolumes := []
  ProcessVolumes := fun _ _ _ => .ok ([], [])
  ValidateAndGetPushDevfileCommands := fun _ _ _ =>
    .ok [(.InitCommandGroupType, initCommand), (.BuildCommandGroupType, buildCommand),
      (.RunCommandGroupType, runCommand)]
  GetComponentContainers := fun _ _ => .ok [runtimeContainer]
  SyncFiles := fun _ _ => .ok true

/-- The parameters of a push with nothing overridden. -/
def exampleParameters : PushParameters :=
  ⟨"/home/user/nodejs", [], false, false, "", "", ""⟩

/-- An adapter on a daemon that holds two volumes for every label lookup. -/
def duplicateVolumesAdapter : Adapter :=
  { steadyAdapter with
    Client := { steadyAdapter.Client with
      GetVolumesByLabel := fun _ labels => .ok [⟨"volume-1", labels⟩, ⟨"volume-2", labels⟩] } }

/-- An adapter whose unit `tools` has no container, on a daemon where the creation of the
storage volumes fails. -/
def storageFailureAdapter : Adapter :=
  { exampleAdapter [unit "tools" "tools-image"] false with
    Client := { (exampleAdapter [unit "tools" "tools-image"] false).Client with
      StorageCreate := fun _ _ => some "no space left on device" } }

/-- The commands of the example devfile: init, build and run. -/
def exampleCommands : PushCommandsMap :=
  [(.InitCommandGroupType, initCommand), (.BuildCommandGroupType, buildCommand),
    (.RunCommandGroupType, runCommand)]

/-- The example adapter on a volume store that starts empty: a lookup returns the volumes
created so far with the labels asked for. -/
def storeAdapter : Adapter :=
  { steadyAdapter with
    Client := { steadyAdapter.Client with
      GetVolumesByLabel := fun t labels => .ok (createdVolumes labels t) } }

/-- An adapter on a daemon that already holds the supervisord volume of the component. -/
def existingVolumeAdapter : Adapter :=
  { steadyAdapter with
    Client := { steadyAdapter.Client with
      GetVolumesByLabel := fun _ labels =>
        .ok [⟨"odo-supervisord-shared-data-nodejs-abcd", labels⟩] } }

/-- The run command the example adapter resolves: it binds to the unit `runtime` and has
no working directory. -/
def resolvedRunCommand : DevfileCommand :=
  ⟨⟨"run", "npm start", "runtime", "", []⟩⟩

/-- The unit `runtime` with `mountSources` set, the given entrypoint and variables. -/
def sourcesUnit (command args : List String) (envVars : List Env) : DevfileComponent :=
  ⟨⟨"runtime", "runtime-image", command, args, envVars, [], true, ""⟩⟩

/-- The unit `runtime` with `mountSources` set and the source mapping `/test`. -/
def mappedUnit : DevfileComponent :=
  ⟨⟨"runtime", "runtime-image", [], [], [], [], true, "/test"⟩⟩

/-- A container with an ID and mounts and nothing else. -/
def mountedContainer (id : String) (mounts : List MountPoint) : Container :=
  ⟨id, "", "", [], mounts⟩

/-- Three containers: the first has no mount of the source volume, the second has two, the
third has one. -/
def sourceContainers : List Container :=
  [mountedContainer "c1" [⟨TypeVolume, "storage-abcd", "", "/data"⟩],
   mountedContainer "c2" [⟨TypeVolume, "storage-abcd", "", "/data"⟩,
     ⟨TypeVolume, "odo-project-source-nodejs-abcd", "", "/test"⟩,
     ⟨TypeVolume, "odo-project-source-nodejs-efgh", "", "/other"⟩],
   mountedContainer "c3" [⟨TypeVolume, "odo-project-source-nodejs-abcd", "", "/projects"⟩]]

/-- A container of a devfile component with a name and an image and nothing else. -/
def plainContainer (name image : String) : DevfileContainer :=
  ⟨name, image, [], [], [], [], false, ""⟩

/-- The options of `odo catalog describe component nodejs` when neither the devfile
registries nor the cluster catalog know a component of that name. -/
def unknownComponentOptions : DescribeComponentOptions :=
  DescribeComponentOptions.GetDevfileComponentsByName ⟨"nodejs", [], ""⟩
    [⟨"java-maven", "/devfiles/java-maven/devfile.yaml", "DefaultDevfileRegistry"⟩]

/-- A deployment configuration with one container that takes its environment from the
named secrets, in that order. -/
def deploymentConfig (name : String) (secretNames : List String) : DeploymentConfig :=
  ⟨name, [⟨secretNames.map (fun n => ⟨some n⟩)⟩]⟩

/-- A cluster with the service `mysql` of the application, whose secret exists, and the
given deployment configurations. -/
def serviceCluster (dcs : List DeploymentConfig) : Cluster where
  ListSecrets := fun _ => .ok [⟨"builder-token"⟩, ⟨"mysql"⟩]
  GetDeploymentConfigsFromSelector := fun _ => .ok dcs
  applicationSelector := fun applicationName => "app.kubernetes.io/part-of=" ++ applicationName
  List := fun _ => .ok [⟨"mysql", "mysql-persistent", "default", "ProvisionedSuccessfully"⟩]

/-- The daemon of Case 5 on which the removal of a container fails. -/
def stuckDaemon : Client :=
  { daemon case5Containers case5Volumes with
    RemoveContainer := fun _ _ => some "container is running" }

/-- An adapter whose `env.yaml` has four URLs: two for the declared port 3000, one without
exposed port, one for the declared port 8080. -/
def urlAdapter : Adapter :=
  { steadyAdapter with
    NewEnvSpecificInfo := fun _ =>
      .ok [⟨"first", 3000, 30001⟩, ⟨"hidden", 9000, 0⟩, ⟨"web", 8080, 30080⟩,
        ⟨"second", 3000, 30002⟩] }

/-! ## Lemmas on maps and strings -/

theorem lookup_mem {k v : String} {m : Labels} (h : m.lookup k = some v) : (k, v) ∈ m := by
  induction m with
  | nil => simp at h
  | cons kv m ih =>
    obtain ⟨a, b⟩ := kv
    rw [List.lookup_cons] at h
    by_cases hk : k = a
    · subst hk
      simp at h
      simp [h]
    · have : (k == a) = false := by simpa using hk
      rw [this] at h
      exact List.mem_cons_of_mem _ (ih h)

theorem lookup_none {k : String} {m : Labels} (h : ∀ kv ∈ m, kv.1 ≠ k) : m.lookup k = none := by
  cases hl : m.lookup k with
  | none => rfl
  | some v => exact absurd rfl (h _ (lookup_mem hl))

theorem TrimSpace_length_pos (s : String) : (TrimSpace s).length > 0 ↔ nonBlank s := by
  unfold TrimSpace nonBlank
  rw [String.length]
  simp only [List.length_reverse, gt_iff_lt, List.length_pos]
  rw [Ne, List.dropWhile_eq_nil_iff]
  constructor
  · intro h
    push_neg at h
    obtain ⟨x, hx, hpx⟩ := h
    refine ⟨x, ?_, by simpa using hpx⟩
    have := (List.dropWhile_sublist isSpace).subset (List.mem_reverse.mp hx)
    exact this
  · rintro ⟨c, hc, hpc⟩ h
    have hne : s.data.dropWhile isSpace ≠ [] := by
      rw [Ne, List.dropWhile_eq_nil_iff]
      intro hall
      simp [hall c hc] at hpc
    obtain ⟨x, xs, hx⟩ := List.exists_cons_of_ne_nil hne
    have hhead : isSpace x = false := by
      have := List.head_dropWhile_not isSpace s.data hne
      simp [hx] at this
      exact this
    have hmem : x ∈ (s.data.dropWhile isSpace).reverse := by simp [hx]
    simp [h x hmem] at hhead

theorem mem_addKey {keys : List String} {name n : String} :
    n ∈ addKey keys name ↔ n ∈ keys ∨ n = name := by
  unfold addKey
  split
  · constructor
    · exact Or.inl
    · rintro (h | h)
      · exact h
      · subst h; assumption
  · simp

theorem mem_markVolumes {ntd names : List String} {n : String} :
    ∀ {vols : List Volume} {td : List String},
      n ∈ markVolumes ntd names vols td ↔
        n ∈ td ∨ (n ∉ ntd ∧ n ∈ names ∧ ∃ v ∈ vols, v.Name = n) := by
  intro vols
  induction vols with
  | nil => intro td; simp [markVolumes]
  | cons v vols ih =>
    intro td
    unfold markVolumes
    split
    · rename_i h1
      rw [ih]
      constructor
      · rintro (h | ⟨h2, h3, w, hw, hwn⟩)
        · exact Or.inl h
        · exact Or.inr ⟨h2, h3, w, List.mem_cons_of_mem _ hw, hwn⟩
      · rintro (h | ⟨h2, h3, w, hw, hwn⟩)
        · exact Or.inl h
        · rcases List.mem_cons.mp hw with rfl | hw
          · rw [hwn] at h1; exact absurd h1 h2
          · exact Or.inr ⟨h2, h3, w, hw, hwn⟩
    · rename_i h1
      split
      · rename_i h2
        rw [ih, mem_addKey]
        constructor
        · rintro ((h | h) | ⟨h2, h3, w, hw, hwn⟩)
          · exact Or.inl h
          · subst h; exact Or.inr ⟨h1, h2, v, List.mem_cons_self _ _, rfl⟩
          · exact Or.inr ⟨h2, h3, w, List.mem_cons_of_mem _ hw, hwn⟩
        · rintro (h | ⟨h2, h3, w, hw, hwn⟩)
          · exact Or.inl (Or.inl h)
          · rcases List.mem_cons.mp hw with rfl | hw
            · exact Or.inl (Or.inr hwn.symm)
            · exact Or.inr ⟨h2, h3, w, hw, hwn⟩
      · rename_i h2
        rw [ih]
        constructor
        · rintro (h | ⟨h2, h3, w, hw, hwn⟩)
          · exact Or.inl h
          · exact Or.inr ⟨h2, h3, w, List.mem_cons_of_mem _ hw, hwn⟩
        · rintro (h | ⟨h3, h4, w, hw, hwn⟩)
          · exact Or.inl h
          · rcases List.mem_cons.mp hw with rfl | hw
            · rw [hwn] at h2; exact absurd h4 h2
            · exact Or.inr ⟨h3, h4, w, hw, hwn⟩


theorem isComponentVolume_iff (target : String) (v : Volume) :
    isComponentVolume target v = true ↔ IsCandidate target v := by
  unfold isComponentVolume IsCandidate
  rw [← TrimSpace_length_pos]
  by_cases h1 : getLabel v.Labels "component" = target
  · by_cases h2 : (TrimSpace (getLabel v.Labels "storage-name")).length > 0
    · simp [h1, h2]
    · by_cases h3 : getLabel v.Labels "type" = ProjectsVolume
      · simp [h1, h2, h3]
      · by_cases h4 : getLabel v.Labels "type" = SupervisordVolume
        · simp [h1, h2, h3, h4]
        · simp [h1, h2, h3, h4]
  · simp [h1]

theorem mem_volumesNotToDelete (target name : String) (containers : List Container) :
    name ∈ volumesNotToDelete target containers ↔ IsExcluded containers target name := by
  unfold volumesNotToDelete IsExcluded
  simp only [List.mem_flatMap, List.mem_filter, List.mem_map, bne_iff_ne, ne_eq]
  constructor
  · rintro ⟨c, ⟨hc, hl⟩, m, hm, hn⟩
    exact ⟨c, hc, hl, m, hm, hn⟩
  · rintro ⟨c, hc, hl, m, hm, hn⟩
    exact ⟨c, ⟨hc, hl⟩, m, hm, hn⟩

theorem mem_GetContainersByComponent (target : String) (c : Container)
    (containers : List Container) :
    c ∈ GetContainersByComponent target containers ↔
      c ∈ containers ∧ getLabel c.Labels "component" = target := by
  unfold GetContainersByComponent
  simp [List.mem_filter]

theorem mem_volumeNames (name : String) (c : Container) :
    name ∈ volumeNames c ↔ ∃ m ∈ c.Mounts, m.Type_ = TypeVolume ∧ m.Name = name := by
  unfold volumeNames
  simp only [List.mem_map, List.mem_filter, beq_iff_eq]
  constructor
  · rintro ⟨m, ⟨hm, ht⟩, hn⟩
    exact ⟨m, hm, ht, hn⟩
  · rintro ⟨m, hm, ht, hn⟩
    exact ⟨m, ⟨hm, ht⟩, hn⟩

theorem removeContainers_trace (cl : Client) (cn : String) (vols : List Volume)
    (ntd : List String) :
    ∀ (cs : List Container) (h : Trace) (td : List String) (e : Event),
      e ∈ (removeContainers cl cn vols ntd h cs td).1 →
        ∃ c ∈ cs, ∃ ok, e = ⟨.RemoveContainer c.ID, ok⟩ := by
  intro cs
  induction cs with
  | nil => intro h td e he; simp [removeContainers] at he
  | cons c cs ih =>
    intro h td e he
    unfold removeContainers at he
    split at he
    · simp only [List.mem_singleton] at he
      exact ⟨c, List.mem_cons_self _ _, false, he⟩
    · simp only [List.mem_cons] at he
      rcases he with he | he
      · exact ⟨c, List.mem_cons_self _ _, true, he⟩
      · obtain ⟨d, hd, ok, hok⟩ := ih _ _ _ he
        exact ⟨d, List.mem_cons_of_mem _ hd, ok, hok⟩

theorem removeContainers_trace_of_eq (cl : Client) (cn : String) (vols : List Volume)
    (ntd : List String) (cs : List Container) (h : Trace) (td : List String) (t : Trace)
    (r : Except Error (List String)) (e : Event)
    (heq : removeContainers cl cn vols ntd h cs td = (t, r)) (he : e ∈ t) :
    ∃ c ∈ cs, ∃ ok, e = ⟨.RemoveContainer c.ID, ok⟩ := by
  have ht : t = (removeContainers cl cn vols ntd h cs td).1 := by rw [heq]
  rw [ht] at he
  exact removeContainers_trace cl cn vols ntd cs h td e he

theorem removeContainers_ok (cl : Client) (cn : String) (vols : List Volume)
    (ntd : List String) (n : String) :
    ∀ (cs : List Container) (h : Trace) (td out : List String),
      (removeContainers cl cn vols ntd h cs td).2 = .ok out →
        (n ∈ out ↔ n ∈ td ∨
          (n ∉ ntd ∧ (∃ c ∈ cs, n ∈ volumeNames c) ∧ ∃ v ∈ vols, v.Name = n)) := by
  intro cs
  induction cs with
  | nil =>
    intro h td out hout
    simp only [removeContainers, Except.ok.injEq] at hout
    subst hout
    simp
  | cons c cs ih =>
    intro h td out hout
    unfold removeContainers at hout
    split at hout
    · simp at hout
    · simp only at hout
      rw [ih _ _ _ hout, mem_markVolumes]
      constructor
      · rintro ((h1 | ⟨h1, h2, h3⟩) | ⟨h1, ⟨d, hd, hdn⟩, h3⟩)
        · exact Or.inl h1
        · exact Or.inr ⟨h1, ⟨c, List.mem_cons_self _ _, h2⟩, h3⟩
        · exact Or.inr ⟨h1, ⟨d, List.mem_cons_of_mem _ hd, hdn⟩, h3⟩
      · rintro (h1 | ⟨h1, ⟨d, hd, hdn⟩, h3⟩)
        · exact Or.inl (Or.inl h1)
        · rcases List.mem_cons.mp hd with rfl | hd
          · exact Or.inl (Or.inr ⟨h1, hdn, h3⟩)
          · exact Or.inr ⟨h1, ⟨d, hd, hdn⟩, h3⟩

theorem removeContainers_no_fault (cl : Client) (cn : String) (vols : List Volume)
    (ntd : List String) (hno : ∀ h id, cl.RemoveContainer h id = none) :
    ∀ (cs : List Container) (h : Trace) (td : List String),
      (removeContainers cl cn vols ntd h cs td).1 =
          cs.map (fun c => (⟨.RemoveContainer c.ID, true⟩ : Event)) ∧
        ∃ out, (removeContainers cl cn vols ntd h cs td).2 = .ok out := by
  intro cs
  induction cs with
  | nil => intro h td; simp [removeContainers]
  | cons c cs ih =>
    intro h td
    unfold removeContainers
    rw [hno]
    simp only [List.map_cons, List.cons.injEq, true_and]
    exact ih _ _

theorem removeVolumes_trace (cl : Client) (cn : String) :
    ∀ (names : List String) (h : Trace) (e : Event),
      e ∈ (removeVolumes cl cn h names).1 → ∃ n ∈ names, ∃ ok, e = ⟨.RemoveVolume n, ok⟩ := by
  intro names
  induction names with
  | nil => intro h e he; simp [removeVolumes] at he
  | cons n names ih =>
    intro h e he
    unfold removeVolumes at he
    split at he
    · simp only [List.mem_singleton] at he
      exact ⟨n, List.mem_cons_self _ _, false, he⟩
    · simp only [List.mem_cons] at he
      rcases he with he | he
      · exact ⟨n, List.mem_cons_self _ _, true, he⟩
      · obtain ⟨d, hd, ok, hok⟩ := ih _ _ he
        exact ⟨d, List.mem_cons_of_mem _ hd, ok, hok⟩

theorem removeVolumes_no_fault (cl : Client) (cn : String)
    (hno : ∀ h n, cl.RemoveVolume h n = none) :
    ∀ (names : List String) (h : Trace),
      removeVolumes cl cn h names =
        (names.map (fun n => (⟨.RemoveVolume n, true⟩ : Event)), none) := by
  intro names
  induction names with
  | nil => intro h; simp [removeVolumes]
  | cons n names ih =>
    intro h
    unfold removeVolumes
    rw [hno]
    simp only [List.map_cons]
    rw [ih]


/-- A removal of a volume by `Delete` comes from the last loop: the lists were read and the
name is a key of `volumesToDelete`. -/
theorem Delete_volume_event (cl : Client) (ord : RangeOrder) (h : Trace) (labels : Labels)
    (name : String) (ok : Bool)
    (hrem : (⟨.RemoveVolume name, ok⟩ : Event) ∈ (Delete cl ord h labels).1) :
    ∃ target containers volumes t3 toDelete,
      labels.lookup "component" = some target ∧
      cl.GetContainerList h = .ok containers ∧
      cl.GetVolumes (h ++ [⟨.GetContainerList, true⟩]) = .ok volumes ∧
      removeContainers cl target (volumes.filter (isComponentVolume target))
          (volumesNotToDelete target containers)
          (h ++ ([⟨.GetContainerList, true⟩] ++ [⟨.GetVolumes, true⟩]))
          (GetContainersByComponent target containers) [] = (t3, .ok toDelete) ∧
      name ∈ toDelete := by
  unfold Delete at hrem
  split at hrem
  · simp at hrem
  · rename_i target htarget
    split at hrem
    · simp at hrem
    · rename_i containers hcont
      simp only at hrem
      split at hrem
      · simp at hrem
      · split at hrem
        · simp at hrem
        · rename_i volumes hvol
          split at hrem
          · rename_i t3 err heq
            simp only [List.mem_append, List.mem_cons, List.mem_singleton, Event.mk.injEq,
              reduceCtorEq, false_and, or_false, List.not_mem_nil, false_or] at hrem
            have ht3 : t3 = (removeContainers cl target (volumes.filter (isComponentVolume target))
                (volumesNotToDelete target containers)
                (h ++ ([⟨.GetContainerList, true⟩] ++ [⟨.GetVolumes, true⟩]))
                (GetContainersByComponent target containers) []).1 := by rw [heq]
            rw [ht3] at hrem
            obtain ⟨c, _, ok2, hc⟩ := removeContainers_trace cl target _ _ _ _ _ _ hrem
            simp at hc
          · rename_i t3 toDelete heq
            simp only [List.mem_append, List.mem_cons, List.mem_singleton, Event.mk.injEq,
              reduceCtorEq, false_and, or_false, List.not_mem_nil, false_or] at hrem
            rcases hrem with hrem | hrem
            · have ht3 : t3 = (removeContainers cl target
                  (volumes.filter (isComponentVolume target))
                  (volumesNotToDelete target containers)
                  (h ++ ([⟨.GetContainerList, true⟩] ++ [⟨.GetVolumes, true⟩]))
                  (GetContainersByComponent target containers) []).1 := by rw [heq]
              rw [ht3] at hrem
              obtain ⟨c, _, ok2, hc⟩ := removeContainers_trace cl target _ _ _ _ _ _ hrem
              simp at hc
            · obtain ⟨n, hn, ok2, hok⟩ := removeVolumes_trace cl target _ _ _ hrem
              simp only [Event.mk.injEq, Call.RemoveVolume.injEq] at hok
              refine ⟨target, containers, volumes, t3, toDelete, htarget, hcont, hvol, heq, ?_⟩
              rw [hok.1]
              exact (ord.perm toDelete).subset hn


theorem getLabel_mem {m : Labels} {k v : String} (h : getLabel m k = v) (hv : v ≠ "") :
    (k, v) ∈ m := by
  unfold getLabel at h
  cases hl : m.lookup k with
  | none => rw [hl] at h; exact absurd h.symm hv
  | some w =>
    rw [hl] at h
    simp only [Option.getD_some] at h
    subst h
    exact lookup_mem hl

/-- What `Delete` removes is a candidate, mounted as a volume into a container of the
component, and mounted into no container of another component. -/
theorem Delete_removed_spec (cl : Client) (ord : RangeOrder) (h : Trace) (labels : Labels)
    (name : String) (ok : Bool)
    (hrem : (⟨.RemoveVolume name, ok⟩ : Event) ∈ (Delete cl ord h labels).1) :
    ∃ target containers volumes,
      labels.lookup "component" = some target ∧
      cl.GetContainerList h = .ok containers ∧
      cl.GetVolumes (h ++ [⟨.GetContainerList, true⟩]) = .ok volumes ∧
      (∃ v ∈ volumes, v.Name = name ∧ IsCandidate target v) ∧
      IsMounted containers target name ∧
      ¬ IsExcluded containers target name := by
  obtain ⟨target, containers, volumes, t3, toDelete, hl, hc, hv, heq, hmem⟩ :=
    Delete_volume_event cl ord h labels name ok hrem
  refine ⟨target, containers, volumes, hl, hc, hv, ?_⟩
  have h2 : (removeContainers cl target (volumes.filter (isComponentVolume target))
      (volumesNotToDelete target containers)
      (h ++ ([⟨.GetContainerList, true⟩] ++ [⟨.GetVolumes, true⟩]))
      (GetContainersByComponent target containers) []).2 = .ok toDelete := by rw [heq]
  have := (removeContainers_ok cl target _ _ name _ _ _ _ h2).mp hmem
  rcases this with h0 | ⟨hnot, ⟨c, hc1, hc2⟩, v, hv1, hv2⟩
  · simp at h0
  · rw [mem_volumesNotToDelete] at hnot
    rw [mem_GetContainersByComponent] at hc1
    rw [mem_volumeNames] at hc2
    rw [List.mem_filter, isComponentVolume_iff] at hv1
    exact ⟨⟨v, hv1.1, hv2, hv1.2⟩, ⟨c, hc1.1, hc1.2, hc2⟩, hnot⟩

/-- With no failing call and a container of the component, the trace of `Delete` and the
keys of `volumesToDelete`. -/
theorem Delete_no_fault (cl : Client) (ord : RangeOrder) (h : Trace) (labels : Labels)
    (target : String) (containers : List Container) (volumes : List Volume)
    (hl : labels.lookup "component" = some target)
    (hc : cl.GetContainerList h = .ok containers)
    (hv : cl.GetVolumes (h ++ [⟨.GetContainerList, true⟩]) = .ok volumes)
    (hrc : ∀ t id, cl.RemoveContainer t id = none)
    (hrv : ∀ t n, cl.RemoveVolume t n = none)
    (hex : ∃ c ∈ containers, getLabel c.Labels "component" = target) :
    ∃ toDelete,
      Delete cl ord h labels =
        ([⟨.GetContainerList, true⟩] ++ [⟨.GetVolumes, true⟩] ++
          (GetContainersByComponent target containers).map
            (fun c => (⟨.RemoveContainer c.ID, true⟩ : Event)) ++
          (ord.order toDelete).map (fun n => (⟨.RemoveVolume n, true⟩ : Event)), none) ∧
      ∀ name, name ∈ toDelete ↔
        (∃ v ∈ volumes, v.Name = name ∧ IsCandidate target v) ∧
          IsMounted containers target name ∧ ¬ IsExcluded containers target name := by
  obtain ⟨c0, hc0, hc0l⟩ := hex
  have hne : ¬ (GetContainersByComponent target containers).length = 0 := by
    intro h0
    have : c0 ∈ GetContainersByComponent target containers :=
      (mem_GetContainersByComponent _ _ _).mpr ⟨hc0, hc0l⟩
    rw [List.length_eq_zero] at h0
    rw [h0] at this
    simp at this
  obtain ⟨ht, out, hout⟩ := removeContainers_no_fault cl target
    (volumes.filter (isComponentVolume target)) (volumesNotToDelete target containers) hrc
    (GetContainersByComponent target containers)
    (h ++ ([⟨.GetContainerList, true⟩] ++ [⟨.GetVolumes, true⟩])) []
  refine ⟨out, ?_, ?_⟩
  · unfold Delete
    rw [hl]
    simp only [hc, hv, if_neg hne]
    generalize hr : removeContainers cl target (volumes.filter (isComponentVolume target))
      (volumesNotToDelete target containers)
      (h ++ ([⟨.GetContainerList, true⟩] ++ [⟨.GetVolumes, true⟩]))
      (GetContainersByComponent target containers) [] = r at ht hout
    obtain ⟨t3, res⟩ := r
    simp only at ht hout
    subst ht hout
    simp only [removeVolumes_no_fault cl target hrv]
  · intro name
    rw [removeContainers_ok cl target _ _ name _ _ _ _ hout]
    simp only [List.not_mem_nil, false_or, mem_volumesNotToDelete, mem_volumeNames,
      mem_GetContainersByComponent, List.mem_filter, isComponentVolume_iff]
    unfold IsMounted
    constructor
    · rintro ⟨hnot, ⟨c, ⟨hc1, hc2⟩, hm⟩, v, ⟨hv1, hv2⟩, hv3⟩
      exact ⟨⟨v, hv1, hv3, hv2⟩, ⟨c, hc1, hc2, hm⟩, hnot⟩
    · rintro ⟨⟨v, hv1, hv3, hv2⟩, ⟨c, hc1, hc2, hm⟩, hnot⟩
      exact ⟨hnot, ⟨c, ⟨hc1, hc2⟩, hm⟩, v, ⟨hv1, hv2⟩, hv3⟩

/-! ## `Delete`: the claims -/

/-- C1. Every volume that `Delete` removes (or tries to remove) is a listed volume that is
a candidate of the target component, is mounted as a volume into a container of the
target component, and is mounted into no container of another component. Labels are
read as Go reads them (a missing label is the empty string); for a non-empty target the
`component` label is present with the target as its value. -/
theorem Delete_only_owned_mounted_unshared (cl : Client) (ord : RangeOrder) (h : Trace)
    (labels : Labels) (name : String) (ok : Bool)
    (hrem : (⟨.RemoveVolume name, ok⟩ : Event) ∈ (Delete cl ord h labels).1) :
    ∃ target containers volumes,
      labels.lookup "component" = some target ∧
      cl.GetContainerList h = .ok containers ∧
      cl.GetVolumes (h ++ [⟨.GetContainerList, true⟩]) = .ok volumes ∧
      (∃ v ∈ volumes, v.Name = name ∧ IsCandidate target v ∧
        (target ≠ "" → ("component", target) ∈ v.Labels)) ∧
      IsMounted containers target name ∧
      ¬ IsExcluded containers target name := by
  obtain ⟨target, containers, volumes, hl, hc, hv, ⟨v, hv1, hv2, hv3⟩, hm, he⟩ :=
    Delete_removed_spec cl ord h labels name ok hrem
  exact ⟨target, containers, volumes, hl, hc, hv,
    ⟨v, hv1, hv2, hv3, fun hne => getLabel_mem hv3.1 hne⟩, hm, he⟩

/-- C1 on Case 5 of `TestAdapterDeleteVolumes`, for the removal of `my-src-mount`. -/
theorem Delete_only_owned_mounted_unshared_witness :
    (⟨.RemoveVolume "my-src-mount", true⟩ : Event) ∈
        (Delete (daemon case5Containers case5Volumes) RangeOrder.reversed []
          [("component", "my-component")]).1 ∧
      ∃ target containers volumes,
        [("component", "my-component")].lookup "component" = some target ∧
        (daemon case5Containers case5Volumes).GetContainerList [] = .ok containers ∧
        (daemon case5Containers case5Volumes).GetVolumes ([] ++ [⟨.GetContainerList, true⟩]) =
          .ok volumes ∧
        (∃ v ∈ volumes, v.Name = "my-src-mount" ∧ IsCandidate target v ∧
          (target ≠ "" → ("component", target) ∈ v.Labels)) ∧
        IsMounted containers target "my-src-mount" ∧
        ¬ IsExcluded containers target "my-src-mount" :=
  ⟨by decide,
    Delete_only_owned_mounted_unshared (daemon case5Containers case5Volumes)
      RangeOrder.reversed [] [("component", "my-component")] "my-src-mount" true (by decide)⟩

/-- C2. When no client call fails and the target component has a container, `Delete`
returns no error and the volume names it removes are exactly the candidates that are
mounted as a volume into a container of the component and are not a mount name of a
container of another component; no removal is attempted besides. -/
theorem Delete_removes_exactly (cl : Client) (ord : RangeOrder) (h : Trace) (labels : Labels)
    (target : String) (containers : List Container) (volumes : List Volume)
    (hl : labels.lookup "component" = some target)
    (hc : cl.GetContainerList h = .ok containers)
    (hv : cl.GetVolumes (h ++ [⟨.GetContainerList, true⟩]) = .ok volumes)
    (hrc : ∀ t id, cl.RemoveContainer t id = none)
    (hrv : ∀ t n, cl.RemoveVolume t n = none)
    (hex : ∃ c ∈ containers, getLabel c.Labels "component" = target) :
    (Delete cl ord h labels).2 = none ∧
      ∀ name ok, (⟨.RemoveVolume name, ok⟩ : Event) ∈ (Delete cl ord h labels).1 ↔
        ok = true ∧ (∃ v ∈ volumes, v.Name = name ∧ IsCandidate target v) ∧
          IsMounted containers target name ∧ ¬ IsExcluded containers target name := by
  obtain ⟨toDelete, heq, hmem⟩ :=
    Delete_no_fault cl ord h labels target containers volumes hl hc hv hrc hrv hex
  rw [heq]
  refine ⟨rfl, fun name ok => ?_⟩
  rw [← hmem name, ← (ord.perm toDelete).mem_iff]
  simp only [List.mem_append, List.mem_cons, List.mem_singleton, Event.mk.injEq, reduceCtorEq,
    false_and, List.not_mem_nil, or_false, List.mem_map, false_or, Call.RemoveVolume.injEq,
    exists_false]
  constructor
  · rintro (⟨_, _, hf⟩ | ⟨n, hn, hname, hok⟩)
    · exact absurd hf id
    · subst hname
      exact ⟨hok.symm, hn⟩
  · rintro ⟨hok, hn⟩
    exact Or.inr ⟨name, hn, rfl, hok.symm⟩

/-- C2 on Case 5 of `TestAdapterDeleteVolumes`. -/
theorem Delete_removes_exactly_witness :
    (∃ c ∈ case5Containers, getLabel c.Labels "component" = "my-component") ∧
    (Delete (daemon case5Containers case5Volumes) RangeOrder.reversed []
        [("component", "my-component")]).2 = none ∧
      ∀ name ok, (⟨.RemoveVolume name, ok⟩ : Event) ∈
          (Delete (daemon case5Containers case5Volumes) RangeOrder.reversed []
            [("component", "my-component")]).1 ↔
        ok = true ∧ (∃ v ∈ case5Volumes, v.Name = name ∧ IsCandidate "my-component" v) ∧
          IsMounted case5Containers "my-component" name ∧
          ¬ IsExcluded case5Containers "my-component" name :=
  ⟨⟨_, List.mem_cons_self _ _, by decide⟩,
    Delete_removes_exactly (daemon case5Containers case5Volumes) RangeOrder.reversed []
      [("component", "my-component")] "my-component" case5Containers case5Volumes rfl rfl rfl
      (fun _ _ => rfl) (fun _ _ => rfl) ⟨_, List.mem_cons_self _ _, by decide⟩⟩

/-- The successful container removals of `Delete` on a daemon are those of the containers
of the component. -/
theorem Delete_container_event (cl : Client) (ord : RangeOrder) (h : Trace) (labels : Labels)
    (target : String) (containers : List Container) (id : String) (ok : Bool)
    (hl : labels.lookup "component" = some target)
    (hc : cl.GetContainerList h = .ok containers)
    (hrem : (⟨.RemoveContainer id, ok⟩ : Event) ∈ (Delete cl ord h labels).1) :
    ∃ c ∈ containers, getLabel c.Labels "component" = target ∧ c.ID = id := by
  unfold Delete at hrem
  rw [hl] at hrem
  simp only [hc] at hrem
  split at hrem
  · simp at hrem
  · split at hrem
    · simp at hrem
    · split at hrem
      · rename_i t3 err heq
        simp only [List.mem_append, List.mem_cons, List.mem_singleton, Event.mk.injEq,
          reduceCtorEq, false_and, or_false, List.not_mem_nil, false_or] at hrem
        obtain ⟨c, hc1, ok2, hc2⟩ :=
          removeContainers_trace_of_eq cl target _ _ _ _ _ _ _ _ heq hrem
        rw [mem_GetContainersByComponent] at hc1
        simp only [Event.mk.injEq, Call.RemoveContainer.injEq] at hc2
        exact ⟨c, hc1.1, hc1.2, hc2.1.symm⟩
      · rename_i t3 toDelete heq
        simp only [List.mem_append, List.mem_cons, List.mem_singleton, Event.mk.injEq,
          reduceCtorEq, false_and, or_false, List.not_mem_nil, false_or] at hrem
        rcases hrem with hrem | hrem
        · obtain ⟨c, hc1, ok2, hc2⟩ :=
            removeContainers_trace_of_eq cl target _ _ _ _ _ _ _ _ heq hrem
          rw [mem_GetContainersByComponent] at hc1
          simp only [Event.mk.injEq, Call.RemoveContainer.injEq] at hc2
          exact ⟨c, hc1.1, hc1.2, hc2.1.symm⟩
        · obtain ⟨n, _, ok2, hok⟩ := removeVolumes_trace cl target _ _ _ hrem
          simp at hok

/-- C3, as stated, fails on Case 6 of `TestAdapterDeleteVolumes`: the volume
`my-storage-mount` is mounted into the container of `my-component` and into the container
of `a-non-odo-container-for-example` and carries the labels of `my-component`. `Delete` for
`my-component` does not remove it, and `Delete` for the other component, run on the state
left behind, does not remove it either. -/
theorem Delete_shared_volume_counterexample :
    IsMounted case6Containers "my-component" "my-storage-mount" ∧
    IsMounted case6Containers "a-non-odo-container-for-example" "my-storage-mount" ∧
    (∀ ok, (⟨.RemoveVolume "my-storage-mount", ok⟩ : Event) ∉
      (Delete (daemon case6Containers case6Volumes) RangeOrder.insertion []
        [("component", "my-component")]).1) ∧
    ¬ (⟨.RemoveVolume "my-storage-mount", true⟩ : Event) ∈
      (Delete
        (daemon
          (containersAfter (Delete (daemon case6Containers case6Volumes) RangeOrder.insertion []
            [("component", "my-component")]).1 case6Containers)
          (volumesAfter (Delete (daemon case6Containers case6Volumes) RangeOrder.insertion []
            [("component", "my-component")]).1 case6Volumes))
        RangeOrder.insertion [] [("component", "a-non-odo-container-for-example")]).1 := by
  refine ⟨⟨_, List.mem_cons_self _ _, by decide, _, List.mem_cons_self _ _, by decide, by decide⟩,
    ⟨_, List.mem_cons_of_mem _ (List.mem_cons_self _ _), by decide, _, List.mem_cons_self _ _,
      by decide, by decide⟩, ?_, by decide⟩
  intro ok
  cases ok <;> decide

/-- C3, amended. Given a volume name mounted into a container of component B (and, or not,
into a container of component A), `Delete` for A does not remove it. `Delete` for B, run
on the state left after the first, removes it when a listed volume of that name carries
the ownership labels of B, the container of B mounts it with type volume and has an ID
of its own, and no container of a third component mounts it. -/
theorem Delete_shared_volume (ord1 ord2 : RangeOrder) (containers : List Container)
    (volumes : List Volume) (A B name : String) (cB : Container) (mB : MountPoint)
    (v : Volume)
    (hAB : A ≠ B)
    (hcB : cB ∈ containers) (hlB : getLabel cB.Labels "component" = B)
    (hmB : mB ∈ cB.Mounts) (hnB : mB.Name = name)
    (htB : mB.Type_ = TypeVolume)
    (hv : v ∈ volumes) (hvn : v.Name = name) (hown : IsCandidate B v)
    (hid : ∀ c ∈ containers, getLabel c.Labels "component" = A → c.ID ≠ cB.ID)
    (hthird : ∀ c ∈ containers, getLabel c.Labels "component" ≠ A →
      getLabel c.Labels "component" ≠ B → ∀ m ∈ c.Mounts, m.Name ≠ name) :
    (∀ ok, (⟨.RemoveVolume name, ok⟩ : Event) ∉
      (Delete (daemon containers volumes) ord1 [] [("component", A)]).1) ∧
    (⟨.RemoveVolume name, true⟩ : Event) ∈
      (Delete
        (daemon
          (containersAfter (Delete (daemon containers volumes) ord1 [] [("component", A)]).1
            containers)
          (volumesAfter (Delete (daemon containers volumes) ord1 [] [("component", A)]).1
            volumes))
        ord2 [] [("component", B)]).1 := by
  have hlook : ∀ x : String, List.lookup "component" [("component", x)] = some x := by
    intro x; simp [List.lookup]
  have part1 : ∀ ok, (⟨.RemoveVolume name, ok⟩ : Event) ∉
      (Delete (daemon containers volumes) ord1 [] [("component", A)]).1 := by
    intro ok hrem
    obtain ⟨target, cs, vs, hl, hc, _, _, _, hex⟩ :=
      Delete_removed_spec _ ord1 [] _ name ok hrem
    rw [hlook] at hl
    have hcs : cs = containers := by
      simp only [daemon, Except.ok.injEq] at hc
      exact hc.symm
    have htar : target = A := (Option.some.inj hl).symm
    subst hcs htar
    exact hex ⟨cB, hcB, by rw [hlB]; exact fun e => hAB e.symm, mB, hmB, hnB⟩
  refine ⟨part1, ?_⟩
  generalize ht : (Delete (daemon containers volumes) ord1 [] [("component", A)]).1 = t1
      at part1
  have hAgone : ∀ c ∈ containersAfter t1 containers, getLabel c.Labels "component" ≠ A := by
    intro c hc hl
    simp only [containersAfter, List.mem_filter, decide_eq_true_eq] at hc
    obtain ⟨hc1, hc2⟩ := hc
    apply hc2
    obtain ⟨toDelete, heq, _⟩ := Delete_no_fault (daemon containers volumes) ord1 []
      [("component", A)] A containers volumes (hlook A) rfl rfl (fun _ _ => rfl)
      (fun _ _ => rfl) ⟨c, hc1, hl⟩
    rw [← ht, heq]
    simp only [List.mem_append, List.mem_map]
    exact Or.inl (Or.inr ⟨c, (mem_GetContainersByComponent _ _ _).mpr ⟨hc1, hl⟩, rfl⟩)
  have hBstays : cB ∈ containersAfter t1 containers := by
    simp only [containersAfter, List.mem_filter, decide_eq_true_eq]
    refine ⟨hcB, fun hrem => ?_⟩
    rw [← ht] at hrem
    obtain ⟨c, hc1, hc2, hc3⟩ := Delete_container_event (daemon containers volumes) ord1 []
      [("component", A)] A containers cB.ID true (hlook A) rfl hrem
    exact hid c hc1 hc2 hc3
  have hvstays : v ∈ volumesAfter t1 volumes := by
    simp only [volumesAfter, List.mem_filter, decide_eq_true_eq]
    exact ⟨hv, by rw [hvn]; exact part1 true⟩
  obtain ⟨toDelete, heq, hmem⟩ := Delete_no_fault
    (daemon (containersAfter t1 containers) (volumesAfter t1 volumes)) ord2 []
    [("component", B)] B (containersAfter t1 containers) (volumesAfter t1 volumes) (hlook B)
    rfl rfl (fun _ _ => rfl) (fun _ _ => rfl) ⟨cB, hBstays, hlB⟩
  rw [heq]
  simp only [List.mem_append, List.mem_map]
  refine Or.inr ⟨name, (ord2.perm toDelete).mem_iff.mpr ((hmem name).mpr ?_), rfl⟩
  refine ⟨⟨v, hvstays, hvn, hown⟩, ⟨cB, hBstays, hlB, mB, hmB, htB, hnB⟩, ?_⟩
  rintro ⟨c, hc, hl, m, hm, hn⟩
  have hc0 : c ∈ containers := (List.mem_filter.mp hc).1
  exact hthird c hc0 (hAgone c hc) hl m hm hn

/-- C3, amended, on Case 6 of `TestAdapterDeleteVolumes` with the shared volume labelled
for the second component. -/
theorem Delete_shared_volume_witness :
    IsMounted case6Containers "my-component" "my-storage-mount" ∧
    (∀ ok, (⟨.RemoveVolume "my-storage-mount", ok⟩ : Event) ∉
      (Delete (daemon case6Containers sharedVolumes) RangeOrder.insertion []
        [("component", "my-component")]).1) ∧
    (⟨.RemoveVolume "my-storage-mount", true⟩ : Event) ∈
      (Delete
        (daemon
          (containersAfter (Delete (daemon case6Containers sharedVolumes) RangeOrder.insertion
            [] [("component", "my-component")]).1 case6Containers)
          (volumesAfter (Delete (daemon case6Containers sharedVolumes) RangeOrder.insertion []
            [("component", "my-component")]).1 sharedVolumes))
        RangeOrder.reversed [] [("component", "a-non-odo-container-for-example")]).1 :=
  ⟨⟨_, List.mem_cons_self _ _, by decide, _, List.mem_cons_self _ _, by decide, by decide⟩,
    Delete_shared_volume RangeOrder.insertion RangeOrder.reversed case6Containers sharedVolumes
      "my-component" "a-non-odo-container-for-example" "my-storage-mount"
      (containerWithMount "a-non-odo-container-for-example"
        [mountPoint "my-storage-mount" TypeVolume])
      (mountPoint "my-storage-mount" TypeVolume)
      ⟨"my-storage-mount",
        [("component", "a-non-odo-container-for-example"), ("storage-name", "anyval")]⟩
      (by decide) (by decide) (by decide) (by decide) (by decide) (by decide) (by decide)
      (by decide) ⟨by decide, Or.inl ⟨'a', by decide, by decide⟩⟩ (by decide) (by decide)⟩

/-- C4. A listed volume with no `storage-name` key and no `type` label equal to the
projects or supervisord type (a near-miss key such as `storage-name-but-not-really`, a
near-miss value such as `type=projects-but-not-really`) is never removed by `Delete`,
whatever the containers mount, the name of a volume being its own. -/
theorem Delete_keeps_near_miss (cl : Client) (ord : RangeOrder) (h : Trace) (labels : Labels)
    (volumes : List Volume) (v : Volume)
    (hv : cl.GetVolumes (h ++ [⟨.GetContainerList, true⟩]) = .ok volumes)
    (huniq : ∀ w ∈ volumes, w.Name = v.Name → w = v)
    (hkey : ∀ kv ∈ v.Labels, kv.1 ≠ "storage-name")
    (htype : ∀ kv ∈ v.Labels, kv.1 = "type" →
      kv.2 ≠ ProjectsVolume ∧ kv.2 ≠ SupervisordVolume) :
    ∀ ok, (⟨.RemoveVolume v.Name, ok⟩ : Event) ∉ (Delete cl ord h labels).1 := by
  intro ok hrem
  obtain ⟨target, containers, vs, _, _, hvs, ⟨w, hw1, hw2, hw3⟩, _, _⟩ :=
    Delete_removed_spec cl ord h labels v.Name ok hrem
  rw [hv] at hvs
  have hvs2 : volumes = vs := Except.ok.inj hvs
  subst hvs2
  have hwv : w = v := huniq w hw1 hw2
  subst hwv
  have hsn : getLabel w.Labels "storage-name" = "" := by
    unfold getLabel
    rw [lookup_none hkey]
    rfl
  have hty : getLabel w.Labels "type" ≠ ProjectsVolume ∧
      getLabel w.Labels "type" ≠ SupervisordVolume := by
    unfold getLabel
    cases hl : w.Labels.lookup "type" with
    | none => exact ⟨by decide, by decide⟩
    | some x => exact htype _ (lookup_mem hl) rfl
  rcases hw3.2 with ⟨c, hc, _⟩ | h1 | h1
  · rw [hsn] at hc
    simp at hc
  · exact hty.1 h1
  · exact hty.2 h1

/-- C4 on the volume `another-volume-1` of Case 5, which the container of the component
mounts as a volume. -/
theorem Delete_keeps_near_miss_witness :
    nearMissType ∈ case5Volumes ∧
    IsMounted case5Containers "my-component" nearMissType.Name ∧
    ∀ ok, (⟨.RemoveVolume nearMissType.Name, ok⟩ : Event) ∉
      (Delete (daemon case5Containers case5Volumes) RangeOrder.insertion []
        [("component", "my-component")]).1 :=
  ⟨by decide,
    ⟨_, List.mem_cons_self _ _, by decide, mountPoint "another-volume-1" TypeVolume, by decide,
      by decide, by decide⟩,
    Delete_keeps_near_miss (daemon case5Containers case5Volumes) RangeOrder.insertion []
      [("component", "my-component")] case5Volumes nearMissType rfl (by decide) (by decide)
      (by decide)⟩

/-- C5. `Delete` never removes a bind mount: a name that the containers of the target
component mount only with a type other than volume is not removed, whatever labels a
listed volume of that name carries. -/
theorem Delete_keeps_bind_mounts (cl : Client) (ord : RangeOrder) (h : Trace) (labels : Labels)
    (target name : String) (containers : List Container)
    (hl : labels.lookup "component" = some target)
    (hc : cl.GetContainerList h = .ok containers)
    (hbind : ∀ c ∈ containers, getLabel c.Labels "component" = target →
      ∀ m ∈ c.Mounts, m.Name = name → m.Type_ ≠ TypeVolume) :
    ∀ ok, (⟨.RemoveVolume name, ok⟩ : Event) ∉ (Delete cl ord h labels).1 := by
  intro ok hrem
  obtain ⟨t, cs, _, hl2, hc2, _, _, ⟨c, hc3, hc4, m, hm1, hm2, hm3⟩, _⟩ :=
    Delete_removed_spec cl ord h labels name ok hrem
  rw [hl] at hl2
  rw [hc] at hc2
  have e1 : target = t := Option.some.inj hl2
  have e2 : containers = cs := Except.ok.inj hc2
  subst e1 e2
  exact hbind c hc3 hc4 m hm1 hm3 hm2

/-- C5 on Case 3 of `TestAdapterDeleteVolumes`: the bind mount carries the labels of a
source volume. -/
theorem Delete_keeps_bind_mounts_witness :
    (∃ v ∈ case3Volumes, v.Name = "my-src-mount" ∧ IsCandidate "my-component" v) ∧
    ∀ ok, (⟨.RemoveVolume "my-src-mount", ok⟩ : Event) ∉
      (Delete (daemon case3Containers case3Volumes) RangeOrder.insertion []
        [("component", "my-component")]).1 :=
  ⟨⟨_, List.mem_cons_self _ _, by decide, by decide, Or.inr (Or.inl (by decide))⟩,
    Delete_keeps_bind_mounts (daemon case3Containers case3Volumes) RangeOrder.insertion []
      [("component", "my-component")] "my-component" "my-src-mount" case3Containers rfl rfl
      (by decide)⟩

/-- C6. `Delete` is idempotent on a missing component: when the listing succeeds and no
listed container carries the component, `Delete` returns no error and its only call is
the listing of the containers; no container and no volume is removed. -/
theorem Delete_missing_component (cl : Client) (ord : RangeOrder) (h : Trace) (labels : Labels)
    (target : String) (containers : List Container)
    (hl : labels.lookup "component" = some target)
    (hc : cl.GetContainerList h = .ok containers)
    (hnone : ∀ c ∈ containers, getLabel c.Labels "component" ≠ target) :
    Delete cl ord h labels = ([⟨.GetContainerList, true⟩], none) := by
  have hempty : GetContainersByComponent target containers = [] := by
    rw [List.eq_nil_iff_forall_not_mem]
    intro c hcm
    rw [mem_GetContainersByComponent] at hcm
    exact hnone c hcm.1 hcm.2
  unfold Delete
  rw [hl]
  simp only [hc, hempty, List.length_nil, if_true]

/-- C6 on Case 5 of `TestAdapterDeleteVolumes`, for a component with no container. -/
theorem Delete_missing_component_witness :
    (∃ v ∈ case5Volumes, IsCandidate "doesNotExists" v ∨ IsCandidate "my-component" v) ∧
    Delete (daemon case5Containers case5Volumes) RangeOrder.insertion []
      [("component", "doesNotExists")] = ([⟨.GetContainerList, true⟩], none) :=
  ⟨⟨_, List.mem_cons_self _ _, Or.inr ⟨by decide, Or.inr (Or.inl (by decide))⟩⟩,
    Delete_missing_component (daemon case5Containers case5Volumes) RangeOrder.insertion []
      [("component", "doesNotExists")] "doesNotExists" case5Containers rfl rfl (by decide)⟩

/-- C7. When the labels handed to `Delete` have no `component` key (a nil map included),
`Delete` returns an error and performs no client call at all. -/
theorem Delete_without_component_label (cl : Client) (ord : RangeOrder) (h : Trace)
    (labels : Labels) (hno : ∀ kv ∈ labels, kv.1 ≠ "component") :
    (Delete cl ord h labels).1 = [] ∧ (Delete cl ord h labels).2 ≠ none := by
  unfold Delete
  rw [lookup_none hno]
  exact ⟨rfl, by simp⟩

/-- C7 on the nil map. -/
theorem Delete_without_component_label_witness :
    (Delete (daemon case5Containers case5Volumes) RangeOrder.insertion [] []).1 = [] ∧
    (Delete (daemon case5Containers case5Volumes) RangeOrder.insertion [] []).2 ≠ none :=
  Delete_without_component_label (daemon case5Containers case5Volumes) RangeOrder.insertion []
    [] (by simp)

/-! ## `createComponent` and `updateComponent` -/

theorem labelPorts_Image (npm : List (Port × String)) :
    ∀ cfg : ContainerConfig, (labelPorts cfg npm).Image = cfg.Image := by
  unfold labelPorts
  induction npm with
  | nil => intro cfg; rfl
  | cons pu npm ih => intro cfg; rw [List.foldl_cons, ih]

theorem updateComponentWithSupervisord_Image (comp : DevfileComponent) (rc : DevfileCommand)
    (sv : String) (hc : HostConfig) :
    (updateComponentWithSupervisord comp rc sv hc).1.Container.Image = comp.Container.Image := by
  unfold updateComponentWithSupervisord
  split
  · simp only
    split <;> split <;> split <;> rfl
  · rfl

theorem mountSources_Image (a : Adapter) (comp : DevfileComponent) (hc : HostConfig) :
    (mountSources a comp hc).1.Container.Image = comp.Container.Image := by
  unfold mountSources
  split
  · simp only
    split <;> rfl
  · rfl

/-- `startComponent` performs at most one call, the start of a container whose
configuration has the image of the component. -/
theorem startComponent_trace (a : Adapter) (h : Trace) (mounts : List Mount)
    (comp : DevfileComponent) :
    (startComponent a h mounts comp).1 = [] ∨
      ∃ cfg hc ok, (startComponent a h mounts comp).1 = [⟨.StartContainer cfg hc, ok⟩] ∧
        cfg.Image = comp.Container.Image ∧
        (ok = true ↔ (startComponent a h mounts comp).2 = none) := by
  unfold startComponent
  split
  · exact Or.inl rfl
  · split
    · exact Or.inl rfl
    · right
      simp only
      split
      · refine ⟨_, _, false, rfl, ?_, by simp⟩
        rw [labelPorts_Image]
        simp only [generateAndGetContainerConfig, GenerateContainerConfig]
        rw [mountSources_Image, updateComponentWithSupervisord_Image]
      · refine ⟨_, _, true, rfl, ?_, by simp⟩
        rw [labelPorts_Image]
        simp only [generateAndGetContainerConfig, GenerateContainerConfig]
        rw [mountSources_Image, updateComponentWithSupervisord_Image]

theorem StartsFollow_of_check (before : ContainerConfig → Event) :
    ∀ (t : Trace) (prev : Option Event), startsFollow before prev t = true →
      ∀ i config hostConfig ok, t[i]? = some ⟨.StartContainer config hostConfig, ok⟩ →
        (i = 0 ∧ prev = some (before config)) ∨ ∃ j, i = j + 1 ∧ t[j]? = some (before config) := by
  intro t
  induction t with
  | nil => intro prev _ i config hostConfig ok hi; simp at hi
  | cons e rest ih =>
    intro prev hchk i config hostConfig ok hi
    simp only [startsFollow, Bool.and_eq_true] at hchk
    cases i with
    | zero =>
      simp only [List.getElem?_cons_zero, Option.some.injEq] at hi
      subst hi
      simp only [beq_iff_eq] at hchk
      exact Or.inl ⟨rfl, hchk.1⟩
    | succ k =>
      simp only [List.getElem?_cons_succ] at hi
      right
      rcases ih (some e) hchk.2 k config hostConfig ok hi with ⟨hk, he⟩ | ⟨j, hj, hjv⟩
      · exact ⟨0, by omega, by simpa using Option.some.inj he⟩
      · exact ⟨j + 1, by omega, by simpa using hjv⟩

theorem StartsFollow_of_check_none (before : ContainerConfig → Event) (t : Trace)
    (hchk : startsFollow before none t = true) : StartsFollow before t := by
  intro i config hostConfig ok hi
  rcases StartsFollow_of_check before t none hchk i config hostConfig ok hi with ⟨_, h⟩ | h
  · simp at h
  · exact h

/-- The three shapes of the trace of `pullAndStartContainer`. -/
theorem pullAndStartContainer_trace (a : Adapter) (h : Trace) (mounts : List Mount)
    (comp : DevfileComponent) :
    ((pullAndStartContainer a h mounts comp).1 = [⟨.PullImage comp.Container.Image, false⟩] ∧
        (pullAndStartContainer a h mounts comp).2 ≠ none) ∨
      ((pullAndStartContainer a h mounts comp).1 = [⟨.PullImage comp.Container.Image, true⟩]) ∨
      ∃ cfg hc ok, (pullAndStartContainer a h mounts comp).1 =
          [⟨.PullImage comp.Container.Image, true⟩, ⟨.StartContainer cfg hc, ok⟩] ∧
        cfg.Image = comp.Container.Image := by
  unfold pullAndStartContainer
  split
  · exact Or.inl ⟨rfl, by simp⟩
  · right
    simp only
    rcases startComponent_trace a (h ++ [⟨.PullImage comp.Container.Image, true⟩]) mounts comp
      with h0 | ⟨cfg, hc, ok, h1, himg, _⟩
    · left
      split <;> rename_i heq <;> rw [heq] at h0 <;> simp only at h0 <;> rw [h0]
    · right
      refine ⟨cfg, hc, ok, ?_, himg⟩
      split <;> rename_i heq <;> rw [heq] at h1 <;> simp only at h1 <;> rw [h1]

theorem pullAndStartContainer_check (a : Adapter) (h : Trace) (mounts : List Mount)
    (comp : DevfileComponent) (prev : Option Event) (rest : Trace)
    (hrest : ∀ p, startsFollow pullOf p rest = true) :
    startsFollow pullOf prev ((pullAndStartContainer a h mounts comp).1 ++ rest) = true := by
  rcases pullAndStartContainer_trace a h mounts comp with ⟨h1, _⟩ | h1 | ⟨cfg, hc, ok, h1, himg⟩
  · rw [h1]; simp [startsFollow, hrest]
  · rw [h1]; simp [startsFollow, hrest]
  · rw [h1]; simp [startsFollow, hrest, pullOf, himg]

theorem createLoop_check (a : Adapter) :
    ∀ (comps : List DevfileComponent) (h : Trace) (prev : Option Event),
      startsFollow pullOf prev (createLoop a h comps).1 = true := by
  intro comps
  induction comps with
  | nil => intro h prev; simp [createLoop, startsFollow]
  | cons comp comps ih =>
    intro h prev
    unfold createLoop
    split
    · rename_i t err heq
      have := pullAndStartContainer_check a h (dockerVolumeMounts a comp) comp prev []
        (fun _ => rfl)
      rw [heq] at this
      simpa using this
    · rename_i t heq
      have := pullAndStartContainer_check a h (dockerVolumeMounts a comp) comp prev
        (createLoop a (h ++ t) comps).1 (fun p => ih _ p)
      rw [heq] at this
      exact this

theorem createComponent_check (a : Adapter) (h : Trace) :
    startsFollow pullOf none (createComponent a h).1 = true := by
  unfold createComponent
  split
  · rfl
  · split
    · rfl
    · simp only [startsFollow, Bool.true_and]
      exact createLoop_check a _ _ _

theorem updateUnit_zero (a : Adapter) (h : Trace) (flag : Bool) (comp : DevfileComponent)
    (hzero : a.Client.GetContainersByComponentAndAlias h a.ComponentName comp.Container.Name =
      .ok []) :
    (updateUnit a h flag comp).1 = lookupEvent a comp ::
      (pullAndStartContainer a (h ++ [lookupEvent a comp]) (dockerVolumeMounts a comp) comp).1 := by
  unfold updateUnit
  rw [hzero]
  simp only [lookupEvent]
  split <;> rename_i heq <;> rw [heq] <;> rfl

theorem updateUnit_many (a : Adapter) (h : Trace) (flag : Bool) (comp : DevfileComponent)
    (c1 c2 : Container) (rest : List Container)
    (hmany : a.Client.GetContainersByComponentAndAlias h a.ComponentName comp.Container.Name =
      .ok (c1 :: c2 :: rest)) :
    (updateUnit a h flag comp).1 = [lookupEvent a comp] ∧
      ∃ err, (updateUnit a h flag comp).2 = .ret true err := by
  unfold updateUnit
  rw [hmany]
  exact ⟨rfl, _, rfl⟩

/-- The shapes of the trace of `updateUnit` for a unit with exactly one observed
container, with the way the pass ends. -/
theorem updateUnit_one (a : Adapter) (h : Trace) (flag : Bool) (comp : DevfileComponent)
    (container : Container)
    (hone : a.Client.GetContainersByComponentAndAlias h a.ComponentName comp.Container.Name =
      .ok [container]) :
    (∃ ok, (updateUnit a h flag comp).1 = [lookupEvent a comp,
        ⟨.GetContainerConfigHostConfigAndMounts container.ID, ok⟩] ∧
      ((updateUnit a h flag comp).2 = .next flag ∨
        ∃ err, (updateUnit a h flag comp).2 = .ret flag err)) ∨
    (∃ cfg hc ms pm npm,
      a.Client.GetContainerConfigHostConfigAndMounts (h ++ [lookupEvent a comp]) container.ID =
        .ok (cfg, hc, ms) ∧
      getPortMap a a.Context comp.Container.Endpoints false = .ok (pm, npm) ∧
      a.DoesContainerNeedUpdating comp (labelPorts cfg npm) hc (dockerVolumeMounts a comp) ms pm
        = true ∧
      ((updateUnit a h flag comp).1 = [lookupEvent a comp,
          ⟨.GetContainerConfigHostConfigAndMounts container.ID, true⟩,
          ⟨.RemoveContainer container.ID, false⟩] ∨
        (updateUnit a h flag comp).1 = [lookupEvent a comp,
          ⟨.GetContainerConfigHostConfigAndMounts container.ID, true⟩,
          ⟨.RemoveContainer container.ID, true⟩] ∨
        ∃ config hostConfig ok, (updateUnit a h flag comp).1 = [lookupEvent a comp,
          ⟨.GetContainerConfigHostConfigAndMounts container.ID, true⟩,
          ⟨.RemoveContainer container.ID, true⟩, ⟨.StartContainer config hostConfig, ok⟩])) := by
  unfold updateUnit
  rw [hone]
  simp only [lookupEvent]
  split
  · exact Or.inl ⟨false, rfl, Or.inr ⟨_, rfl⟩⟩
  · rename_i cfg hc ms hinspect
    split
    · exact Or.inl ⟨true, rfl, Or.inr ⟨_, rfl⟩⟩
    · rename_i pm npm hpm
      split
      · rename_i hneed
        right
        refine ⟨cfg, hc, ms, pm, npm, hinspect, hpm, hneed, ?_⟩
        split
        · exact Or.inl rfl
        · right
          rcases startComponent_trace a (h ++ ([lookupEvent a comp] ++
              [⟨.GetContainerConfigHostConfigAndMounts container.ID, true⟩] ++
              [⟨.RemoveContainer container.ID, true⟩])) (dockerVolumeMounts a comp) comp
            with h0 | ⟨config, hostConfig, ok, h1, _, _⟩
          · left
            simp only [lookupEvent] at h0
            split <;> rename_i heq <;> rw [heq] at h0 <;> simp only at h0 <;> rw [h0] <;> rfl
          · right
            refine ⟨config, hostConfig, ok, ?_⟩
            simp only [lookupEvent] at h1
            split <;> rename_i heq <;> rw [heq] at h1 <;> simp only at h1 <;> rw [h1] <;> rfl
      · exact Or.inl ⟨true, rfl, Or.inl rfl⟩

theorem updateUnit_supportedComponents (a : Adapter) (comps : List DevfileComponent)
    (h : Trace) (flag : Bool) (comp : DevfileComponent) :
    updateUnit { a with supportedComponents := comps } h flag comp = updateUnit a h flag comp :=
  rfl

theorem updateLoop_supportedComponents (a : Adapter) (comps : List DevfileComponent)
    (se : Option Error) :
    ∀ (units : List DevfileComponent) (h : Trace) (flag : Bool),
      updateLoop { a with supportedComponents := comps } se h flag units =
        updateLoop a se h flag units := by
  intro units
  induction units with
  | nil => intro h flag; rfl
  | cons u units ih =>
    intro h flag
    unfold updateLoop
    rw [updateUnit_supportedComponents]
    split
    · rfl
    · rw [ih]

/-- The loop of `updateComponent` stops at a unit with two or more observed containers:
its trace is that of the loop over the units before it, with the lookup of the unit when
the loop reaches it. -/
theorem updateLoop_multiple (a : Adapter) (se : Option Error) (u : DevfileComponent)
    (post : List DevfileComponent)
    (hmulti : ∀ t, ∃ c1 c2 rest,
      a.Client.GetContainersByComponentAndAlias t a.ComponentName u.Container.Name =
        .ok (c1 :: c2 :: rest)) :
    ∀ (pre : List DevfileComponent) (h : Trace) (flag : Bool),
      (updateLoop a se h flag (pre ++ u :: post)).2.2 ≠ none ∧
        ((updateLoop a se h flag (pre ++ u :: post)).1 = (updateLoop a se h flag pre).1 ∨
          (updateLoop a se h flag (pre ++ u :: post)).1 =
            (updateLoop a se h flag pre).1 ++ [lookupEvent a u]) := by
  intro pre
  induction pre with
  | nil =>
    intro h flag
    obtain ⟨c1, c2, rest, hm⟩ := hmulti h
    obtain ⟨ht, err, hr⟩ := updateUnit_many a h flag u c1 c2 rest hm
    simp only [List.nil_append]
    unfold updateLoop
    generalize updateUnit a h flag u = r at ht hr
    obtain ⟨t, s⟩ := r
    simp only at ht hr
    subst ht hr
    simp
  | cons p pre ih =>
    intro h flag
    simp only [List.cons_append]
    unfold updateLoop
    split
    · simp
    · rename_i t f heq
      obtain ⟨h1, h2⟩ := ih (h ++ t) f
      refine ⟨h1, ?_⟩
      rcases h2 with h2 | h2
      · left; simp only; rw [h2]
      · right; simp only; rw [h2, List.append_assoc]

/-- C8, as stated, fails: the unit `db` has two observed containers and the unit `tools`,
declared before it, has none. `updateComponent` returns an error, after it pulled the
image of `tools` and started its container. -/
theorem updateComponent_multiple_counterexample :
    (exampleAdapter [unit "tools" "tools-image", unit "db" "db-image"]
        false).Client.GetContainersByComponentAndAlias [] "nodejs" "db" =
      .ok [observed "d1" "db", observed "d2" "db"] ∧
    (updateComponent (exampleAdapter [unit "tools" "tools-image", unit "db" "db-image"] false)
      []).2.2 ≠ none ∧
    (⟨.PullImage "tools-image", true⟩ : Event) ∈
      (updateComponent (exampleAdapter [unit "tools" "tools-image", unit "db" "db-image"] false)
        []).1 ∧
    ∃ e ∈ (updateComponent (exampleAdapter [unit "tools" "tools-image", unit "db" "db-image"]
        false) []).1, e.call.isStart = true ∧ e.ok = true := by
  refine ⟨rfl, by decide, by decide, by decide⟩

/-- C8, amended. When a declared unit has two or more observed containers,
`updateComponent` returns an error, and it stops at that unit: its calls are those of
`updateComponent` on the units declared before it, followed at most by the lookup of the
containers of the unit. Nothing is removed, started or pulled for the unit or for a unit
declared after it; when the unit is the first one declared, nothing is at all. -/
theorem updateComponent_multiple_containers (a : Adapter) (h : Trace)
    (pre : List DevfileComponent) (u : DevfileComponent) (post : List DevfileComponent)
    (hsplit : a.supportedComponents = pre ++ u :: post)
    (hmulti : ∀ t, ∃ c1 c2 rest,
      a.Client.GetContainersByComponentAndAlias t a.ComponentName u.Container.Name =
        .ok (c1 :: c2 :: rest)) :
    (updateComponent a h).2.2 ≠ none ∧
    ((updateComponent a h).1 = (updateComponent { a with supportedComponents := pre } h).1 ∨
      (updateComponent a h).1 =
        (updateComponent { a with supportedComponents := pre } h).1 ++
          [⟨.GetContainersByComponentAndAlias a.ComponentName u.Container.Name, true⟩]) ∧
    (pre = [] → ∀ e ∈ (updateComponent a h).1, e.call.mutates = false) := by
  have hne : (a.supportedComponents.length == 0) = false := by
    rw [hsplit]; simp
  have key := updateLoop_multiple a (a.Client.StorageCreate h a.uniqueStorage) u post hmulti pre
    (h ++ [⟨.StorageCreate a.uniqueStorage, (a.Client.StorageCreate h a.uniqueStorage).isNone⟩])
    true
  have hfull : updateComponent a h =
      (⟨.StorageCreate a.uniqueStorage, (a.Client.StorageCreate h a.uniqueStorage).isNone⟩ ::
        (updateLoop a (a.Client.StorageCreate h a.uniqueStorage)
          (h ++ [⟨.StorageCreate a.uniqueStorage,
            (a.Client.StorageCreate h a.uniqueStorage).isNone⟩]) true (pre ++ u :: post)).1,
       (updateLoop a (a.Client.StorageCreate h a.uniqueStorage)
          (h ++ [⟨.StorageCreate a.uniqueStorage,
            (a.Client.StorageCreate h a.uniqueStorage).isNone⟩]) true (pre ++ u :: post)).2) := by
    unfold updateComponent
    simp only [hne, Bool.false_eq_true, if_false]
    rw [hsplit]
  have hpre : (updateComponent { a with supportedComponents := pre } h).1 =
      ⟨.StorageCreate a.uniqueStorage, (a.Client.StorageCreate h a.uniqueStorage).isNone⟩ ::
        (updateLoop a (a.Client.StorageCreate h a.uniqueStorage)
          (h ++ [⟨.StorageCreate a.uniqueStorage,
            (a.Client.StorageCreate h a.uniqueStorage).isNone⟩]) true pre).1 := by
    unfold updateComponent
    cases pre with
    | nil => simp [updateLoop]
    | cons p pre =>
      simp only [List.length_cons, Nat.add_one_ne_zero, beq_iff_eq, if_false, Bool.false_eq_true]
      rw [updateLoop_supportedComponents]
  rw [hfull, hpre]
  refine ⟨key.1, ?_, ?_⟩
  · rcases key.2 with k | k
    · left; simp only; rw [k]
    · right; simp only; rw [k]; rfl
  · intro hnil e he
    subst hnil
    simp only [List.mem_cons] at he
    rcases he with he | he
    · subst he; rfl
    · rcases key.2 with k | k
      · rw [k] at he
        simp [updateLoop] at he
      · rw [k] at he
        simp only [updateLoop, List.nil_append, List.mem_singleton] at he
        subst he; rfl

/-- C8, amended, with the unit `db` declared first. -/
theorem updateComponent_multiple_containers_witness :
    (updateComponent (exampleAdapter [unit "db" "db-image", unit "tools" "tools-image"] true)
      []).2.2 ≠ none ∧
    ((updateComponent (exampleAdapter [unit "db" "db-image", unit "tools" "tools-image"] true)
        []).1 =
      (updateComponent
        { exampleAdapter [unit "db" "db-image", unit "tools" "tools-image"] true with
          supportedComponents := [] } []).1 ∨
      (updateComponent (exampleAdapter [unit "db" "db-image", unit "tools" "tools-image"] true)
        []).1 =
      (updateComponent
        { exampleAdapter [unit "db" "db-image", unit "tools" "tools-image"] true with
          supportedComponents := [] } []).1 ++
        [⟨.GetContainersByComponentAndAlias "nodejs" "db", true⟩]) ∧
    (([] : List DevfileComponent) = [] →
      ∀ e ∈ (updateComponent
        (exampleAdapter [unit "db" "db-image", unit "tools" "tools-image"] true) []).1,
        e.call.mutates = false) :=
  updateComponent_multiple_containers
    (exampleAdapter [unit "db" "db-image", unit "tools" "tools-image"] true) [] []
    (unit "db" "db-image") [unit "tools" "tools-image"] rfl
    (fun _ => ⟨observed "d1" "db", observed "d2" "db", [], rfl⟩)

/-- C9. For a declared unit with exactly one observed container that does not need
updating, the pass of `updateComponent` over the unit removes no container, starts no
container and pulls no image, and it leaves `componentExists` as it was: the loop goes
on with the same value (it does whenever the inspection and the port map succeed), or
the function returns with the same value. -/
theorem updateUnit_unchanged (a : Adapter) (h : Trace) (flag : Bool) (comp : DevfileComponent)
    (container : Container)
    (hone : a.Client.GetContainersByComponentAndAlias h a.ComponentName comp.Container.Name =
      .ok [container])
    (hsame : ∀ cfg hc ms pm npm,
      a.Client.GetContainerConfigHostConfigAndMounts (h ++ [lookupEvent a comp]) container.ID =
        .ok (cfg, hc, ms) →
      getPortMap a a.Context comp.Container.Endpoints false = .ok (pm, npm) →
      a.DoesContainerNeedUpdating comp (labelPorts cfg npm) hc (dockerVolumeMounts a comp) ms pm
        = false) :
    (∀ e ∈ (updateUnit a h flag comp).1, e.call.mutates = false) ∧
    ((updateUnit a h flag comp).2 = .next flag ∨
      ∃ err, (updateUnit a h flag comp).2 = .ret flag err) ∧
    (∀ cfg hc ms pm npm,
      a.Client.GetContainerConfigHostConfigAndMounts (h ++ [lookupEvent a comp]) container.ID =
        .ok (cfg, hc, ms) →
      getPortMap a a.Context comp.Container.Endpoints false = .ok (pm, npm) →
      (updateUnit a h flag comp).2 = .next flag) := by
  rcases updateUnit_one a h flag comp container hone with
    ⟨ok, ht, hr⟩ | ⟨cfg, hc, ms, pm, npm, h1, h2, h3, _⟩
  · refine ⟨?_, hr, ?_⟩
    · intro e he
      rw [ht] at he
      simp only [List.mem_cons, List.mem_singleton, List.not_mem_nil, or_false] at he
      rcases he with he | he <;> subst he <;> rfl
    · intro cfg hc ms pm npm h1 h2
      have h3 := hsame cfg hc ms pm npm h1 h2
      unfold updateUnit
      rw [hone]
      simp only [lookupEvent] at h1
      simp only [h1, h2, h3, Bool.false_eq_true, if_false]
  · rw [hsame cfg hc ms pm npm h1 h2] at h3
    exact absurd h3 (by simp)

/-- C9 on the unit `runtime` of the example adapter. -/
theorem updateUnit_unchanged_witness :
    (∀ e ∈ (updateUnit steadyAdapter [] true runtimeUnit).1, e.call.mutates = false) ∧
    ((updateUnit steadyAdapter [] true runtimeUnit).2 = .next true ∨
      ∃ err, (updateUnit steadyAdapter [] true runtimeUnit).2 = .ret true err) ∧
    (∀ cfg hc ms pm npm,
      steadyAdapter.Client.GetContainerConfigHostConfigAndMounts
          ([] ++ [lookupEvent steadyAdapter runtimeUnit]) (observed "r1" "runtime").ID =
        .ok (cfg, hc, ms) →
      getPortMap steadyAdapter steadyAdapter.Context runtimeUnit.Container.Endpoints false =
        .ok (pm, npm) →
      (updateUnit steadyAdapter [] true runtimeUnit).2 = .next true) :=
  updateUnit_unchanged steadyAdapter [] true runtimeUnit (observed "r1" "runtime") rfl
    (fun _ _ _ _ _ _ _ => rfl)

theorem StartsFollow_pull_exists (t : Trace) (hall : StartsFollow pullOf t) (e : Event)
    (he : e ∈ t) (hs : e.call.isStart = true) : ∃ p ∈ t, p.call.isPull = true := by
  obtain ⟨i, hi⟩ := List.mem_iff_getElem?.mp he
  obtain ⟨call, ok⟩ := e
  cases call <;> simp only [Call.isStart, Bool.false_eq_true] at hs
  rename_i config hostConfig
  obtain ⟨j, _, hj⟩ := hall i config hostConfig ok hi
  exact ⟨pullOf config, List.mem_iff_getElem?.mpr ⟨j, hj⟩, rfl⟩

/-- C10, as stated, fails: the unit `runtime` has one observed container that needs
updating. `updateComponent` removes it and starts the replacement, and no image is
pulled: the start is not preceded by a pull. -/
theorem pull_before_start_counterexample :
    (updateComponent driftAdapter []).2 = (false, none) ∧
    (∃ e ∈ (updateComponent driftAdapter []).1, e.call.isStart = true ∧ e.ok = true) ∧
    (∀ e ∈ (updateComponent driftAdapter []).1, e.call.isPull = false) ∧
    ¬ StartsFollow pullOf (updateComponent driftAdapter []).1 := by
  have hstart : ∃ e ∈ (updateComponent driftAdapter []).1,
      e.call.isStart = true ∧ e.ok = true := by decide
  have hpull : ∀ e ∈ (updateComponent driftAdapter []).1, e.call.isPull = false := by decide
  refine ⟨by decide, hstart, hpull, ?_⟩
  intro hall
  obtain ⟨e, he, hs, _⟩ := hstart
  obtain ⟨p, hp, hp2⟩ := StartsFollow_pull_exists _ hall e he hs
  rw [hpull p hp] at hp2
  exact absurd hp2 (by simp)

theorem createLoop_start_image (a : Adapter) :
    ∀ (comps : List DevfileComponent) (h : Trace) (config : ContainerConfig)
      (hostConfig : HostConfig) (ok : Bool),
      (⟨.StartContainer config hostConfig, ok⟩ : Event) ∈ (createLoop a h comps).1 →
        ∃ comp ∈ comps, config.Image = comp.Container.Image := by
  intro comps
  induction comps with
  | nil => intro h config hostConfig ok he; simp [createLoop] at he
  | cons comp comps ih =>
    intro h config hostConfig ok he
    have hblock : ∀ t, t = (pullAndStartContainer a h (dockerVolumeMounts a comp) comp).1 →
        (⟨.StartContainer config hostConfig, ok⟩ : Event) ∈ t →
        config.Image = comp.Container.Image := by
      intro t ht hmem
      rcases pullAndStartContainer_trace a h (dockerVolumeMounts a comp) comp with
        ⟨h1, _⟩ | h1 | ⟨cfg, hc, ok2, h1, himg⟩
      · rw [ht, h1] at hmem; simp at hmem
      · rw [ht, h1] at hmem; simp at hmem
      · rw [ht, h1] at hmem
        simp only [List.mem_cons, Event.mk.injEq, reduceCtorEq, false_and, false_or,
          Call.StartContainer.injEq, List.mem_singleton, List.not_mem_nil, or_false] at hmem
        rw [hmem.1.1]; exact himg
    unfold createLoop at he
    split at he
    · rename_i t err heq
      exact ⟨comp, List.mem_cons_self _ _, hblock t (by rw [heq]) he⟩
    · rename_i t heq
      simp only [List.mem_append] at he
      rcases he with he | he
      · exact ⟨comp, List.mem_cons_self _ _, hblock t (by rw [heq]) he⟩
      · obtain ⟨c, hc, himg⟩ := ih _ _ _ _ he
        exact ⟨c, List.mem_cons_of_mem _ hc, himg⟩

/-- C10, amended. In `createComponent`, and in `updateComponent` for a unit with no
observed container, every start of a container comes right after a successful pull of
the image of the container started, which is the image of a declared unit. For a unit
with exactly one observed container no image is pulled, whether the container is left
unchanged or replaced after drift: the replacement is started right after the removal
of the observed container, without a pull. -/
theorem pull_on_create_path (a : Adapter) (h : Trace) :
    (StartsFollow pullOf (createComponent a h).1 ∧
      ∀ config hostConfig ok,
        (⟨.StartContainer config hostConfig, ok⟩ : Event) ∈ (createComponent a h).1 →
          ∃ comp ∈ a.supportedComponents, config.Image = comp.Container.Image) ∧
    (∀ flag comp,
      a.Client.GetContainersByComponentAndAlias h a.ComponentName comp.Container.Name =
          .ok [] →
        StartsFollow pullOf (updateUnit a h flag comp).1 ∧
        ∀ config hostConfig ok,
          (⟨.StartContainer config hostConfig, ok⟩ : Event) ∈ (updateUnit a h flag comp).1 →
            config.Image = comp.Container.Image) ∧
    (∀ flag comp container,
      a.Client.GetContainersByComponentAndAlias h a.ComponentName comp.Container.Name =
          .ok [container] →
        (∀ e ∈ (updateUnit a h flag comp).1, e.call.isPull = false) ∧
        StartsFollow (fun _ => ⟨.RemoveContainer container.ID, true⟩)
          (updateUnit a h flag comp).1) := by
  refine ⟨⟨StartsFollow_of_check_none _ _ (createComponent_check a h), ?_⟩, ?_, ?_⟩
  · intro config hostConfig ok he
    unfold createComponent at he
    split at he
    · simp at he
    · split at he
      · simp at he
      · simp only [List.mem_cons, Event.mk.injEq, reduceCtorEq, false_and, false_or] at he
        exact createLoop_start_image a _ _ _ _ _ he
  · intro flag comp hzero
    rw [updateUnit_zero a h flag comp hzero]
    constructor
    · apply StartsFollow_of_check_none
      have := pullAndStartContainer_check a (h ++ [lookupEvent a comp])
        (dockerVolumeMounts a comp) comp (some (lookupEvent a comp)) [] (fun _ => rfl)
      rw [List.append_nil] at this
      simp only [startsFollow, lookupEvent, Bool.true_and]
      exact this
    · intro config hostConfig ok he
      simp only [List.mem_cons, lookupEvent, Event.mk.injEq, reduceCtorEq, false_and,
        false_or] at he
      rcases pullAndStartContainer_trace a (h ++ [lookupEvent a comp])
        (dockerVolumeMounts a comp) comp with ⟨h1, _⟩ | h1 | ⟨cfg, hc, ok2, h1, himg⟩
      · simp only [lookupEvent] at h1; rw [h1] at he; simp at he
      · simp only [lookupEvent] at h1; rw [h1] at he; simp at he
      · simp only [lookupEvent] at h1
        rw [h1] at he
        simp only [List.mem_cons, Event.mk.injEq, reduceCtorEq, false_and, false_or,
          Call.StartContainer.injEq, List.mem_singleton, List.not_mem_nil, or_false] at he
        rw [he.1.1]; exact himg
  · intro flag comp container hone
    rcases updateUnit_one a h flag comp container hone with
      ⟨ok, ht, _⟩ | ⟨_, _, _, _, _, _, _, _, ht | ht | ⟨config, hostConfig, ok, ht⟩⟩
    all_goals
      rw [ht]
      constructor
      · simp [Call.isPull, lookupEvent]
      · apply StartsFollow_of_check_none
        simp [startsFollow, lookupEvent]

/-- C10, amended, on the example adapter: a create, a unit with no container and a
replacement after drift. -/
theorem pull_on_create_path_witness :
    StartsFollow pullOf (createComponent driftAdapter []).1 ∧
    (∃ e ∈ (createComponent driftAdapter []).1, e.call.isStart = true) ∧
    StartsFollow pullOf (updateUnit driftAdapter [] true (unit "tools" "tools-image")).1 ∧
    (∃ e ∈ (updateUnit driftAdapter [] true (unit "tools" "tools-image")).1,
      e.call.isStart = true) ∧
    (∀ e ∈ (updateUnit driftAdapter [] true runtimeUnit).1, e.call.isPull = false) ∧
    (∃ e ∈ (updateUnit driftAdapter [] true runtimeUnit).1, e.call.isStart = true) :=
  ⟨(pull_on_create_path driftAdapter []).1.1, by decide,
    ((pull_on_create_path driftAdapter []).2.1 true (unit "tools" "tools-image") rfl).1,
    by decide,
    ((pull_on_create_path driftAdapter []).2.2 true runtimeUnit (observed "r1" "runtime")
      rfl).1, by decide⟩

/-! ## `execDevfile` -/

theorem syncs_append (t t2 : Trace) : syncs (t ++ t2) = syncs t ++ syncs t2 := by
  simp [syncs]

theorem runActions_append (t t2 : Trace) : runActions (t ++ t2) = runActions t ++ runActions t2 := by
  simp [runActions]

theorem execCommand_eq (d : Deps) (a : Adapter) (h : Trace) (containers : List Container)
    (command : DevfileCommand) :
    execCommand d a h containers command =
      ([syncEvent d containers command
          (a.Client.ExecuteDevfileCommandSynchronously h command.Exec
            (d.GetContainerIDForAlias containers command.Exec.Component)).isNone],
        a.Client.ExecuteDevfileCommandSynchronously h command.Exec
          (d.GetContainerIDForAlias containers command.Exec.Component)) := rfl

/-- The supervisor is started with `ExecuteCommand` only. -/
theorem initRunContainerSupervisordLoop_trace (a : Adapter) (component : String) :
    ∀ (containers : List Container) (h : Trace) (err : Option Error) (e : Event),
      e ∈ (initRunContainerSupervisordLoop a component h err containers).1 →
        ∃ id command, e.call = .ExecuteCommand id command := by
  intro containers
  induction containers with
  | nil => intro h err e he; simp [initRunContainerSupervisordLoop] at he
  | cons c cs ih =>
    intro h err e he
    unfold initRunContainerSupervisordLoop at he
    split at he
    · simp only [List.mem_cons] at he
      rcases he with he | he
      · exact ⟨_, _, by rw [he]⟩
      · exact ih _ _ _ he
    · exact ih _ _ _ he

/-- The run stage performs no synchronous execution, and its run action, if any, is its
last event. -/
theorem execRun_trace (d : Deps) (a : Adapter) (h : Trace) (commandsMap : PushCommandsMap)
    (componentExists : Bool) (containers : List Container) :
    syncs (execRun d a h commandsMap componentExists containers).1 = [] := by
  have hsup : ∀ t, t = (initRunContainerSupervisord a h
      ((commandsMap.lookup RunCommandGroupType).map (·.Exec.Component) |>.getD "") containers).1 →
      syncs t = [] := by
    intro t ht
    simp only [syncs, List.filter_eq_nil_iff]
    intro e he
    rw [ht] at he
    obtain ⟨id, command, hc⟩ := initRunContainerSupervisordLoop_trace a _ _ _ _ _ he
    rw [hc]; simp [Call.isSync]
  unfold execRun
  split
  · rfl
  · rename_i command hrun
    simp only [hrun, Option.map_some', Option.getD_some] at hsup
    cases componentExists with
    | true =>
      simp only [Bool.not_true, Bool.false_eq_true, if_false, List.nil_append, Bool.true_and]
      split <;> simp [syncs, Call.isSync]
    | false =>
      simp only [Bool.not_false, if_true, Bool.false_and, Bool.false_eq_true, if_false]
      split
      · rename_i t err heq
        exact hsup t (by rw [heq])
      · rename_i t heq
        rw [syncs_append, hsup t (by rw [heq])]
        simp [syncs, Call.isSync]

theorem execInit_skipped (d : Deps) (a : Adapter) (h : Trace) (commandsMap : PushCommandsMap)
    (componentExists : Bool) (containers : List Container)
    (hskip : componentExists = true ∨ commandsMap.lookup InitCommandGroupType = none) :
    execInit d a h commandsMap componentExists containers = ([], none) := by
  unfold execInit
  rcases hskip with hs | hs
  · simp [hs]
  · rw [hs]; simp

theorem execInit_run (d : Deps) (a : Adapter) (h : Trace) (commandsMap : PushCommandsMap)
    (containers : List Container) (command : DevfileCommand)
    (hinit : commandsMap.lookup InitCommandGroupType = some command) :
    execInit d a h commandsMap false containers = execCommand d a h containers command := by
  unfold execInit
  rw [hinit]; rfl

theorem length_ne_zero_of_lookup {k : DevfileCommandGroupType} {command : DevfileCommand}
    {commandsMap : PushCommandsMap} (hl : commandsMap.lookup k = some command) :
    (commandsMap.length == 0) = false := by
  cases commandsMap with
  | nil => simp at hl
  | cons x xs => simp

/-- The synchronous executions of the build stage. -/
theorem execBuild_syncs (d : Deps) (a : Adapter) (h : Trace) (commandsMap : PushCommandsMap)
    (containers : List Container) :
    (commandsMap.lookup BuildCommandGroupType = none ∧
        execBuild d a h commandsMap containers = ([], none)) ∨
      ∃ command, commandsMap.lookup BuildCommandGroupType = some command ∧
        execBuild d a h commandsMap containers = execCommand d a h containers command := by
  unfold execBuild
  cases hb : commandsMap.lookup BuildCommandGroupType with
  | none => exact Or.inl ⟨rfl, rfl⟩
  | some command => exact Or.inr ⟨command, rfl, rfl⟩

/-- C13. `execDevfile` executes the init command exactly when the map has an init entry
and `componentExists` is false: then the init command is its first call; when
`componentExists` is true, or the map has no init entry, the only command it executes
synchronously, if any, is the build entry, so the init command is never executed. -/
theorem execDevfile_init (d : Deps) (a : Adapter) (h : Trace) (commandsMap : PushCommandsMap)
    (componentExists sh : Bool) (containers : List Container) :
    (∀ command, componentExists = false →
      commandsMap.lookup InitCommandGroupType = some command →
        (execDevfile d a h commandsMap componentExists sh containers).1.head? =
          some (syncEvent d containers command
            (a.Client.ExecuteDevfileCommandSynchronously h command.Exec
              (d.GetContainerIDForAlias containers command.Exec.Component)).isNone)) ∧
    ((componentExists = true ∨ commandsMap.lookup InitCommandGroupType = none) →
      syncs (execDevfile d a h commandsMap componentExists sh containers).1 = [] ∨
        ∃ command ok, commandsMap.lookup BuildCommandGroupType = some command ∧
          syncs (execDevfile d a h commandsMap componentExists sh containers).1 =
            [syncEvent d containers command ok]) := by
  constructor
  · intro command hex hinit
    subst hex
    unfold execDevfile
    rw [length_ne_zero_of_lookup hinit]
    simp only [Bool.false_eq_true, if_false]
    rw [execInit_run d a h commandsMap containers command hinit, execCommand_eq]
    cases a.Client.ExecuteDevfileCommandSynchronously h command.Exec
        (d.GetContainerIDForAlias containers command.Exec.Component) with
    | some err => rfl
    | none =>
      simp only
      split <;> rfl
  · intro hskip
    unfold execDevfile
    split
    · exact Or.inl rfl
    · rw [execInit_skipped d a h commandsMap componentExists containers hskip]
      simp only [List.append_nil, List.nil_append]
      rcases execBuild_syncs d a h commandsMap containers with ⟨_, hb⟩ | ⟨command, hl, hb⟩
      · rw [hb]
        simp only [List.append_nil, List.nil_append]
        exact Or.inl (execRun_trace d a h commandsMap componentExists containers)
      · right
        rw [hb, execCommand_eq]
        refine ⟨command, (a.Client.ExecuteDevfileCommandSynchronously h command.Exec
            (d.GetContainerIDForAlias containers command.Exec.Component)).isNone, hl, ?_⟩
        cases a.Client.ExecuteDevfileCommandSynchronously h command.Exec
            (d.GetContainerIDForAlias containers command.Exec.Component) with
        | some err => simp [syncs, syncEvent, Call.isSync]
        | none =>
          simp only [syncs_append, execRun_trace, List.append_nil]
          simp [syncs, syncEvent, Call.isSync]

theorem length_ne_zero_of_ne_nil {commandsMap : PushCommandsMap} (hne : commandsMap ≠ []) :
    (commandsMap.length == 0) = false := by
  cases commandsMap with
  | nil => exact absurd rfl hne
  | cons x xs => simp

/-- `execDevfile` when the init stage fails. -/
theorem execDevfile_init_fails (d : Deps) (a : Adapter) (h : Trace)
    (commandsMap : PushCommandsMap) (componentExists sh : Bool) (containers : List Container)
    (hne : commandsMap ≠ []) (err : Error)
    (hinit : (execInit d a h commandsMap componentExists containers).2 = some err) :
    execDevfile d a h commandsMap componentExists sh containers =
      ((execInit d a h commandsMap componentExists containers).1, some err) := by
  unfold execDevfile
  rw [length_ne_zero_of_ne_nil hne]
  simp only [Bool.false_eq_true, if_false]
  generalize execInit d a h commandsMap componentExists containers = r at hinit
  obtain ⟨t1, e1⟩ := r
  simp only at hinit
  subst hinit
  rfl

/-- `execDevfile` when the init stage passes and the build stage fails. -/
theorem execDevfile_build_fails (d : Deps) (a : Adapter) (h : Trace)
    (commandsMap : PushCommandsMap) (componentExists sh : Bool) (containers : List Container)
    (hne : commandsMap ≠ []) (err : Error)
    (hinit : (execInit d a h commandsMap componentExists containers).2 = none)
    (hbuild : (execBuild d a (h ++ (execInit d a h commandsMap componentExists containers).1)
      commandsMap containers).2 = some err) :
    execDevfile d a h commandsMap componentExists sh containers =
      ((execInit d a h commandsMap componentExists containers).1 ++
        (execBuild d a (h ++ (execInit d a h commandsMap componentExists containers).1)
          commandsMap containers).1, some err) := by
  unfold execDevfile
  rw [length_ne_zero_of_ne_nil hne]
  simp only [Bool.false_eq_true, if_false]
  generalize execInit d a h commandsMap componentExists containers = r at hinit hbuild
  obtain ⟨t1, e1⟩ := r
  simp only at hinit hbuild
  subst hinit
  simp only
  generalize execBuild d a (h ++ t1) commandsMap containers = r2 at hbuild
  obtain ⟨t2, e2⟩ := r2
  simp only at hbuild
  subst hbuild
  rfl

/-- `execDevfile` when the init stage and the build stage pass. -/
theorem execDevfile_reaches_run (d : Deps) (a : Adapter) (h : Trace)
    (commandsMap : PushCommandsMap) (componentExists sh : Bool) (containers : List Container)
    (hne : commandsMap ≠ [])
    (hinit : (execInit d a h commandsMap componentExists containers).2 = none)
    (hbuild : (execBuild d a (h ++ (execInit d a h commandsMap componentExists containers).1)
      commandsMap containers).2 = none) :
    execDevfile d a h commandsMap componentExists sh containers =
      ((execInit d a h commandsMap componentExists containers).1 ++
        (execBuild d a (h ++ (execInit d a h commandsMap componentExists containers).1)
          commandsMap containers).1 ++
        (execRun d a (h ++ (execInit d a h commandsMap componentExists containers).1 ++
          (execBuild d a (h ++ (execInit d a h commandsMap componentExists containers).1)
            commandsMap containers).1) commandsMap componentExists containers).1,
       (execRun d a (h ++ (execInit d a h commandsMap componentExists containers).1 ++
          (execBuild d a (h ++ (execInit d a h commandsMap componentExists containers).1)
            commandsMap containers).1) commandsMap componentExists containers).2) := by
  unfold execDevfile
  rw [length_ne_zero_of_ne_nil hne]
  simp only [Bool.false_eq_true, if_false]
  generalize execInit d a h commandsMap componentExists containers = r at hinit hbuild
  obtain ⟨t1, e1⟩ := r
  simp only at hinit hbuild
  subst hinit
  simp only
  generalize execBuild d a (h ++ t1) commandsMap containers = r2 at hbuild
  obtain ⟨t2, e2⟩ := r2
  simp only at hbuild
  subst hbuild
  rfl

/-- The events of the init stage and of the build stage are synchronous executions. -/
theorem execInit_syncs (d : Deps) (a : Adapter) (h : Trace) (commandsMap : PushCommandsMap)
    (componentExists : Bool) (containers : List Container) :
    syncs (execInit d a h commandsMap componentExists containers).1 =
        (execInit d a h commandsMap componentExists containers).1 ∧
      runActions (execInit d a h commandsMap componentExists containers).1 = [] := by
  unfold execInit
  split
  · split
    · simp [execCommand, syncs, runActions, Call.isSync, Call.isRunAction]
    · exact ⟨rfl, rfl⟩
  · exact ⟨rfl, rfl⟩

theorem execBuild_syncs_self (d : Deps) (a : Adapter) (h : Trace)
    (commandsMap : PushCommandsMap) (containers : List Container) :
    syncs (execBuild d a h commandsMap containers).1 =
        (execBuild d a h commandsMap containers).1 ∧
      runActions (execBuild d a h commandsMap containers).1 = [] := by
  unfold execBuild
  split
  · simp [execCommand, syncs, runActions, Call.isSync, Call.isRunAction]
  · exact ⟨rfl, rfl⟩

/-- C15. When `execDevfile` reaches the build stage, the map being non-empty and the init
stage skipped or passed, it executes the build entry of the map right after the events of
the init stage, whatever `componentExists` is; without a build entry the stage performs
no call and raises no error: the function goes on with the run stage, and returns no
error when the map has no run entry either. -/
theorem execDevfile_build (d : Deps) (a : Adapter) (h : Trace) (commandsMap : PushCommandsMap)
    (componentExists sh : Bool) (containers : List Container)
    (hne : commandsMap ≠ [])
    (hinit : (execInit d a h commandsMap componentExists containers).2 = none) :
    (∀ command, commandsMap.lookup BuildCommandGroupType = some command →
      ∃ rest, (execDevfile d a h commandsMap componentExists sh containers).1 =
        (execInit d a h commandsMap componentExists containers).1 ++
          syncEvent d containers command
            (a.Client.ExecuteDevfileCommandSynchronously
              (h ++ (execInit d a h commandsMap componentExists containers).1) command.Exec
              (d.GetContainerIDForAlias containers command.Exec.Component)).isNone :: rest) ∧
    (commandsMap.lookup BuildCommandGroupType = none →
      execDevfile d a h commandsMap componentExists sh containers =
          ((execInit d a h commandsMap componentExists containers).1 ++
            (execRun d a (h ++ (execInit d a h commandsMap componentExists containers).1)
              commandsMap componentExists containers).1,
           (execRun d a (h ++ (execInit d a h commandsMap componentExists containers).1)
              commandsMap componentExists containers).2) ∧
        (commandsMap.lookup RunCommandGroupType = none →
          (execDevfile d a h commandsMap componentExists sh containers).2 = none)) := by
  constructor
  · intro command hb
    have hbe : execBuild d a (h ++ (execInit d a h commandsMap componentExists containers).1)
        commandsMap containers = execCommand d a
          (h ++ (execInit d a h commandsMap componentExists containers).1) containers command := by
      unfold execBuild; rw [hb]
    cases hres : a.Client.ExecuteDevfileCommandSynchronously
        (h ++ (execInit d a h commandsMap componentExists containers).1) command.Exec
        (d.GetContainerIDForAlias containers command.Exec.Component) with
    | some err =>
      have hbf : (execBuild d a (h ++ (execInit d a h commandsMap componentExists containers).1)
          commandsMap containers).2 = some err := by rw [hbe, execCommand_eq, hres]
      rw [execDevfile_build_fails d a h commandsMap componentExists sh containers hne err hinit
        hbf, hbe, execCommand_eq, hres]
      exact ⟨[], rfl⟩
    | none =>
      have hbf : (execBuild d a (h ++ (execInit d a h commandsMap componentExists containers).1)
          commandsMap containers).2 = none := by rw [hbe, execCommand_eq, hres]
      rw [execDevfile_reaches_run d a h commandsMap componentExists sh containers hne hinit hbf,
        hbe, execCommand_eq, hres]
      exact ⟨(execRun d a (h ++ (execInit d a h commandsMap componentExists containers).1 ++
        [syncEvent d containers command true]) commandsMap componentExists containers).1,
        by simp⟩
  · intro hb
    have hbe : execBuild d a (h ++ (execInit d a h commandsMap componentExists containers).1)
        commandsMap containers = ([], none) := by
      unfold execBuild; rw [hb]
    have hall := execDevfile_reaches_run d a h commandsMap componentExists sh containers hne hinit
      (by rw [hbe])
    rw [hbe] at hall
    simp only [List.append_nil] at hall
    refine ⟨hall, fun hrun => ?_⟩
    rw [hall]
    unfold execRun
    rw [hrun]

/-- The run stage when the supervisor could not be started for a new component. -/
theorem execRun_supervisor_fails (d : Deps) (a : Adapter) (h : Trace)
    (commandsMap : PushCommandsMap) (containers : List Container) (command : DevfileCommand)
    (hrun : commandsMap.lookup RunCommandGroupType = some command)
    (hsup : (initRunContainerSupervisord a h command.Exec.Component containers).2 ≠ none) :
    (execRun d a h commandsMap false containers).2 ≠ none ∧
      runActions (execRun d a h commandsMap false containers).1 = [] := by
  unfold execRun
  rw [hrun]
  simp only [Bool.not_false, if_true]
  generalize hr : initRunContainerSupervisord a h command.Exec.Component containers = r at hsup
  obtain ⟨t, e⟩ := r
  cases e with
  | none => exact absurd rfl hsup
  | some err =>
    refine ⟨by simp, ?_⟩
    simp only [runActions, List.filter_eq_nil_iff]
    intro e he
    have ht : t = (initRunContainerSupervisord a h command.Exec.Component containers).1 := by
      rw [hr]
    rw [ht] at he
    obtain ⟨id, cmd, hc⟩ := initRunContainerSupervisordLoop_trace a _ _ _ _ _ he
    rw [hc]; simp [Call.isRunAction]

/-- The run stage when the supervisor is started, or need not be: one run action, chosen
by `componentExists` and `IsRestartRequired`, as the last event. -/
theorem execRun_path (d : Deps) (a : Adapter) (h : Trace)
    (commandsMap : PushCommandsMap) (componentExists : Bool) (containers : List Container)
    (command : DevfileCommand)
    (hrun : commandsMap.lookup RunCommandGroupType = some command)
    (hsup : componentExists = false →
      (initRunContainerSupervisord a h command.Exec.Component containers).2 = none) :
    ∃ t ok,
      (execRun d a h commandsMap componentExists containers).1 =
        t ++ [if componentExists && !d.IsRestartRequired command then
            ⟨.ExecuteDevfileRunActionWithoutRestart command.Exec
              (d.GetContainerIDForAlias containers command.Exec.Component), ok⟩
          else
            ⟨.ExecuteDevfileRunAction command.Exec
              (d.GetContainerIDForAlias containers command.Exec.Component), ok⟩] ∧
      runActions t = [] ∧ syncs t = [] ∧
      (ok = true ↔ (execRun d a h commandsMap componentExists containers).2 = none) := by
  unfold execRun
  rw [hrun]
  cases componentExists with
  | true =>
    simp only [Bool.not_true, Bool.false_eq_true, if_false, List.nil_append, Bool.true_and]
    split
    · exact ⟨[], _, rfl, rfl, rfl, by simp⟩
    · exact ⟨[], _, rfl, rfl, rfl, by simp⟩
  | false =>
    have hs := hsup rfl
    simp only [Bool.not_false, if_true, Bool.false_and, Bool.false_eq_true, if_false]
    generalize hr : initRunContainerSupervisord a h command.Exec.Component containers = r at hs
    obtain ⟨t, e⟩ := r
    simp only at hs
    subst hs
    simp only
    have ht : t = (initRunContainerSupervisord a h command.Exec.Component containers).1 := by
      rw [hr]
    refine ⟨t, _, rfl, ?_, ?_, by simp⟩
    · simp only [runActions, List.filter_eq_nil_iff]
      intro e he
      rw [ht] at he
      obtain ⟨id, cmd, hc⟩ := initRunContainerSupervisordLoop_trace a _ _ _ _ _ he
      rw [hc]; simp [Call.isRunAction]
    · simp only [syncs, List.filter_eq_nil_iff]
      intro e he
      rw [ht] at he
      obtain ⟨id, cmd, hc⟩ := initRunContainerSupervisordLoop_trace a _ _ _ _ _ he
      rw [hc]; simp [Call.isSync]

/-- C16. `execDevfile` runs the commands in the order init, build, run: the events of the
init stage come first and every synchronous execution (init, build) comes before the
events of the run stage. A failure aborts the rest with a non-nil error: when init fails
its execution is the only event; when build fails its execution is the last event; when
the start of the supervisor for a new component fails no run action is executed. -/
theorem execDevfile_abort (d : Deps) (a : Adapter) (h : Trace) (commandsMap : PushCommandsMap)
    (componentExists sh : Bool) (containers : List Container) (hne : commandsMap ≠ []) :
    ((∃ rest, (execDevfile d a h commandsMap componentExists sh containers).1 =
        (execInit d a h commandsMap componentExists containers).1 ++ rest) ∧
      ∃ rest, (execDevfile d a h commandsMap componentExists sh containers).1 =
        syncs (execDevfile d a h commandsMap componentExists sh containers).1 ++ rest ∧
        syncs rest = [] ∧
        runActions (syncs (execDevfile d a h commandsMap componentExists sh containers).1) = []) ∧
    (∀ command err, componentExists = false →
      commandsMap.lookup InitCommandGroupType = some command →
      a.Client.ExecuteDevfileCommandSynchronously h command.Exec
        (d.GetContainerIDForAlias containers command.Exec.Component) = some err →
        execDevfile d a h commandsMap componentExists sh containers =
          ([syncEvent d containers command false], some err)) ∧
    (∀ command err, (execInit d a h commandsMap componentExists containers).2 = none →
      commandsMap.lookup BuildCommandGroupType = some command →
      a.Client.ExecuteDevfileCommandSynchronously
        (h ++ (execInit d a h commandsMap componentExists containers).1) command.Exec
        (d.GetContainerIDForAlias containers command.Exec.Component) = some err →
        execDevfile d a h commandsMap componentExists sh containers =
          ((execInit d a h commandsMap componentExists containers).1 ++
            [syncEvent d containers command false], some err)) ∧
    (∀ command, componentExists = false →
      (execInit d a h commandsMap componentExists containers).2 = none →
      (execBuild d a (h ++ (execInit d a h commandsMap componentExists containers).1)
        commandsMap containers).2 = none →
      commandsMap.lookup RunCommandGroupType = some command →
      (initRunContainerSupervisord a
        (h ++ (execInit d a h commandsMap componentExists containers).1 ++
          (execBuild d a (h ++ (execInit d a h commandsMap componentExists containers).1)
            commandsMap containers).1) command.Exec.Component containers).2 ≠ none →
        (execDevfile d a h commandsMap componentExists sh containers).2 ≠ none ∧
          runActions (execDevfile d a h commandsMap componentExists sh containers).1 = []) := by
  have hI := execInit_syncs d a h commandsMap componentExists containers
  have hB := execBuild_syncs_self d a
    (h ++ (execInit d a h commandsMap componentExists containers).1) commandsMap containers
  have hshape : ∃ rest, (execDevfile d a h commandsMap componentExists sh containers).1 =
      (execInit d a h commandsMap componentExists containers).1 ++ rest ∧
      ((rest = [] ∨ rest = (execBuild d a
          (h ++ (execInit d a h commandsMap componentExists containers).1)
          commandsMap containers).1) ∨
        ∃ t3, rest = (execBuild d a
          (h ++ (execInit d a h commandsMap componentExists containers).1)
          commandsMap containers).1 ++ t3 ∧ syncs t3 = []) := by
    cases hi : (execInit d a h commandsMap componentExists containers).2 with
    | some err =>
      rw [execDevfile_init_fails d a h commandsMap componentExists sh containers hne err hi]
      exact ⟨[], by simp, Or.inl (Or.inl rfl)⟩
    | none =>
      cases hb : (execBuild d a (h ++ (execInit d a h commandsMap componentExists containers).1)
          commandsMap containers).2 with
      | some err =>
        rw [execDevfile_build_fails d a h commandsMap componentExists sh containers hne err hi hb]
        exact ⟨_, rfl, Or.inl (Or.inr rfl)⟩
      | none =>
        rw [execDevfile_reaches_run d a h commandsMap componentExists sh containers hne hi hb]
        exact ⟨_, List.append_assoc _ _ _, Or.inr ⟨_, rfl, execRun_trace _ _ _ _ _ _⟩⟩
  refine ⟨⟨?_, ?_⟩, ?_, ?_, ?_⟩
  · obtain ⟨rest, hr, _⟩ := hshape
    exact ⟨rest, hr⟩
  · obtain ⟨rest, hr, hcases⟩ := hshape
    rw [hr]
    rcases hcases with (h0 | h0) | ⟨t3, h0, h3⟩
    · subst h0
      refine ⟨[], ?_, rfl, ?_⟩
      · simp only [List.append_nil]; exact hI.1.symm
      · simp only [List.append_nil]; rw [hI.1]; exact hI.2
    · rw [h0]
      refine ⟨[], ?_, rfl, ?_⟩
      · simp only [List.append_nil, syncs_append]; rw [hI.1, hB.1]
      · simp only [syncs_append, runActions_append]; rw [hI.1, hB.1, hI.2, hB.2]; rfl
    · rw [h0]
      refine ⟨t3, ?_, h3, ?_⟩
      · simp only [syncs_append, h3, List.append_nil]; rw [hI.1, hB.1, List.append_assoc]
      · simp only [syncs_append, runActions_append, h3, List.append_nil]
        rw [hI.1, hB.1, hI.2, hB.2]; rfl
  · intro command err hex hinit hfail
    subst hex
    have hi : execInit d a h commandsMap false containers =
        ([syncEvent d containers command false], some err) := by
      rw [execInit_run d a h commandsMap containers command hinit, execCommand_eq, hfail]; rfl
    rw [execDevfile_init_fails d a h commandsMap false sh containers hne err (by rw [hi]), hi]
  · intro command err hi hbuild hfail
    have hbe : execBuild d a (h ++ (execInit d a h commandsMap componentExists containers).1)
        commandsMap containers = ([syncEvent d containers command false], some err) := by
      have hbe0 : execBuild d a (h ++ (execInit d a h commandsMap componentExists containers).1)
          commandsMap containers = execCommand d a
            (h ++ (execInit d a h commandsMap componentExists containers).1) containers
            command := by
        unfold execBuild; rw [hbuild]
      rw [hbe0, execCommand_eq, hfail]; rfl
    rw [execDevfile_build_fails d a h commandsMap componentExists sh containers hne err hi
      (by rw [hbe]), hbe]
  · intro command hex hi hb hrun hsup
    subst hex
    rw [execDevfile_reaches_run d a h commandsMap false sh containers hne hi hb]
    obtain ⟨h1, h2⟩ := execRun_supervisor_fails d a _ commandsMap containers command hrun hsup
    refine ⟨h1, ?_⟩
    simp only [runActions_append]
    rw [hI.2, hB.2, h2]; rfl

/-- C17. When the map has a run entry and the earlier stages passed (init, build, and
for a new component the start of the supervisor), `execDevfile` executes exactly one run
action, as its last call: the action without restart when `componentExists` is true and
`IsRestartRequired` is false for the command, the full run action in every other case. -/
theorem execDevfile_run_path (d : Deps) (a : Adapter) (h : Trace)
    (commandsMap : PushCommandsMap) (componentExists sh : Bool) (containers : List Container)
    (command : DevfileCommand)
    (hrun : commandsMap.lookup RunCommandGroupType = some command)
    (hinit : (execInit d a h commandsMap componentExists containers).2 = none)
    (hbuild : (execBuild d a (h ++ (execInit d a h commandsMap componentExists containers).1)
      commandsMap containers).2 = none)
    (hsup : componentExists = false →
      (initRunContainerSupervisord a
        (h ++ (execInit d a h commandsMap componentExists containers).1 ++
          (execBuild d a (h ++ (execInit d a h commandsMap componentExists containers).1)
            commandsMap containers).1) command.Exec.Component containers).2 = none) :
    ∃ ok,
      runActions (execDevfile d a h commandsMap componentExists sh containers).1 =
        [if componentExists && !d.IsRestartRequired command then
            ⟨.ExecuteDevfileRunActionWithoutRestart command.Exec
              (d.GetContainerIDForAlias containers command.Exec.Component), ok⟩
          else
            ⟨.ExecuteDevfileRunAction command.Exec
              (d.GetContainerIDForAlias containers command.Exec.Component), ok⟩] ∧
      (execDevfile d a h commandsMap componentExists sh containers).1.getLast? =
        some (if componentExists && !d.IsRestartRequired command then
            ⟨.ExecuteDevfileRunActionWithoutRestart command.Exec
              (d.GetContainerIDForAlias containers command.Exec.Component), ok⟩
          else
            ⟨.ExecuteDevfileRunAction command.Exec
              (d.GetContainerIDForAlias containers command.Exec.Component), ok⟩) ∧
      (ok = true ↔ (execDevfile d a h commandsMap componentExists sh containers).2 = none) := by
  have hne : commandsMap ≠ [] := by
    intro hnil; rw [hnil] at hrun; simp at hrun
  have hI := execInit_syncs d a h commandsMap componentExists containers
  have hB := execBuild_syncs_self d a
    (h ++ (execInit d a h commandsMap componentExists containers).1) commandsMap containers
  rw [execDevfile_reaches_run d a h commandsMap componentExists sh containers hne hinit hbuild]
  obtain ⟨t, ok, ht, hra, _, hok⟩ := execRun_path d a _ commandsMap componentExists containers
    command hrun hsup
  refine ⟨ok, ?_, ?_, hok⟩
  · simp only [runActions_append]
    rw [hI.2, hB.2, ht, runActions_append, hra]
    split <;> simp [runActions, Call.isRunAction]
  · simp only
    rw [ht, ← List.append_assoc, List.getLast?_append]
    simp

/-! ## Source and supervisord volumes, storage -/

/-- C18. `createProjectVolumeIfReqd` decides by the number of volumes the lookup with the
source labels (`component=<name>`, `type` projects) returns: exactly one, it returns the
name of that volume and creates nothing; none, it generates a name, creates one volume of
that name with the source labels and returns the name; more than one, it returns an
error and creates nothing. -/
theorem createProjectVolumeIfReqd_cases (d : Deps) (a : Adapter) (h : Trace) :
    GetProjectVolumeLabels a.ComponentName =
        [("component", a.ComponentName), ("type", ProjectsVolume)] ∧
    (∀ vol, a.Client.GetVolumesByLabel h (GetProjectVolumeLabels a.ComponentName) = .ok [vol] →
      createProjectVolumeIfReqd d a h = ([projectLookupEvent a], .ok vol.Name)) ∧
    (∀ name, a.Client.GetVolumesByLabel h (GetProjectVolumeLabels a.ComponentName) = .ok [] →
      d.GenerateVolName (h ++ [projectLookupEvent a]) ProjectSourceVolumeName a.ComponentName =
        .ok name →
      a.Client.CreateVolume (h ++ [projectLookupEvent a]) name
        (GetProjectVolumeLabels a.ComponentName) = none →
      createProjectVolumeIfReqd d a h =
        ([projectLookupEvent a,
          ⟨.CreateVolume name (GetProjectVolumeLabels a.ComponentName), true⟩], .ok name)) ∧
    (∀ v1 v2 rest,
      a.Client.GetVolumesByLabel h (GetProjectVolumeLabels a.ComponentName) =
        .ok (v1 :: v2 :: rest) →
      (createProjectVolumeIfReqd d a h).1 = [projectLookupEvent a] ∧
        ∃ err, (createProjectVolumeIfReqd d a h).2 = .error err) := by
  refine ⟨rfl, ?_, ?_, ?_⟩
  · intro vol hl
    unfold createProjectVolumeIfReqd
    simp only [hl, projectLookupEvent]
  · intro name hl hg hc
    unfold createProjectVolumeIfReqd
    simp only [projectLookupEvent] at hg hc
    simp only [hl, hg, hc, projectLookupEvent]
    rfl
  · intro v1 v2 rest hl
    unfold createProjectVolumeIfReqd
    simp only [hl]
    exact ⟨rfl, _, rfl⟩

/-- C20 fails on the code: with two supervisord volumes found for the component,
`createAndInitSupervisordVolumeIfReqd` returns the name of the first one and no error,
where `createProjectVolumeIfReqd` returns an error on two source volumes. -/
theorem createAndInitSupervisordVolumeIfReqd_two_volumes :
    duplicateVolumesAdapter.Client.GetVolumesByLabel []
        (exampleDeps.GetSupervisordVolumeLabels "nodejs") =
      .ok [⟨"volume-1", exampleDeps.GetSupervisordVolumeLabels "nodejs"⟩,
        ⟨"volume-2", exampleDeps.GetSupervisordVolumeLabels "nodejs"⟩] ∧
    createAndInitSupervisordVolumeIfReqd exampleDeps duplicateVolumesAdapter [] true =
      ([⟨.GetVolumesByLabel (exampleDeps.GetSupervisordVolumeLabels "nodejs"), true⟩],
        .ok "volume-1") ∧
    (createAndInitSupervisordVolumeIfReqd exampleDeps duplicateVolumesAdapter [] false).2 =
      .ok "volume-1" ∧
    createProjectVolumeIfReqd exampleDeps duplicateVolumesAdapter [] =
      ([projectLookupEvent duplicateVolumesAdapter],
        .error "multiple source volumes found for component nodejs") := by
  exact ⟨rfl, rfl, rfl, rfl⟩

/-- C12 fails on the code for `updateComponent`: the creation of the storage volumes
fails, and `updateComponent` still pulls the image of the unit `tools` and starts its
container before it returns the error; `createComponent` returns at once. -/
theorem updateComponent_storage_failure :
    storageFailureAdapter.Client.StorageCreate [] storageFailureAdapter.uniqueStorage =
      some "no space left on device" ∧
    (updateComponent storageFailureAdapter []).2.2 = some "no space left on device" ∧
    (updateComponent storageFailureAdapter []).1.head? = some ⟨.StorageCreate [], false⟩ ∧
    (⟨.PullImage "tools-image", true⟩ : Event) ∈ (updateComponent storageFailureAdapter []).1 ∧
    (∃ e ∈ (updateComponent storageFailureAdapter []).1, e.call.isStart = true ∧ e.ok = true) ∧
    (createComponent storageFailureAdapter []).1 = [⟨.StorageCreate [], false⟩] ∧
    (createComponent storageFailureAdapter []).2 ≠ none := by
  refine ⟨rfl, by decide, by decide, by decide, by decide, by decide, by decide⟩

/-- The shapes of the result of `createProjectVolumeIfReqd` when no source volume is
found. -/
theorem createProjectVolumeIfReqd_zero (d : Deps) (a : Adapter) (h : Trace)
    (hl : a.Client.GetVolumesByLabel h (GetProjectVolumeLabels a.ComponentName) = .ok []) :
    (∃ err, createProjectVolumeIfReqd d a h = ([projectLookupEvent a], .error err)) ∨
    (∃ name err, createProjectVolumeIfReqd d a h =
      ([projectLookupEvent a,
        ⟨.CreateVolume name (GetProjectVolumeLabels a.ComponentName), false⟩], .error err)) ∨
    (∃ name, createProjectVolumeIfReqd d a h =
      ([projectLookupEvent a,
        ⟨.CreateVolume name (GetProjectVolumeLabels a.ComponentName), true⟩], .ok name)) := by
  unfold createProjectVolumeIfReqd
  simp only [hl, projectLookupEvent]
  split
  · exact Or.inl ⟨_, rfl⟩
  · split
    · exact Or.inr (Or.inl ⟨_, _, rfl⟩)
    · exact Or.inr (Or.inr ⟨_, rfl⟩)

/-- C19. On a volume store whose lookup with the source labels returns the volumes held
at the start together with those created since, and which holds at most one source
volume of the component at the start, two calls of `createProjectVolumeIfReqd` in a row
create at most one volume in total, and when the first call returns a name the second
call returns the same name after the lookup alone. -/
theorem createProjectVolumeIfReqd_idempotent (d : Deps) (a : Adapter) (h : Trace)
    (initial : List Volume)
    (hstore : ∀ t, a.Client.GetVolumesByLabel (h ++ t) (GetProjectVolumeLabels a.ComponentName) =
      .ok (initial ++ createdVolumes (GetProjectVolumeLabels a.ComponentName) t))
    (hinitial : initial.length ≤ 1) :
    (createdVolumes (GetProjectVolumeLabels a.ComponentName)
      ((createProjectVolumeIfReqd d a h).1 ++
        (createProjectVolumeIfReqd d a (h ++ (createProjectVolumeIfReqd d a h).1)).1)).length
      ≤ 1 ∧
    (∀ name, (createProjectVolumeIfReqd d a h).2 = .ok name →
      createProjectVolumeIfReqd d a (h ++ (createProjectVolumeIfReqd d a h).1) =
        ([projectLookupEvent a], .ok name)) := by
  have h0 := hstore []
  simp only [List.append_nil, createdVolumes] at h0
  match initial, hinitial with
  | [], _ =>
    simp only [List.nil_append] at h0 hstore
    have hsecond : ∀ t, createdVolumes (GetProjectVolumeLabels a.ComponentName) t = [] →
        (createdVolumes (GetProjectVolumeLabels a.ComponentName)
          (createProjectVolumeIfReqd d a (h ++ t)).1).length ≤ 1 := by
      intro t ht
      have hl := hstore t
      rw [ht] at hl
      rcases createProjectVolumeIfReqd_zero d a (h ++ t) hl with
        ⟨err, hr⟩ | ⟨name, err, hr⟩ | ⟨name, hr⟩ <;> rw [hr] <;>
        simp [createdVolumes, projectLookupEvent]
    rcases createProjectVolumeIfReqd_zero d a h h0 with
      ⟨err, hr⟩ | ⟨name, err, hr⟩ | ⟨name, hr⟩
    · rw [hr]
      refine ⟨?_, fun name hn => by simp at hn⟩
      have := hsecond [projectLookupEvent a] (by simp [createdVolumes, projectLookupEvent])
      simpa [createdVolumes, projectLookupEvent] using this
    · rw [hr]
      refine ⟨?_, fun name hn => by simp at hn⟩
      have := hsecond [projectLookupEvent a,
        ⟨.CreateVolume name (GetProjectVolumeLabels a.ComponentName), false⟩]
        (by simp [createdVolumes, projectLookupEvent])
      simpa [createdVolumes, projectLookupEvent] using this
    · rw [hr]
      have hs := hstore [projectLookupEvent a,
        ⟨.CreateVolume name (GetProjectVolumeLabels a.ComponentName), true⟩]
      simp only [projectLookupEvent, createdVolumes, if_true] at hs
      have hr2 : createProjectVolumeIfReqd d a
          (h ++ [projectLookupEvent a,
            ⟨.CreateVolume name (GetProjectVolumeLabels a.ComponentName), true⟩]) =
          ([projectLookupEvent a], .ok name) := by
        unfold createProjectVolumeIfReqd
        simp only [hs, projectLookupEvent]
      refine ⟨?_, fun n hn => ?_⟩
      · simp only [hr2]
        simp [createdVolumes, projectLookupEvent]
      · simp only [Except.ok.injEq] at hn
        subst hn
        exact hr2
  | [vol], _ =>
    have hr1 : createProjectVolumeIfReqd d a h = ([projectLookupEvent a], .ok vol.Name) := by
      unfold createProjectVolumeIfReqd
      simp only [h0, projectLookupEvent]
    have hs := hstore [projectLookupEvent a]
    simp only [projectLookupEvent, createdVolumes, List.append_nil] at hs
    have hr2 : createProjectVolumeIfReqd d a (h ++ [projectLookupEvent a]) =
        ([projectLookupEvent a], .ok vol.Name) := by
      unfold createProjectVolumeIfReqd
      simp only [projectLookupEvent, hs]
    rw [hr1]
    simp only [hr2]
    refine ⟨by simp [createdVolumes, projectLookupEvent], fun n hn => ?_⟩
    simp only [Except.ok.injEq] at hn
    subst hn
    rfl

/-! ## The flag of `updateComponent` -/

theorem ObservedOne_exclusive (a : Adapter) (obs : String → Except Error (List Container))
    (insp : String → Except Error (ContainerConfig × HostConfig × List MountPoint))
    (u : DevfileComponent) (h1 : ObservedOne a obs insp u true)
    (h2 : ObservedOne a obs insp u false) : False := by
  obtain ⟨c, cfg, hc, ms, pm, npm, ho, hi, hp, hn⟩ := h1
  obtain ⟨c2, cfg2, hc2, ms2, pm2, npm2, ho2, hi2, hp2, hn2⟩ := h2
  rw [ho] at ho2
  simp only [Except.ok.injEq, List.cons.injEq, and_true] at ho2
  subst ho2
  rw [hi] at hi2
  simp only [Except.ok.injEq, Prod.mk.injEq] at hi2
  obtain ⟨rfl, rfl, rfl⟩ := hi2
  rw [hp] at hp2
  simp only [Except.ok.injEq, Prod.mk.injEq] at hp2
  obtain ⟨rfl, rfl⟩ := hp2
  rw [hn] at hn2
  exact absurd hn2 (by simp)

/-- A pass of the loop of `updateComponent` that lets the loop go on: the container of
the unit was created or replaced and the flag is false, or it was left unchanged and the
flag is as before. -/
theorem updateUnit_next (a : Adapter) (obs : String → Except Error (List Container))
    (insp : String → Except Error (ContainerConfig × HostConfig × List MountPoint))
    (hobs : ∀ t al, a.Client.GetContainersByComponentAndAlias t a.ComponentName al = obs al)
    (hinsp : ∀ t id, a.Client.GetContainerConfigHostConfigAndMounts t id = insp id)
    (h : Trace) (flag : Bool) (u : DevfileComponent) (f : Bool)
    (hnext : (updateUnit a h flag u).2 = .next f) :
    (f = false ∧ (IsCreated obs u ∨ ObservedOne a obs insp u true)) ∨
      (f = flag ∧ ObservedOne a obs insp u false) := by
  unfold updateUnit at hnext
  rw [hobs] at hnext
  cases ho : obs u.Container.Name with
  | error err => rw [ho] at hnext; simp at hnext
  | ok containers =>
    rw [ho] at hnext
    match containers, ho with
    | [], ho =>
      simp only at hnext
      split at hnext
      · simp at hnext
      · simp only [Step.next.injEq] at hnext
        exact Or.inl ⟨hnext.symm, Or.inl ho⟩
    | [c], ho =>
      simp only [hinsp] at hnext
      cases hi : insp c.ID with
      | error err => rw [hi] at hnext; simp at hnext
      | ok r =>
        obtain ⟨cfg, hc, ms⟩ := r
        rw [hi] at hnext
        simp only at hnext
        cases hp : getPortMap a a.Context u.Container.Endpoints false with
        | error err => rw [hp] at hnext; simp at hnext
        | ok r2 =>
          obtain ⟨pm, npm⟩ := r2
          rw [hp] at hnext
          simp only at hnext
          cases hn : a.DoesContainerNeedUpdating u (labelPorts cfg npm) hc
              (dockerVolumeMounts a u) ms pm with
          | true =>
            rw [hn] at hnext
            simp only [if_true] at hnext
            split at hnext
            · simp at hnext
            · split at hnext
              · simp at hnext
              · simp only [Step.next.injEq] at hnext
                exact Or.inl ⟨hnext.symm, Or.inr ⟨c, cfg, hc, ms, pm, npm, ho, hi, hp, hn⟩⟩
          | false =>
            rw [hn] at hnext
            simp only [Bool.false_eq_true, if_false, Step.next.injEq] at hnext
            exact Or.inr ⟨hnext.symm, c, cfg, hc, ms, pm, npm, ho, hi, hp, hn⟩
    | _ :: _ :: _, _ => simp at hnext

/-- The loop of `updateComponent` when it returns no error: every unit was created,
replaced or left unchanged, and the flag is false when it was, or one unit was created
or replaced. -/
theorem updateLoop_flag (a : Adapter) (obs : String → Except Error (List Container))
    (insp : String → Except Error (ContainerConfig × HostConfig × List MountPoint))
    (hobs : ∀ t al, a.Client.GetContainersByComponentAndAlias t a.ComponentName al = obs al)
    (hinsp : ∀ t id, a.Client.GetContainerConfigHostConfigAndMounts t id = insp id)
    (se : Option Error) :
    ∀ (units : List DevfileComponent) (h : Trace) (flag : Bool),
      (updateLoop a se h flag units).2.2 = none →
        (∀ u ∈ units, IsCreated obs u ∨ ObservedOne a obs insp u true ∨
          ObservedOne a obs insp u false) ∧
        ((updateLoop a se h flag units).2.1 = false ↔
          flag = false ∨ ∃ u ∈ units, IsCreated obs u ∨ ObservedOne a obs insp u true) := by
  intro units
  induction units with
  | nil =>
    intro h flag _
    simp [updateLoop]
  | cons u units ih =>
    intro h flag hok
    unfold updateLoop at hok ⊢
    cases hr : updateUnit a h flag u with
    | mk t s =>
      rw [hr] at hok
      cases s with
      | ret f err => simp at hok
      | next f =>
        simp only at hok ⊢
        have hu := updateUnit_next a obs insp hobs hinsp h flag u f (by rw [hr])
        obtain ⟨hall, hiff⟩ := ih (h ++ t) f hok
        constructor
        · intro v hv
          rcases List.mem_cons.mp hv with rfl | hv
          · rcases hu with ⟨_, h1 | h1⟩ | ⟨_, h1⟩
            · exact Or.inl h1
            · exact Or.inr (Or.inl h1)
            · exact Or.inr (Or.inr h1)
          · exact hall v hv
        · rw [hiff]
          constructor
          · rintro (hf | ⟨v, hv, hc⟩)
            · rcases hu with ⟨_, h1⟩ | ⟨h1, _⟩
              · exact Or.inr ⟨u, List.mem_cons_self _ _, h1⟩
              · left; rw [← h1]; exact hf
            · exact Or.inr ⟨v, List.mem_cons_of_mem _ hv, hc⟩
          · rintro (hf | ⟨v, hv, hc⟩)
            · rcases hu with ⟨h1, _⟩ | ⟨h1, _⟩
              · exact Or.inl h1
              · left; rw [h1]; exact hf
            · rcases List.mem_cons.mp hv with rfl | hv
              · rcases hu with ⟨h1, _⟩ | ⟨_, h1⟩
                · exact Or.inl h1
                · exfalso
                  rcases hc with hc | hc
                  · obtain ⟨c, _, _, _, _, _, ho, _⟩ := h1
                    unfold IsCreated at hc
                    rw [ho] at hc
                    simp at hc
                  · exact ObservedOne_exclusive a obs insp v hc h1
              · exact Or.inr ⟨v, hv, hc⟩

/-- C11. On a daemon whose answers do not change during the call, when `updateComponent`
returns no error the flag `componentExists` it returns is false if and only if the
container of at least one declared unit was created (no container observed) or replaced
(one container observed, which needed updating), and it is true if and only if every
declared unit had exactly one observed container that needed no update. -/
theorem updateComponent_flag (a : Adapter) (h : Trace)
    (obs : String → Except Error (List Container))
    (insp : String → Except Error (ContainerConfig × HostConfig × List MountPoint))
    (hobs : ∀ t al, a.Client.GetContainersByComponentAndAlias t a.ComponentName al = obs al)
    (hinsp : ∀ t id, a.Client.GetContainerConfigHostConfigAndMounts t id = insp id)
    (hok : (updateComponent a h).2.2 = none) :
    ((updateComponent a h).2.1 = false ↔
      ∃ u ∈ a.supportedComponents, IsCreated obs u ∨ ObservedOne a obs insp u true) ∧
    ((updateComponent a h).2.1 = true ↔
      ∀ u ∈ a.supportedComponents, ObservedOne a obs insp u false) := by
  have heq : updateComponent a h =
      (⟨.StorageCreate a.uniqueStorage, (a.Client.StorageCreate h a.uniqueStorage).isNone⟩ ::
        (updateLoop a (a.Client.StorageCreate h a.uniqueStorage)
          (h ++ [⟨.StorageCreate a.uniqueStorage,
            (a.Client.StorageCreate h a.uniqueStorage).isNone⟩]) true a.supportedComponents).1,
       (updateLoop a (a.Client.StorageCreate h a.uniqueStorage)
          (h ++ [⟨.StorageCreate a.uniqueStorage,
            (a.Client.StorageCreate h a.uniqueStorage).isNone⟩]) true a.supportedComponents).2) := by
    cases hlen : (a.supportedComponents.length == 0) with
    | true =>
      unfold updateComponent at hok
      simp [hlen] at hok
    | false =>
      unfold updateComponent
      simp only [hlen, Bool.false_eq_true, if_false]
  rw [heq] at hok ⊢
  simp only at hok ⊢
  obtain ⟨hall, hiff⟩ := updateLoop_flag a obs insp hobs hinsp _ _ _ _ hok
  have hfalse : (updateLoop a (a.Client.StorageCreate h a.uniqueStorage)
      (h ++ [⟨.StorageCreate a.uniqueStorage,
        (a.Client.StorageCreate h a.uniqueStorage).isNone⟩]) true a.supportedComponents).2.1 =
      false ↔ ∃ u ∈ a.supportedComponents, IsCreated obs u ∨ ObservedOne a obs insp u true := by
    rw [hiff]; simp
  refine ⟨hfalse, ?_⟩
  constructor
  · intro ht u hu
    rcases hall u hu with h1 | h1 | h1
    · have := hfalse.mpr ⟨u, hu, Or.inl h1⟩
      rw [ht] at this; exact absurd this (by simp)
    · have := hfalse.mpr ⟨u, hu, Or.inr h1⟩
      rw [ht] at this; exact absurd this (by simp)
    · exact h1
  · intro hun
    cases hf : (updateLoop a (a.Client.StorageCreate h a.uniqueStorage)
      (h ++ [⟨.StorageCreate a.uniqueStorage,
        (a.Client.StorageCreate h a.uniqueStorage).isNone⟩]) true a.supportedComponents).2.1 with
    | true => rfl
    | false =>
      exfalso
      obtain ⟨u, hu, hc⟩ := hfalse.mp hf
      have h1 := hun u hu
      rcases hc with hc | hc
      · obtain ⟨c, _, _, _, _, _, ho, _⟩ := h1
        unfold IsCreated at hc
        rw [ho] at hc
        simp at hc
      · exact ObservedOne_exclusive a obs insp u hc h1

/-! ## `Push` -/

/-- A call of `startComponent` that returns no error has started a container. -/
theorem startComponent_ok (a : Adapter) (h : Trace) (mounts : List Mount)
    (comp : DevfileComponent) (hok : (startComponent a h mounts comp).2 = none) :
    ∃ cfg hc, (startComponent a h mounts comp).1 = [⟨.StartContainer cfg hc, true⟩] := by
  unfold startComponent at hok ⊢
  split
  · rename_i heq; rw [heq] at hok; simp at hok
  · rename_i heq
    rw [heq] at hok
    simp only at hok ⊢
    split
    · rename_i heq2; rw [heq2] at hok; simp at hok
    · rename_i heq2
      rw [heq2] at hok
      simp only at hok ⊢
      split
      · rename_i heq3; rw [heq3] at hok; simp at hok
      · exact ⟨_, _, rfl⟩

theorem pullAndStartContainer_ok (a : Adapter) (h : Trace) (mounts : List Mount)
    (comp : DevfileComponent) (hok : (pullAndStartContainer a h mounts comp).2 = none) :
    ∃ cfg hc, (pullAndStartContainer a h mounts comp).1 =
      [⟨.PullImage comp.Container.Image, true⟩, ⟨.StartContainer cfg hc, true⟩] := by
  unfold pullAndStartContainer at hok ⊢
  split
  · rename_i heq; rw [heq] at hok; simp at hok
  · rename_i heq
    rw [heq] at hok
    simp only at hok ⊢
    cases hs : startComponent a (h ++ [⟨.PullImage comp.Container.Image, true⟩]) mounts comp with
    | mk t e =>
      rw [hs] at hok
      cases e with
      | some err => simp at hok
      | none =>
        obtain ⟨cfg, hc, ht⟩ := startComponent_ok a _ mounts comp (by rw [hs])
        rw [hs] at ht
        simp only at ht
        subst ht
        exact ⟨cfg, hc, rfl⟩

/-- No event of `startComponent` and `pullAndStartContainer` is the synchronous
execution of a command. -/
theorem pullAndStartContainer_syncs (a : Adapter) (h : Trace) (mounts : List Mount)
    (comp : DevfileComponent) : syncs (pullAndStartContainer a h mounts comp).1 = [] := by
  rcases pullAndStartContainer_trace a h mounts comp with ⟨h1, _⟩ | h1 | ⟨_, _, _, h1, _⟩ <;>
    rw [h1] <;> simp [syncs, Call.isSync]

theorem startComponent_syncs (a : Adapter) (h : Trace) (mounts : List Mount)
    (comp : DevfileComponent) : syncs (startComponent a h mounts comp).1 = [] := by
  rcases startComponent_trace a h mounts comp with h1 | ⟨_, _, _, h1, _⟩ <;>
    rw [h1] <;> simp [syncs, Call.isSync]

/-- For a unit with one observed container, the loop goes on with a changed flag only
after a container was started. -/
theorem updateUnit_one_next (a : Adapter) (h : Trace) (flag : Bool) (u : DevfileComponent)
    (c : Container)
    (ho : a.Client.GetContainersByComponentAndAlias h a.ComponentName u.Container.Name =
      .ok [c]) :
    ∀ r, r = updateUnit a h flag u → ∀ f, r.2 = .next f →
      f = flag ∨ ∃ e ∈ r.1, e.call.isStart = true ∧ e.ok = true := by
  intro r hr f hf
  unfold updateUnit at hr
  rw [ho] at hr
  simp only at hr
  cases hi : a.Client.GetContainerConfigHostConfigAndMounts
      (h ++ [⟨.GetContainersByComponentAndAlias a.ComponentName u.Container.Name, true⟩])
      c.ID with
  | error err => rw [hi] at hr; subst hr; simp at hf
  | ok res =>
    obtain ⟨cfg, hc, ms⟩ := res
    rw [hi] at hr
    simp only at hr
    cases hp : getPortMap a a.Context u.Container.Endpoints false with
    | error err => rw [hp] at hr; subst hr; simp at hf
    | ok r2 =>
      obtain ⟨pm, npm⟩ := r2
      rw [hp] at hr
      simp only at hr
      cases hn : a.DoesContainerNeedUpdating u (labelPorts cfg npm) hc
          (dockerVolumeMounts a u) ms pm with
      | false =>
        rw [hn] at hr
        simp only [Bool.false_eq_true, if_false] at hr
        subst hr
        exact Or.inl (Step.next.inj hf).symm
      | true =>
        rw [hn] at hr
        simp only [if_true] at hr
        cases hrem : a.Client.RemoveContainer
            (h ++ ([⟨.GetContainersByComponentAndAlias a.ComponentName u.Container.Name, true⟩] ++
              [⟨.GetContainerConfigHostConfigAndMounts c.ID, true⟩])) c.ID with
        | some err => rw [hrem] at hr; subst hr; simp at hf
        | none =>
          rw [hrem] at hr
          simp only at hr
          cases hs : startComponent a
              (h ++ ([⟨.GetContainersByComponentAndAlias a.ComponentName u.Container.Name,
                  true⟩] ++ [⟨.GetContainerConfigHostConfigAndMounts c.ID, true⟩] ++
                [⟨.RemoveContainer c.ID, true⟩])) (dockerVolumeMounts a u) u with
          | mk t e =>
            rw [hs] at hr
            cases e with
            | some err => subst hr; simp at hf
            | none =>
              obtain ⟨config, hostConfig, ht⟩ := startComponent_ok a _ _ u (by rw [hs])
              rw [hs] at ht
              simp only at ht hr
              subst ht hr
              exact Or.inr ⟨⟨.StartContainer config hostConfig, true⟩, by simp, rfl, rfl⟩

/-- A pass of the loop of `updateComponent` executes no command, and it changes the flag
only after it started a container. -/
theorem updateUnit_syncs_start (a : Adapter) (h : Trace) (flag : Bool) (u : DevfileComponent) :
    syncs (updateUnit a h flag u).1 = [] ∧
      ∀ f, (updateUnit a h flag u).2 = .next f →
        f = flag ∨ ∃ e ∈ (updateUnit a h flag u).1, e.call.isStart = true ∧ e.ok = true := by
  cases ho : a.Client.GetContainersByComponentAndAlias h a.ComponentName u.Container.Name with
  | error err =>
    unfold updateUnit
    rw [ho]
    exact ⟨by simp [syncs, Call.isSync], fun f hf => by simp at hf⟩
  | ok containers =>
    match containers, ho with
    | [], ho =>
      constructor
      · rw [updateUnit_zero a h flag u ho]
        have := pullAndStartContainer_syncs a (h ++ [lookupEvent a u]) (dockerVolumeMounts a u) u
        simp only [syncs, List.filter_cons, lookupEvent, Call.isSync] at this ⊢
        simpa using this
      · intro f hf
        right
        rw [updateUnit_zero a h flag u ho]
        cases hp : (pullAndStartContainer a (h ++ [lookupEvent a u])
            (dockerVolumeMounts a u) u).2 with
        | some err =>
          unfold updateUnit at hf
          rw [ho] at hf
          simp only at hf
          generalize hr : pullAndStartContainer a
            (h ++ [⟨.GetContainersByComponentAndAlias a.ComponentName u.Container.Name, true⟩])
            (dockerVolumeMounts a u) u = r at hf
          simp only [lookupEvent] at hp
          rw [hr] at hp
          obtain ⟨t, e⟩ := r
          simp only at hp
          subst hp
          simp at hf
        | none =>
          obtain ⟨cfg, hc, ht⟩ := pullAndStartContainer_ok a _ _ u hp
          rw [ht]
          exact ⟨⟨.StartContainer cfg hc, true⟩, by simp, rfl, rfl⟩
    | [c], ho =>
      refine ⟨?_, fun f hf => updateUnit_one_next a h flag u c ho _ rfl f hf⟩
      rcases updateUnit_one a h flag u c ho with
        ⟨ok, ht, _⟩ | ⟨_, _, _, _, _, _, _, _, ht | ht | ⟨config, hostConfig, ok, ht⟩⟩ <;>
        rw [ht] <;> simp [syncs, Call.isSync, lookupEvent]
    | _ :: _ :: _, ho =>
      obtain ⟨ht, err, hr⟩ := updateUnit_many a h flag u _ _ _ ho
      refine ⟨by rw [ht]; simp [syncs, Call.isSync, lookupEvent], fun f hf => ?_⟩
      rw [hr] at hf; simp at hf

/-- The loop of `updateComponent` executes no command, and when it returns no error with
the flag false it has started a container, or was entered with the flag false. -/
theorem updateLoop_syncs_start (a : Adapter) (se : Option Error) :
    ∀ (units : List DevfileComponent) (h : Trace) (flag : Bool),
      syncs (updateLoop a se h flag units).1 = [] ∧
        ((updateLoop a se h flag units).2.2 = none →
          (updateLoop a se h flag units).2.1 = false →
            flag = false ∨
              ∃ e ∈ (updateLoop a se h flag units).1, e.call.isStart = true ∧ e.ok = true) := by
  intro units
  induction units with
  | nil =>
    intro h flag
    simp only [updateLoop]
    exact ⟨rfl, fun _ hf => Or.inl hf⟩
  | cons u units ih =>
    intro h flag
    obtain ⟨hs, hn⟩ := updateUnit_syncs_start a h flag u
    unfold updateLoop
    cases hr : updateUnit a h flag u with
    | mk t s =>
      rw [hr] at hs hn
      simp only at hs hn
      cases s with
      | ret f err => exact ⟨hs, fun hok => by simp at hok⟩
      | next f =>
        simp only
        obtain ⟨hs2, hn2⟩ := ih (h ++ t) f
        refine ⟨by rw [syncs_append, hs, hs2]; rfl, fun hok hf => ?_⟩
        rcases hn2 hok hf with h1 | ⟨e, he, h1⟩
        · rcases hn f rfl with h2 | ⟨e, he, h2⟩
          · left; rw [← h2]; exact h1
          · exact Or.inr ⟨e, List.mem_append_left _ he, h2⟩
        · exact Or.inr ⟨e, List.mem_append_right _ he, h1⟩

/-- `updateComponent` executes no command, and when it returns no error with the flag
false it has started a container. -/
theorem updateComponent_syncs_start (a : Adapter) (h : Trace) :
    syncs (updateComponent a h).1 = [] ∧
      ((updateComponent a h).2.2 = none → (updateComponent a h).2.1 = false →
        ∃ e ∈ (updateComponent a h).1, e.call.isStart = true ∧ e.ok = true) := by
  unfold updateComponent
  split
  · exact ⟨by simp [syncs, Call.isSync], fun hok => by simp at hok⟩
  · simp only
    obtain ⟨hs, hn⟩ := updateLoop_syncs_start a (a.Client.StorageCreate h a.uniqueStorage)
      a.supportedComponents
      (h ++ [⟨.StorageCreate a.uniqueStorage, (a.Client.StorageCreate h a.uniqueStorage).isNone⟩])
      true
    refine ⟨?_, fun hok hf => ?_⟩
    · simp only [syncs, List.filter_cons, Call.isSync] at hs ⊢
      simpa using hs
    · rcases hn hok hf with h1 | ⟨e, he, h1⟩
      · simp at h1
      · exact ⟨e, List.mem_cons_of_mem _ he, h1⟩

/-- When the init stage is skipped, the only command `execDevfile` executes
synchronously, if any, is the build entry of the map. -/
theorem execDevfile_syncs_skipped (d : Deps) (a : Adapter) (h : Trace)
    (commandsMap : PushCommandsMap) (componentExists sh : Bool) (containers : List Container)
    (hskip : componentExists = true ∨ commandsMap.lookup InitCommandGroupType = none) :
    syncs (execDevfile d a h commandsMap componentExists sh containers).1 = [] ∨
      ∃ command ok, commandsMap.lookup BuildCommandGroupType = some command ∧
        syncs (execDevfile d a h commandsMap componentExists sh containers).1 =
          [syncEvent d containers command ok] := by
  unfold execDevfile
  split
  · exact Or.inl rfl
  · rw [execInit_skipped d a h commandsMap componentExists containers hskip]
    simp only [List.append_nil, List.nil_append]
    rcases execBuild_syncs d a h commandsMap containers with ⟨_, hb⟩ | ⟨command, hl, hb⟩
    · rw [hb]
      simp only [List.append_nil, List.nil_append]
      exact Or.inl (execRun_trace d a h commandsMap componentExists containers)
    · right
      rw [hb, execCommand_eq]
      refine ⟨command, (a.Client.ExecuteDevfileCommandSynchronously h command.Exec
          (d.GetContainerIDForAlias containers command.Exec.Component)).isNone, hl, ?_⟩
      cases a.Client.ExecuteDevfileCommandSynchronously h command.Exec
          (d.GetContainerIDForAlias containers command.Exec.Component) with
      | some err => simp [syncs, syncEvent, Call.isSync]
      | none =>
        simp only [syncs_append, execRun_trace, List.append_nil]
        simp [syncs, syncEvent, Call.isSync]

/-- `createProjectVolumeIfReqd` executes no command. -/
theorem createProjectVolumeIfReqd_syncs (d : Deps) (a : Adapter) (h : Trace) :
    syncs (createProjectVolumeIfReqd d a h).1 = [] := by
  unfold createProjectVolumeIfReqd
  simp only
  split
  · simp [syncs, Call.isSync]
  · split
    · split
      · simp [syncs, Call.isSync]
      · split <;> simp [syncs, Call.isSync]
    · simp [syncs, Call.isSync]
    · simp [syncs, Call.isSync]

/-- For a component that exists, `createAndInitSupervisordVolumeIfReqd` executes no
command and starts no container. -/
theorem createAndInitSupervisordVolumeIfReqd_existing (d : Deps) (a : Adapter) (h : Trace) :
    ∀ e ∈ (createAndInitSupervisordVolumeIfReqd d a h true).1,
      e.call.isSync = false ∧ e.call.isStart = false := by
  unfold createAndInitSupervisordVolumeIfReqd
  simp only
  split
  · simp [Call.isSync, Call.isStart]
  · split
    · rename_i heq
      split at heq
      · split at heq
        · simp only [Prod.mk.injEq] at heq
          rw [← heq.1]; simp [Call.isSync, Call.isStart]
        · split at heq
          · simp only [Prod.mk.injEq] at heq
            rw [← heq.1]; simp [Call.isSync, Call.isStart]
          · simp at heq
      · simp at heq
    · rename_i heq
      simp only [Bool.not_true, Bool.false_eq_true, if_false]
      split at heq
      · split at heq
        · simp at heq
        · split at heq
          · simp at heq
          · simp only [Prod.mk.injEq] at heq
            rw [← heq.1]; simp [Call.isSync, Call.isStart]
      · simp only [Prod.mk.injEq] at heq
        rw [← heq.1]; simp [Call.isSync, Call.isStart]

theorem syncs_nil_of_forall (t : Trace) (hall : ∀ e ∈ t, e.call.isSync = false ∧ e.call.isStart = false) :
    syncs t = [] := by
  simp only [syncs, List.filter_eq_nil_iff]
  intro e he
  rw [(hall e he).1]; simp

theorem createAndInitSupervisordVolumeIfReqd_existing_of_eq (d : Deps) (a : Adapter)
    (h t : Trace) (r : Except Error String)
    (heq : createAndInitSupervisordVolumeIfReqd d a h true = (t, r)) : syncs t = [] := by
  apply syncs_nil_of_forall
  have := createAndInitSupervisordVolumeIfReqd_existing d a h
  rw [heq] at this
  exact this

theorem createProjectVolumeIfReqd_syncs_of_eq (d : Deps) (a : Adapter) (h t : Trace)
    (r : Except Error String) (heq : createProjectVolumeIfReqd d a h = (t, r)) :
    syncs t = [] := by
  have := createProjectVolumeIfReqd_syncs d a h
  rw [heq] at this
  exact this

theorem updateComponent_syncs_start_of_eq (a : Adapter) (h t : Trace) (f : Bool)
    (e : Option Error) (heq : updateComponent a h = (t, f, e)) :
    syncs t = [] ∧
      (e = none → f = false → ∃ ev ∈ t, ev.call.isStart = true ∧ ev.ok = true) := by
  have := updateComponent_syncs_start a h
  rw [heq] at this
  exact this

theorem execDevfile_syncs_skipped_of_eq (d : Deps) (a : Adapter) (h : Trace)
    (commandsMap : PushCommandsMap) (componentExists sh : Bool) (containers : List Container)
    (t : Trace) (e : Option Error)
    (heq : execDevfile d a h commandsMap componentExists sh containers = (t, e))
    (hskip : componentExists = true ∨ commandsMap.lookup InitCommandGroupType = none) :
    syncs t = [] ∨
      ∃ command ok, commandsMap.lookup BuildCommandGroupType = some command ∧
        syncs t = [syncEvent d containers command ok] := by
  have := execDevfile_syncs_skipped d a h commandsMap componentExists sh containers hskip
  rw [heq] at this
  exact this

/-- `Push` for a component that exists, when no container is started during it: the only
command executed synchronously, if any, is the build entry of the validated commands. -/
theorem Push_existing_syncs (d : Deps) (a : Adapter) (h : Trace) (parameters : PushParameters)
    (hexists : d.ComponentExists h a.ComponentName = .ok true) :
    ∀ r, r = Push d a h parameters →
      (∀ e ∈ r.1, e.call.isStart = true → e.ok = false) →
        syncs r.1 = [] ∨
          ∃ commandsMap command containers ok,
            d.ValidateAndGetPushDevfileCommands parameters.DevfileInitCmd
              parameters.DevfileBuildCmd parameters.DevfileRunCmd = .ok commandsMap ∧
            commandsMap.lookup BuildCommandGroupType = some command ∧
            syncs r.1 = [syncEvent d containers command ok] := by
  intro r hr hno
  unfold Push at hr
  rw [hexists] at hr
  simp only at hr
  split at hr
  · subst hr; exact Or.inl rfl
  · split at hr
    · subst hr; exact Or.inl rfl
    · rename_i commandsMap hvalid
      split at hr
      · rename_i t1 err h1
        subst hr
        exact Or.inl (createAndInitSupervisordVolumeIfReqd_existing_of_eq d _ h _ _ h1)
      · rename_i t1 supName h1
        have hs1 : syncs t1 = [] :=
          createAndInitSupervisordVolumeIfReqd_existing_of_eq d _ h _ _ h1
        split at hr
        · rename_i t2 err h2
          subst hr
          left
          have := createProjectVolumeIfReqd_syncs_of_eq d _ _ _ _ h2
          simp only
          rw [syncs_append, hs1, this]; rfl
        · rename_i t2 projName h2
          have hs2 : syncs t2 = [] := createProjectVolumeIfReqd_syncs_of_eq d _ _ _ _ h2
          simp only [if_true] at hr
          split at hr
          · rename_i t3 f3 err h3
            subst hr
            left
            have := (updateComponent_syncs_start_of_eq _ _ _ _ _ h3).1
            simp only
            rw [syncs_append, syncs_append, hs1, hs2, this]; rfl
          · rename_i t3 f3 h3
            have hs3 : syncs t3 = [] := (updateComponent_syncs_start_of_eq _ _ _ _ _ h3).1
            have hst : syncs (t1 ++ t2 ++ t3) = [] := by
              rw [syncs_append, syncs_append, hs1, hs2, hs3]; rfl
            have hsub : ∀ e ∈ t1 ++ t2 ++ t3, e ∈ r.1 := by
              intro e he
              rw [hr]
              split
              · exact he
              · split
                · exact he
                · split
                  · exact he
                  · split
                    · split
                      · exact List.mem_append_left _ he
                      · exact List.mem_append_left _ he
                    · exact he
            have hf3 : f3 = true := by
              cases f3 with
              | true => rfl
              | false =>
                exfalso
                obtain ⟨e, he, hstart, hok⟩ :=
                  (updateComponent_syncs_start_of_eq _ _ _ _ _ h3).2 rfl rfl
                have hmem : e ∈ r.1 :=
                  hsub e (List.mem_append_right _ he)
                rw [hno e hmem hstart] at hok
                exact absurd hok (by simp)
            subst hf3
            split at hr
            · subst hr; exact Or.inl hst
            · rename_i containers hcont
              split at hr
              · subst hr; exact Or.inl hst
              · split at hr
                · subst hr; exact Or.inl hst
                · rename_i execRequired hsync
                  split at hr
                  · split at hr
                    · rename_i t4 err h4
                      have hx := execDevfile_syncs_skipped_of_eq d _ _ _ _ _ _ _ _ h4 (Or.inl rfl)
                      subst hr
                      simp only
                      rw [syncs_append, hst, List.nil_append]
                      rcases hx with hx | ⟨command, ok, hb, hx⟩
                      · exact Or.inl hx
                      · exact Or.inr ⟨commandsMap, command, containers, ok, hvalid, hb, hx⟩
                    · rename_i t4 h4
                      have hx := execDevfile_syncs_skipped_of_eq d _ _ _ _ _ _ _ _ h4 (Or.inl rfl)
                      subst hr
                      simp only
                      rw [syncs_append, hst, List.nil_append]
                      rcases hx with hx | ⟨command, ok, hb, hx⟩
                      · exact Or.inl hx
                      · exact Or.inr ⟨commandsMap, command, containers, ok, hvalid, hb, hx⟩
                  · subst hr; exact Or.inl hst

/-! ## `Push` and the init command; examples of the commands and volumes -/

/-- C14, as stated, fails: the component exists when `Push` starts and the container of
its unit `runtime` needs updating. `updateComponent` replaces the container and returns
`componentExists = false`, and `execDevfile` executes the init command again. -/
theorem Push_existing_init_counterexample :
    exampleDeps.ComponentExists [] driftAdapter.ComponentName = .ok true ∧
    exampleDeps.ValidateAndGetPushDevfileCommands "" "" "" = .ok exampleCommands ∧
    exampleCommands.lookup InitCommandGroupType = some initCommand ∧
    (Push exampleDeps driftAdapter [] exampleParameters).2 = none ∧
    syncs (Push exampleDeps driftAdapter [] exampleParameters).1 =
      [syncEvent exampleDeps [runtimeContainer] initCommand true,
        syncEvent exampleDeps [runtimeContainer] buildCommand true] := by
  refine ⟨rfl, rfl, rfl, by decide, by decide⟩

/-- C14, amended. If the component existed when `Push` started and no container is
created or replaced during that `Push` (so that `updateComponent` returns
`componentExists = true`), the init command is never executed, even if one is specified:
the only command executed synchronously, if any, is the build command. -/
theorem Push_existing_no_init (d : Deps) (a : Adapter) (h : Trace)
    (parameters : PushParameters)
    (hexists : d.ComponentExists h a.ComponentName = .ok true)
    (hnostart : ∀ e ∈ (Push d a h parameters).1, e.call.isStart = true → e.ok = false) :
    syncs (Push d a h parameters).1 = [] ∨
      ∃ commandsMap command containers ok,
        d.ValidateAndGetPushDevfileCommands parameters.DevfileInitCmd
          parameters.DevfileBuildCmd parameters.DevfileRunCmd = .ok commandsMap ∧
        commandsMap.lookup BuildCommandGroupType = some command ∧
        syncs (Push d a h parameters).1 = [syncEvent d containers command ok] :=
  Push_existing_syncs d a h parameters hexists _ rfl hnostart

/-- C14, amended, on the example devfile, which has an init command: the container of the
unit `runtime` needs no update. -/
theorem Push_existing_no_init_witness :
    exampleDeps.ValidateAndGetPushDevfileCommands "" "" "" = .ok exampleCommands ∧
    exampleCommands.lookup InitCommandGroupType = some initCommand ∧
    syncs (Push exampleDeps steadyAdapter [] exampleParameters).1 =
      [syncEvent exampleDeps [runtimeContainer] buildCommand true] ∧
    (syncs (Push exampleDeps steadyAdapter [] exampleParameters).1 = [] ∨
      ∃ commandsMap command containers ok,
        exampleDeps.ValidateAndGetPushDevfileCommands exampleParameters.DevfileInitCmd
          exampleParameters.DevfileBuildCmd exampleParameters.DevfileRunCmd = .ok commandsMap ∧
        commandsMap.lookup BuildCommandGroupType = some command ∧
        syncs (Push exampleDeps steadyAdapter [] exampleParameters).1 =
          [syncEvent exampleDeps containers command ok]) :=
  ⟨rfl, rfl, by decide,
    Push_existing_no_init exampleDeps steadyAdapter [] exampleParameters rfl (by decide)⟩

/-- C11 on the example adapter with the unit `runtime` unchanged. -/
theorem updateComponent_flag_witness :
    (updateComponent steadyAdapter []).2 = (true, none) ∧
    (((updateComponent steadyAdapter []).2.1 = false ↔
      ∃ u ∈ steadyAdapter.supportedComponents,
        IsCreated (steadyAdapter.Client.GetContainersByComponentAndAlias [] "nodejs") u ∨
          ObservedOne steadyAdapter (steadyAdapter.Client.GetContainersByComponentAndAlias []
            "nodejs") (steadyAdapter.Client.GetContainerConfigHostConfigAndMounts []) u true) ∧
    ((updateComponent steadyAdapter []).2.1 = true ↔
      ∀ u ∈ steadyAdapter.supportedComponents,
        ObservedOne steadyAdapter (steadyAdapter.Client.GetContainersByComponentAndAlias []
          "nodejs") (steadyAdapter.Client.GetContainerConfigHostConfigAndMounts []) u false)) :=
  ⟨by decide,
    updateComponent_flag steadyAdapter []
      (steadyAdapter.Client.GetContainersByComponentAndAlias [] "nodejs")
      (steadyAdapter.Client.GetContainerConfigHostConfigAndMounts [])
      (fun _ _ => rfl) (fun _ _ => rfl) (by decide)⟩

/-- C13 on the example commands: a new component executes init first, an existing one
executes the build command only. -/
theorem execDevfile_init_witness :
    (execDevfile exampleDeps steadyAdapter [] exampleCommands false false
        [runtimeContainer]).1.head? =
      some (syncEvent exampleDeps [runtimeContainer] initCommand true) ∧
    syncs (execDevfile exampleDeps steadyAdapter [] exampleCommands true false
        [runtimeContainer]).1 = [syncEvent exampleDeps [runtimeContainer] buildCommand true] ∧
    (syncs (execDevfile exampleDeps steadyAdapter [] exampleCommands true false
        [runtimeContainer]).1 = [] ∨
      ∃ command ok, exampleCommands.lookup BuildCommandGroupType = some command ∧
        syncs (execDevfile exampleDeps steadyAdapter [] exampleCommands true false
          [runtimeContainer]).1 = [syncEvent exampleDeps [runtimeContainer] command ok]) :=
  ⟨(execDevfile_init exampleDeps steadyAdapter [] exampleCommands false false
      [runtimeContainer]).1 initCommand rfl rfl,
    by decide,
    (execDevfile_init exampleDeps steadyAdapter [] exampleCommands true false
      [runtimeContainer]).2 (Or.inl rfl)⟩

/-- C15 on the example commands for an existing component, and on the commands without
their build entry. -/
theorem execDevfile_build_witness :
    (∃ rest, (execDevfile exampleDeps steadyAdapter [] exampleCommands true false
        [runtimeContainer]).1 =
      (execInit exampleDeps steadyAdapter [] exampleCommands true [runtimeContainer]).1 ++
        syncEvent exampleDeps [runtimeContainer] buildCommand
          (steadyAdapter.Client.ExecuteDevfileCommandSynchronously
            ([] ++ (execInit exampleDeps steadyAdapter [] exampleCommands true
              [runtimeContainer]).1) buildCommand.Exec
            (exampleDeps.GetContainerIDForAlias [runtimeContainer]
              buildCommand.Exec.Component)).isNone :: rest) ∧
    (execDevfile exampleDeps steadyAdapter []
      [(InitCommandGroupType, initCommand)] true false [runtimeContainer]) = ([], none) :=
  ⟨(execDevfile_build exampleDeps steadyAdapter [] exampleCommands true false [runtimeContainer]
      (by decide) rfl).1 buildCommand rfl,
    by decide⟩

/-- C16 on the example commands for a new component whose init command fails. -/
theorem execDevfile_abort_witness :
    execDevfile exampleDeps
        { steadyAdapter with
          Client := { steadyAdapter.Client with
            ExecuteDevfileCommandSynchronously := fun _ _ _ => some "exit status 1" } }
        [] exampleCommands false false [runtimeContainer] =
      ([syncEvent exampleDeps [runtimeContainer] initCommand false], some "exit status 1") :=
  (execDevfile_abort exampleDeps
    { steadyAdapter with
      Client := { steadyAdapter.Client with
        ExecuteDevfileCommandSynchronously := fun _ _ _ => some "exit status 1" } }
    [] exampleCommands false false [runtimeContainer] (by decide)).2.1 initCommand
      "exit status 1" rfl rfl rfl

/-- C17 on the example commands, whose run command has `restart` set to `false`: an
existing component takes the path without restart, a new one the full run action. -/
theorem execDevfile_run_path_witness :
    (∃ ok, runActions (execDevfile exampleDeps steadyAdapter [] exampleCommands true false
        [runtimeContainer]).1 =
      [⟨.ExecuteDevfileRunActionWithoutRestart runCommand.Exec "r1", ok⟩]) ∧
    (∃ ok, runActions (execDevfile exampleDeps steadyAdapter [] exampleCommands false false
        [runtimeContainer]).1 =
      [⟨.ExecuteDevfileRunAction runCommand.Exec "r1", ok⟩]) :=
  ⟨(execDevfile_run_path exampleDeps steadyAdapter [] exampleCommands true false
      [runtimeContainer] runCommand rfl rfl rfl (fun hc => absurd hc (by decide))).imp
      (fun _ hx => hx.1),
    (execDevfile_run_path exampleDeps steadyAdapter [] exampleCommands false false
      [runtimeContainer] runCommand rfl rfl rfl (fun _ => rfl)).imp (fun _ hx => hx.1)⟩

/-- C18 on the volume store that starts empty and on the daemon with two volumes. -/
theorem createProjectVolumeIfReqd_cases_witness :
    createProjectVolumeIfReqd exampleDeps storeAdapter [] =
      ([projectLookupEvent storeAdapter,
        ⟨.CreateVolume "odo-project-source-nodejs-abcd"
          (GetProjectVolumeLabels storeAdapter.ComponentName), true⟩],
        .ok "odo-project-source-nodejs-abcd") ∧
    ((createProjectVolumeIfReqd exampleDeps duplicateVolumesAdapter []).1 =
        [projectLookupEvent duplicateVolumesAdapter] ∧
      ∃ err, (createProjectVolumeIfReqd exampleDeps duplicateVolumesAdapter []).2 = .error err) :=
  ⟨(createProjectVolumeIfReqd_cases exampleDeps storeAdapter []).2.2.1
      "odo-project-source-nodejs-abcd" rfl rfl rfl,
    (createProjectVolumeIfReqd_cases exampleDeps duplicateVolumesAdapter []).2.2.2
      ⟨"volume-1", GetProjectVolumeLabels "nodejs"⟩ ⟨"volume-2", GetProjectVolumeLabels "nodejs"⟩
      [] rfl⟩

/-- C19 on the volume store that starts empty: the first call creates the volume, the
second finds it. -/
theorem createProjectVolumeIfReqd_idempotent_witness :
    (createProjectVolumeIfReqd exampleDeps storeAdapter []).2 =
      .ok "odo-project-source-nodejs-abcd" ∧
    (createdVolumes (GetProjectVolumeLabels storeAdapter.ComponentName)
      ((createProjectVolumeIfReqd exampleDeps storeAdapter []).1 ++
        (createProjectVolumeIfReqd exampleDeps storeAdapter
          ([] ++ (createProjectVolumeIfReqd exampleDeps storeAdapter []).1)).1)).length ≤ 1 ∧
    (∀ name, (createProjectVolumeIfReqd exampleDeps storeAdapter []).2 = .ok name →
      createProjectVolumeIfReqd exampleDeps storeAdapter
          ([] ++ (createProjectVolumeIfReqd exampleDeps storeAdapter []).1) =
        ([projectLookupEvent storeAdapter], .ok name)) :=
  ⟨rfl, createProjectVolumeIfReqd_idempotent exampleDeps storeAdapter [] [] (fun _ => rfl)
    (by decide)⟩

/-! ## The bootstrap of the supervisord volume -/

theorem startBootstrapSupervisordInitContainer_head (d : Deps) (a : Adapter) (h : Trace)
    (name : String) :
    (startBootstrapSupervisordInitContainer d a h name).1.head? =
      some ⟨.PullImage d.GetBootstrapperImage,
        (a.Client.PullImage h d.GetBootstrapperImage).isNone⟩ := by
  unfold startBootstrapSupervisordInitContainer
  simp only
  cases hp : a.Client.PullImage h d.GetBootstrapperImage with
  | some err => rfl
  | none =>
    simp only
    split
    · rfl
    · split
      · rfl
      · split <;> rfl

theorem createAndInitSupervisordVolumeIfReqd_quiet (d : Deps) (a : Adapter) (h : Trace) :
    ∀ e ∈ (createAndInitSupervisordVolumeIfReqd d a h true).1,
      e.call.isStart = false ∧ e.call.isPull = false := by
  unfold createAndInitSupervisordVolumeIfReqd
  simp only
  split
  · simp [Call.isPull, Call.isStart]
  · split
    · rename_i heq
      split at heq
      · split at heq
        · simp only [Prod.mk.injEq] at heq
          rw [← heq.1]; simp [Call.isPull, Call.isStart]
        · split at heq
          · simp only [Prod.mk.injEq] at heq
            rw [← heq.1]; simp [Call.isPull, Call.isStart]
          · simp at heq
      · simp at heq
    · rename_i heq
      simp only [Bool.not_true, Bool.false_eq_true, if_false]
      split at heq
      · split at heq
        · simp at heq
        · split at heq
          · simp at heq
          · simp only [Prod.mk.injEq] at heq
            rw [← heq.1]; simp [Call.isPull, Call.isStart]
      · simp only [Prod.mk.injEq] at heq
        rw [← heq.1]; simp [Call.isPull, Call.isStart]

theorem createAndInitSupervisordVolumeIfReqd_split (d : Deps) (a : Adapter) (h : Trace) :
    (∀ name, (createAndInitSupervisordVolumeIfReqd d a h true).2 = .ok name →
      (createAndInitSupervisordVolumeIfReqd d a h false).1 =
        (createAndInitSupervisordVolumeIfReqd d a h true).1 ++
          (startBootstrapSupervisordInitContainer d a
            (h ++ (createAndInitSupervisordVolumeIfReqd d a h true).1) name).1) ∧
    (∀ err, (createAndInitSupervisordVolumeIfReqd d a h true).2 = .error err →
      createAndInitSupervisordVolumeIfReqd d a h false =
        createAndInitSupervisordVolumeIfReqd d a h true) := by
  unfold createAndInitSupervisordVolumeIfReqd
  simp only
  cases hl : a.Client.GetVolumesByLabel h (d.GetSupervisordVolumeLabels a.ComponentName) with
  | error err => simp
  | ok vols =>
    simp only
    cases vols with
    | cons vol rest =>
      simp only [Bool.not_false, Bool.not_true, if_true, Bool.false_eq_true, if_false]
      constructor
      · intro name2 hname
        simp only [Except.ok.injEq] at hname
        subst hname
        split <;> (rename_i heq; rw [heq])
      · intro err herr
        simp at herr
    | nil =>
      simp only
      cases hg : d.GenerateVolName (h ++ [⟨.GetVolumesByLabel
          (d.GetSupervisordVolumeLabels a.ComponentName), true⟩]) SupervisordVolumeName
          a.ComponentName with
      | error err => simp
      | ok name =>
        simp only
        cases hc : a.Client.CreateVolume (h ++ [⟨.GetVolumesByLabel
            (d.GetSupervisordVolumeLabels a.ComponentName), true⟩]) name
            (d.GetSupervisordVolumeLabels a.ComponentName) with
        | some err => simp
        | none =>
          simp only [Bool.not_false, Bool.not_true, if_true, Bool.false_eq_true, if_false]
          constructor
          · intro name2 hname
            simp only [Except.ok.injEq] at hname
            subst hname
            split <;> (rename_i heq; rw [heq])
          · intro err herr
            simp at herr

/-- C21, as stated, fails. On a daemon that already holds the supervisord volume, the call
for a component that does not exist creates no volume and still pulls the bootstrap image
and starts the bootstrap container. On a daemon without the volume, the call for a
component that exists creates the volume and starts nothing. -/
theorem bootstrap_existing_volume_counterexample :
    existingVolumeAdapter.Client.GetVolumesByLabel []
        (exampleDeps.GetSupervisordVolumeLabels "nodejs") =
      .ok [⟨"odo-supervisord-shared-data-nodejs-abcd",
        exampleDeps.GetSupervisordVolumeLabels "nodejs"⟩] ∧
    (createAndInitSupervisordVolumeIfReqd exampleDeps existingVolumeAdapter [] false).1.map
        (fun e => (e.call.isPull, e.call.isStart, e.ok)) =
      [(false, false, true), (true, false, true), (false, true, true), (false, false, true),
        (false, false, true)] ∧
    createdVolumes (exampleDeps.GetSupervisordVolumeLabels "nodejs")
      (createAndInitSupervisordVolumeIfReqd exampleDeps existingVolumeAdapter [] false).1 = [] ∧
    steadyAdapter.Client.GetVolumesByLabel []
        (exampleDeps.GetSupervisordVolumeLabels "nodejs") = .ok [] ∧
    createAndInitSupervisordVolumeIfReqd exampleDeps steadyAdapter [] true =
      ([⟨.GetVolumesByLabel [("component", "nodejs"), ("type", "supervisord")], true⟩,
        ⟨.CreateVolume "odo-supervisord-shared-data-nodejs-abcd"
          [("component", "nodejs"), ("type", "supervisord")], true⟩],
        .ok "odo-supervisord-shared-data-nodejs-abcd") := by
  refine ⟨rfl, by decide, by decide, rfl, rfl⟩

/-- C21, amended. The bootstrap is gated by `componentExists` alone. With
`componentExists = true` the call pulls no image and starts no container, also when the
volume was absent and is created. With `componentExists = false` the call does what the
call with `componentExists = true` does and, once the volume is found or created, goes on
with the bootstrap, whose first call pulls the bootstrap image, also when the volume
already existed; when the volume cannot be found or created the two calls are the same. -/
theorem bootstrap_gate (d : Deps) (a : Adapter) (h : Trace) :
    (∀ e ∈ (createAndInitSupervisordVolumeIfReqd d a h true).1,
      e.call.isStart = false ∧ e.call.isPull = false) ∧
    (∀ name, (createAndInitSupervisordVolumeIfReqd d a h true).2 = .ok name →
      (createAndInitSupervisordVolumeIfReqd d a h false).1 =
          (createAndInitSupervisordVolumeIfReqd d a h true).1 ++
            (startBootstrapSupervisordInitContainer d a
              (h ++ (createAndInitSupervisordVolumeIfReqd d a h true).1) name).1 ∧
        (startBootstrapSupervisordInitContainer d a
            (h ++ (createAndInitSupervisordVolumeIfReqd d a h true).1) name).1.head? =
          some ⟨.PullImage d.GetBootstrapperImage,
            (a.Client.PullImage (h ++ (createAndInitSupervisordVolumeIfReqd d a h true).1)
              d.GetBootstrapperImage).isNone⟩) ∧
    (∀ err, (createAndInitSupervisordVolumeIfReqd d a h true).2 = .error err →
      createAndInitSupervisordVolumeIfReqd d a h false =
        createAndInitSupervisordVolumeIfReqd d a h true) := by
  refine ⟨createAndInitSupervisordVolumeIfReqd_quiet d a h, ?_,
    (createAndInitSupervisordVolumeIfReqd_split d a h).2⟩
  intro name hname
  exact ⟨(createAndInitSupervisordVolumeIfReqd_split d a h).1 name hname,
    startBootstrapSupervisordInitContainer_head d a _ name⟩

/-- C21, amended, on the daemon that already holds the supervisord volume. -/
theorem bootstrap_gate_witness :
    (createAndInitSupervisordVolumeIfReqd exampleDeps existingVolumeAdapter [] true).2 =
      .ok "odo-supervisord-shared-data-nodejs-abcd" ∧
    (createAndInitSupervisordVolumeIfReqd exampleDeps existingVolumeAdapter [] false).1 =
        (createAndInitSupervisordVolumeIfReqd exampleDeps existingVolumeAdapter [] true).1 ++
          (startBootstrapSupervisordInitContainer exampleDeps existingVolumeAdapter
            ([] ++ (createAndInitSupervisordVolumeIfReqd exampleDeps existingVolumeAdapter []
              true).1) "odo-supervisord-shared-data-nodejs-abcd").1 ∧
      (startBootstrapSupervisordInitContainer exampleDeps existingVolumeAdapter
          ([] ++ (createAndInitSupervisordVolumeIfReqd exampleDeps existingVolumeAdapter []
            true).1) "odo-supervisord-shared-data-nodejs-abcd").1.head? =
        some ⟨.PullImage exampleDeps.GetBootstrapperImage,
          (existingVolumeAdapter.Client.PullImage
            ([] ++ (createAndInitSupervisordVolumeIfReqd exampleDeps existingVolumeAdapter []
              true).1) exampleDeps.GetBootstrapperImage).isNone⟩ :=
  ⟨rfl, (bootstrap_gate exampleDeps existingVolumeAdapter []).2.1
    "odo-supervisord-shared-data-nodejs-abcd" rfl⟩

/-! ## Entrypoint and environment of a started container -/

theorem labelPorts_Entrypoint (npm : List (Port × String)) :
    ∀ cfg : ContainerConfig, (labelPorts cfg npm).Entrypoint = cfg.Entrypoint ∧
      (labelPorts cfg npm).Cmd = cfg.Cmd ∧ (labelPorts cfg npm).Env = cfg.Env := by
  unfold labelPorts
  induction npm with
  | nil => intro cfg; exact ⟨rfl, rfl, rfl⟩
  | cons pu npm ih => intro cfg; rw [List.foldl_cons]; exact ih _

theorem mountSources_Command (a : Adapter) (comp : DevfileComponent) (hc : HostConfig) :
    (mountSources a comp hc).1.Container.Command = comp.Container.Command ∧
      (mountSources a comp hc).1.Container.Args = comp.Container.Args := by
  unfold mountSources
  split
  · simp only
    split <;> exact ⟨rfl, rfl⟩
  · exact ⟨rfl, rfl⟩

theorem updateComponentWithSupervisord_Command (comp : DevfileComponent)
    (runCommand : DevfileCommand) (sv : String) (hc : HostConfig) :
    (runCommand.Exec.Component = comp.Container.Name ∧ comp.Container.Command = [] ∧
        comp.Container.Args = [] →
      (updateComponentWithSupervisord comp runCommand sv hc).1.Container.Command =
          [SupervisordBinaryPath] ∧
        (updateComponentWithSupervisord comp runCommand sv hc).1.Container.Args =
          ["-c", SupervisordConfFile]) ∧
    (¬ (runCommand.Exec.Component = comp.Container.Name ∧ comp.Container.Command = [] ∧
        comp.Container.Args = []) →
      (updateComponentWithSupervisord comp runCommand sv hc).1.Container.Command =
          comp.Container.Command ∧
        (updateComponentWithSupervisord comp runCommand sv hc).1.Container.Args =
          comp.Container.Args) := by
  unfold updateComponentWithSupervisord
  constructor
  · rintro ⟨hb, hcmd, hargs⟩
    simp only [hb, beq_self_eq_true, if_true, hcmd, hargs, List.length_nil, Bool.and_self,
      List.nil_append]
    split <;> split <;> exact ⟨rfl, rfl⟩
  · intro hn
    by_cases hb : runCommand.Exec.Component = comp.Container.Name
    · simp only [hb, beq_self_eq_true, if_true]
      have he : (comp.Container.Command.length == 0 && comp.Container.Args.length == 0) = false := by
        cases hcmd : comp.Container.Command with
        | cons x xs => simp
        | nil =>
          cases hargs : comp.Container.Args with
          | cons y ys => simp
          | nil => exact absurd ⟨hb, hcmd, hargs⟩ hn
      simp only [he, Bool.false_eq_true, if_false]
      split <;> split <;> exact ⟨rfl, rfl⟩
    · have hbe : (runCommand.Exec.Component == comp.Container.Name) = false := by simpa using hb
      simp only [hbe, Bool.false_eq_true, if_false]
      exact ⟨trivial, trivial⟩

/-- The one call of `startComponent`, when it makes one, starts the container of the
component as `updateComponentWithSupervisord` and the block of `mountSources` leave it. -/
theorem startComponent_config (a : Adapter) (h : Trace) (mounts : List Mount)
    (comp : DevfileComponent) :
    ∀ e ∈ (startComponent a h mounts comp).1,
      ∃ runCommand hc npm ok, a.GetRunCommand a.devfileRunCmd = .ok runCommand ∧
        e = ⟨.StartContainer
          (labelPorts (generateAndGetContainerConfig a.ComponentName
            (mountSources a
              (updateComponentWithSupervisord comp runCommand a.supervisordVolumeName hc).1
              (updateComponentWithSupervisord comp runCommand a.supervisordVolumeName hc).2).1)
            npm)
          (mountSources a
            (updateComponentWithSupervisord comp runCommand a.supervisordVolumeName hc).1
            (updateComponentWithSupervisord comp runCommand a.supervisordVolumeName hc).2).2,
          ok⟩ := by
  intro e he
  unfold startComponent at he
  split at he
  · simp at he
  · rename_i hostConfig npm _
    cases hr : a.GetRunCommand a.devfileRunCmd with
    | error err => rw [hr] at he; simp at he
    | ok runCommand =>
      rw [hr] at he
      simp only at he
      split at he
      · simp only [List.mem_singleton] at he
        exact ⟨runCommand, _, npm, false, rfl, he⟩
      · simp only [List.mem_singleton] at he
        exact ⟨runCommand, _, npm, true, rfl, he⟩

/-- C22, as stated, fails in both directions. The unit `runtime` does not set
`mountSources`, it declares no command and no args and the run command binds to it: the
container is started with the supervisor as entrypoint. The same unit with `mountSources`
set and the declared entrypoint `npm start` is started with that entrypoint. -/
theorem entrypoint_policy_counterexample :
    runtimeUnit.Container.MountSources = false ∧
    steadyAdapter.GetRunCommand steadyAdapter.devfileRunCmd = .ok resolvedRunCommand ∧
    resolvedRunCommand.Exec.Component = runtimeUnit.Container.Name ∧
    (startedConfigs (startComponent steadyAdapter [] [] runtimeUnit).1).map
        (fun c => (c.1.Entrypoint, c.1.Cmd)) =
      [(["/opt/odo/bin/supervisord"], ["-c", "/opt/odo/conf/devfile-supervisor.conf"])] ∧
    (sourcesUnit ["npm"] ["start"] []).Container.MountSources = true ∧
    resolvedRunCommand.Exec.Component = (sourcesUnit ["npm"] ["start"] []).Container.Name ∧
    (startedConfigs (startComponent steadyAdapter [] [] (sourcesUnit ["npm"] ["start"] [])).1).map
        (fun c => (c.1.Entrypoint, c.1.Cmd)) = [(["npm"], ["start"])] := by
  refine ⟨rfl, rfl, rfl, by decide, rfl, rfl, by decide⟩

/-- C22, amended. The entrypoint is rewritten to the supervisor process exactly for the
unit the run command binds to when that unit declares neither command nor args, whatever
`mountSources` is; in all other cases command and args are left as declared. This holds
for `updateComponentWithSupervisord` and for the container `startComponent` starts. -/
theorem entrypoint_policy (a : Adapter) (h : Trace) (mounts : List Mount)
    (comp : DevfileComponent) (runCommand : DevfileCommand)
    (hrun : a.GetRunCommand a.devfileRunCmd = .ok runCommand) :
    (∀ sv hc,
      (runCommand.Exec.Component = comp.Container.Name ∧ comp.Container.Command = [] ∧
          comp.Container.Args = [] →
        (updateComponentWithSupervisord comp runCommand sv hc).1.Container.Command =
            [SupervisordBinaryPath] ∧
          (updateComponentWithSupervisord comp runCommand sv hc).1.Container.Args =
            ["-c", SupervisordConfFile]) ∧
      (¬ (runCommand.Exec.Component = comp.Container.Name ∧ comp.Container.Command = [] ∧
          comp.Container.Args = []) →
        (updateComponentWithSupervisord comp runCommand sv hc).1.Container.Command =
            comp.Container.Command ∧
          (updateComponentWithSupervisord comp runCommand sv hc).1.Container.Args =
            comp.Container.Args)) ∧
    ∀ config hostConfig ok,
      (⟨.StartContainer config hostConfig, ok⟩ : Event) ∈ (startComponent a h mounts comp).1 →
      (runCommand.Exec.Component = comp.Container.Name ∧ comp.Container.Command = [] ∧
          comp.Container.Args = [] →
        config.Entrypoint = [SupervisordBinaryPath] ∧ config.Cmd = ["-c", SupervisordConfFile]) ∧
      (¬ (runCommand.Exec.Component = comp.Container.Name ∧ comp.Container.Command = [] ∧
          comp.Container.Args = []) →
        config.Entrypoint = comp.Container.Command ∧ config.Cmd = comp.Container.Args) := by
  refine ⟨fun sv hc => updateComponentWithSupervisord_Command comp runCommand sv hc, ?_⟩
  intro config hostConfig ok he
  obtain ⟨rc, hc, npm, ok2, hrc, heq⟩ := startComponent_config a h mounts comp _ he
  rw [hrun] at hrc
  simp only [Except.ok.injEq] at hrc
  subst hrc
  simp only [Event.mk.injEq, Call.StartContainer.injEq] at heq
  obtain ⟨⟨hcfg, _⟩, _⟩ := heq
  have hlab := labelPorts_Entrypoint npm (generateAndGetContainerConfig a.ComponentName
    (mountSources a
      (updateComponentWithSupervisord comp runCommand a.supervisordVolumeName hc).1
      (updateComponentWithSupervisord comp runCommand a.supervisordVolumeName hc).2).1)
  have hms := mountSources_Command a
    (updateComponentWithSupervisord comp runCommand a.supervisordVolumeName hc).1
    (updateComponentWithSupervisord comp runCommand a.supervisordVolumeName hc).2
  have hup := updateComponentWithSupervisord_Command comp runCommand a.supervisordVolumeName hc
  have hE : config.Entrypoint =
      (updateComponentWithSupervisord comp runCommand a.supervisordVolumeName hc).1.Container.Command := by
    rw [hcfg, hlab.1]
    exact hms.1
  have hC : config.Cmd =
      (updateComponentWithSupervisord comp runCommand a.supervisordVolumeName hc).1.Container.Args := by
    rw [hcfg, hlab.2.1]
    exact hms.2
  rw [hE, hC]
  exact hup

/-- C22, amended, on the unit `runtime` without `mountSources`, which declares no
entrypoint: it is started with the supervisor as entrypoint. -/
theorem entrypoint_policy_witness :
    steadyAdapter.GetRunCommand steadyAdapter.devfileRunCmd = .ok resolvedRunCommand ∧
    (startComponent steadyAdapter [] [] runtimeUnit).1.length = 1 ∧
    ∀ config hostConfig ok,
      (⟨.StartContainer config hostConfig, ok⟩ : Event) ∈
        (startComponent steadyAdapter [] [] runtimeUnit).1 →
      (resolvedRunCommand.Exec.Component = runtimeUnit.Container.Name ∧
          runtimeUnit.Container.Command = [] ∧ runtimeUnit.Container.Args = [] →
        config.Entrypoint = [SupervisordBinaryPath] ∧ config.Cmd = ["-c", SupervisordConfFile]) ∧
      (¬ (resolvedRunCommand.Exec.Component = runtimeUnit.Container.Name ∧
          runtimeUnit.Container.Command = [] ∧ runtimeUnit.Container.Args = []) →
        config.Entrypoint = runtimeUnit.Container.Command ∧
          config.Cmd = runtimeUnit.Container.Args) :=
  ⟨rfl, by decide, (entrypoint_policy steadyAdapter [] [] runtimeUnit resolvedRunCommand rfl).2⟩

theorem IsEnvPresent_append (envVars : List Env) (e : Env) (name : String) :
    IsEnvPresent (envVars ++ [e]) name = (IsEnvPresent envVars name || e.Name == name) := by
  unfold IsEnvPresent
  simp

theorem countName_append (envVars more : List Env) (name : String) :
    countName (envVars ++ more) name = countName envVars name + countName more name := by
  unfold countName
  simp

theorem countName_singleton (n v m : String) :
    countName [⟨n, v⟩] m = if n = m then 1 else 0 := by
  unfold countName
  by_cases h : n = m <;> simp [h]

theorem countName_eq_zero (envVars : List Env) (name : String) :
    countName envVars name = 0 ↔ IsEnvPresent envVars name = false := by
  unfold countName IsEnvPresent
  rw [List.length_eq_zero, List.filter_eq_nil_iff]
  simp

theorem updateComponentWithSupervisord_Env (comp : DevfileComponent)
    (runCommand : DevfileCommand) (sv : String) (hc : HostConfig)
    (hb : runCommand.Exec.Component = comp.Container.Name) :
    (updateComponentWithSupervisord comp runCommand sv hc).1.Container.Env =
      comp.Container.Env ++
        (if IsEnvPresent comp.Container.Env EnvOdoCommandRun = true then []
          else [⟨EnvOdoCommandRun, runCommand.Exec.CommandLine⟩]) ++
        (if IsEnvPresent comp.Container.Env EnvOdoCommandRunWorkingDir = true ∨
            runCommand.Exec.WorkingDir = "" then []
          else [⟨EnvOdoCommandRunWorkingDir, runCommand.Exec.WorkingDir⟩]) := by
  have hne : (EnvOdoCommandRun == EnvOdoCommandRunWorkingDir) = false := by decide
  unfold updateComponentWithSupervisord
  simp only [hb, beq_self_eq_true, if_true]
  cases h1 : IsEnvPresent comp.Container.Env EnvOdoCommandRun <;>
    cases h2 : IsEnvPresent comp.Container.Env EnvOdoCommandRunWorkingDir <;>
    by_cases hw : runCommand.Exec.WorkingDir = "" <;>
    split <;>
    simp [h1, h2, hw, IsEnvPresent_append, hne]

/-- C23, as stated, fails for the working-directory variable. The run command binds to the
unit `runtime` and has no working directory; the unit declares no variable: after the call
the run-command variable is there and the working-directory variable is not, though no
entry of that name existed. -/
theorem env_injection_counterexample :
    resolvedRunCommand.Exec.Component = runtimeUnit.Container.Name ∧
    runtimeUnit.Container.Env = [] ∧
    (updateComponentWithSupervisord runtimeUnit resolvedRunCommand "supervisord-nodejs"
        ⟨false, false, [], []⟩).1.Container.Env = [⟨"ODO_COMMAND_RUN", "npm start"⟩] ∧
    countName (updateComponentWithSupervisord runtimeUnit resolvedRunCommand
        "supervisord-nodejs" ⟨false, false, [], []⟩).1.Container.Env
      EnvOdoCommandRunWorkingDir = 0 := by
  refine ⟨rfl, rfl, by decide, by decide⟩

/-- C23, amended. For a unit the run command binds to, the variables after the call are
the declared ones, unchanged and in place, followed by an entry for the run-command
variable with the run command line exactly when no entry of that name exists, followed by
an entry for the working-directory variable exactly when no entry of that name exists and
the working directory of the run command is not empty. After the call the run-command
name occurs as often as before, or once if it was absent; the working-directory name
occurs as often as before, or once if it was absent and the working directory is not
empty. -/
theorem env_injection (comp : DevfileComponent) (runCommand : DevfileCommand) (sv : String)
    (hc : HostConfig) (hb : runCommand.Exec.Component = comp.Container.Name) :
    (updateComponentWithSupervisord comp runCommand sv hc).1.Container.Env =
      comp.Container.Env ++
        (if IsEnvPresent comp.Container.Env EnvOdoCommandRun = true then []
          else [⟨EnvOdoCommandRun, runCommand.Exec.CommandLine⟩]) ++
        (if IsEnvPresent comp.Container.Env EnvOdoCommandRunWorkingDir = true ∨
            runCommand.Exec.WorkingDir = "" then []
          else [⟨EnvOdoCommandRunWorkingDir, runCommand.Exec.WorkingDir⟩]) ∧
    countName (updateComponentWithSupervisord comp runCommand sv hc).1.Container.Env
        EnvOdoCommandRun =
      (if countName comp.Container.Env EnvOdoCommandRun = 0 then 1
        else countName comp.Container.Env EnvOdoCommandRun) ∧
    countName (updateComponentWithSupervisord comp runCommand sv hc).1.Container.Env
        EnvOdoCommandRunWorkingDir =
      (if countName comp.Container.Env EnvOdoCommandRunWorkingDir = 0 ∧
          runCommand.Exec.WorkingDir ≠ "" then 1
        else countName comp.Container.Env EnvOdoCommandRunWorkingDir) := by
  have henv := updateComponentWithSupervisord_Env comp runCommand sv hc hb
  have hnil : ∀ name, countName [] name = 0 := fun _ => rfl
  have hwd : countName
      (if IsEnvPresent comp.Container.Env EnvOdoCommandRunWorkingDir = true ∨
          runCommand.Exec.WorkingDir = "" then []
        else [⟨EnvOdoCommandRunWorkingDir, runCommand.Exec.WorkingDir⟩]) EnvOdoCommandRun = 0 := by
    split
    · rfl
    · rw [countName_singleton, if_neg (by decide)]
  have hrun : countName
      (if IsEnvPresent comp.Container.Env EnvOdoCommandRun = true then []
        else [⟨EnvOdoCommandRun, runCommand.Exec.CommandLine⟩])
      EnvOdoCommandRunWorkingDir = 0 := by
    split
    · rfl
    · rw [countName_singleton, if_neg (by decide)]
  refine ⟨henv, ?_, ?_⟩
  · rw [henv, countName_append, countName_append, hwd, Nat.add_zero]
    cases h1 : IsEnvPresent comp.Container.Env EnvOdoCommandRun
    · have h0 := (countName_eq_zero _ _).mpr h1
      rw [h0, if_pos rfl, if_neg (by simp), countName_singleton, if_pos rfl]
    · have h0 : countName comp.Container.Env EnvOdoCommandRun ≠ 0 := by
        intro hz
        rw [(countName_eq_zero _ _).mp hz] at h1
        exact Bool.noConfusion h1
      rw [if_neg h0, if_pos rfl, hnil, Nat.add_zero]
  · rw [henv, countName_append, countName_append, hrun, Nat.add_zero]
    cases h2 : IsEnvPresent comp.Container.Env EnvOdoCommandRunWorkingDir
    · have h0 := (countName_eq_zero _ _).mpr h2
      rw [h0]
      by_cases hw : runCommand.Exec.WorkingDir = ""
      · rw [if_pos (Or.inr hw), if_neg (fun hx => hx.2 hw), hnil]
      · rw [if_neg (by simp [hw]), if_pos ⟨rfl, hw⟩, countName_singleton, if_pos rfl]
    · have h0 : countName comp.Container.Env EnvOdoCommandRunWorkingDir ≠ 0 := by
        intro hz
        rw [(countName_eq_zero _ _).mp hz] at h2
        exact Bool.noConfusion h2
      rw [if_pos (Or.inl rfl), if_neg (fun hx => h0 hx.1), hnil, Nat.add_zero]

/-- C23, amended, on a unit that declares the run-command variable itself and a run
command with a working directory: the declared entry is kept and the working-directory
variable is appended. -/
theorem env_injection_witness :
    (updateComponentWithSupervisord
        (sourcesUnit [] [] [⟨"ODO_COMMAND_RUN", "npm run dev"⟩, ⟨"DEBUG", "1"⟩])
        ⟨⟨"run", "npm start", "runtime", "/projects/app", []⟩⟩ "supervisord-nodejs"
        ⟨false, false, [], []⟩).1.Container.Env =
      [⟨"ODO_COMMAND_RUN", "npm run dev"⟩, ⟨"DEBUG", "1"⟩,
        ⟨"ODO_COMMAND_RUN_WORKING_DIR", "/projects/app"⟩] ∧
    countName (updateComponentWithSupervisord
        (sourcesUnit [] [] [⟨"ODO_COMMAND_RUN", "npm run dev"⟩, ⟨"DEBUG", "1"⟩])
        ⟨⟨"run", "npm start", "runtime", "/projects/app", []⟩⟩ "supervisord-nodejs"
        ⟨false, false, [], []⟩).1.Container.Env EnvOdoCommandRunWorkingDir =
      (if countName (sourcesUnit [] [] [⟨"ODO_COMMAND_RUN", "npm run dev"⟩,
            ⟨"DEBUG", "1"⟩]).Container.Env EnvOdoCommandRunWorkingDir = 0 ∧
          (⟨⟨"run", "npm start", "runtime", "/projects/app", []⟩⟩ :
            DevfileCommand).Exec.WorkingDir ≠ "" then 1
        else countName (sourcesUnit [] [] [⟨"ODO_COMMAND_RUN", "npm run dev"⟩,
          ⟨"DEBUG", "1"⟩]).Container.Env EnvOdoCommandRunWorkingDir) :=
  ⟨by decide,
    (env_injection (sourcesUnit [] [] [⟨"ODO_COMMAND_RUN", "npm run dev"⟩, ⟨"DEBUG", "1"⟩])
      ⟨⟨"run", "npm start", "runtime", "/projects/app", []⟩⟩ "supervisord-nodejs"
      ⟨false, false, [], []⟩ rfl).2.2⟩

/-- C24. The unit `runtime` sets `mountSources` and the source mapping `/test` and declares
no project-root variable: `startComponent` mounts the source volume at `/test` and injects
the project-root variable with the value `/projects`, the default mount path, where the
volume is not mounted. Without source mapping the value is the mount path. -/
theorem startComponent_project_root_mapping :
    mappedUnit.Container.MountSources = true ∧
    mappedUnit.Container.SourceMapping = "/test" ∧
    IsEnvPresent mappedUnit.Container.Env EnvCheProjectsRoot = false ∧
    (startedConfigs (startComponent steadyAdapter [] [] mappedUnit).1).map
        (fun c => (c.1.Env, c.2.Mounts.filter (fun m => m.Source == steadyAdapter.projectVolumeName))) =
      [(["ODO_COMMAND_RUN=npm start", "CHE_PROJECTS_ROOT=/projects"],
        [⟨"volume", "projects-nodejs", "/test"⟩])] ∧
    (mountSources steadyAdapter mappedUnit ⟨false, false, [], []⟩).1.Container.Env =
      [⟨"CHE_PROJECTS_ROOT", "/projects"⟩] ∧
    (mountSources steadyAdapter mappedUnit ⟨false, false, [], []⟩).2.Mounts =
      [⟨"volume", "projects-nodejs", "/test"⟩] ∧
    (startedConfigs (startComponent steadyAdapter [] [] (sourcesUnit [] [] [])).1).map
        (fun c => (c.1.Env, c.2.Mounts.filter (fun m => m.Source == steadyAdapter.projectVolumeName))) =
      [(["ODO_COMMAND_RUN=npm start", "CHE_PROJECTS_ROOT=/projects"],
        [⟨"volume", "projects-nodejs", "/projects"⟩])] := by
  refine ⟨rfl, rfl, rfl, by decide, by decide, by decide, by decide⟩

/-! ## `getFirstContainerWithSourceVolume` -/

theorem find?_split {α : Type} (p : α → Bool) :
    ∀ (l : List α) (x : α), l.find? p = some x →
      ∃ pre post, l = pre ++ x :: post ∧ (∀ y ∈ pre, p y = false) ∧ p x = true := by
  intro l
  induction l with
  | nil => intro x hx; simp at hx
  | cons a l ih =>
    intro x hx
    rw [List.find?_cons] at hx
    cases hp : p a with
    | true =>
      rw [hp] at hx
      simp only [Option.some.injEq] at hx
      subst hx
      exact ⟨[], l, rfl, by simp, hp⟩
    | false =>
      rw [hp] at hx
      obtain ⟨pre, post, hl, hpre, hx2⟩ := ih x hx
      refine ⟨a :: pre, post, by rw [hl]; rfl, ?_, hx2⟩
      intro y hy
      rcases List.mem_cons.mp hy with rfl | hy
      · exact hp
      · exact hpre y hy

theorem getFirstContainerWithSourceVolume_none (containers : List Container) :
    (getFirstContainerWithSourceVolume containers).2.2 ≠ none ↔
      ∀ c ∈ containers, ∀ m ∈ c.Mounts, ¬ IsSourceMount m := by
  induction containers with
  | nil => simp [getFirstContainerWithSourceVolume]
  | cons c cs ih =>
    unfold getFirstContainerWithSourceVolume
    cases hf : c.Mounts.find? (fun m => Contains m.Name ProjectSourceVolumeName) with
    | some m =>
      obtain ⟨pre, post, hl, _, hm⟩ := find?_split _ _ _ hf
      simp only [ne_eq, not_true_eq_false, false_iff]
      intro hall
      exact hall c (List.mem_cons_self _ _) m (by rw [hl]; simp) hm
    | none =>
      simp only
      rw [ih]
      have hno : ∀ m ∈ c.Mounts, ¬ IsSourceMount m := by
        intro m hm
        have := List.find?_eq_none.mp hf m hm
        simpa [IsSourceMount] using this
      constructor
      · intro hall d hd
        rcases List.mem_cons.mp hd with rfl | hd
        · exact hno
        · exact hall d hd
      · intro hall d hd
        exact hall d (List.mem_cons_of_mem _ hd)

theorem getFirstContainerWithSourceVolume_some :
    ∀ (containers : List Container),
      (∃ c ∈ containers, ∃ m ∈ c.Mounts, IsSourceMount m) →
      ∃ pre c post mpre m mpost,
        containers = pre ++ c :: post ∧
        (∀ d ∈ pre, ∀ k ∈ d.Mounts, ¬ IsSourceMount k) ∧
        c.Mounts = mpre ++ m :: mpost ∧
        (∀ k ∈ mpre, ¬ IsSourceMount k) ∧ IsSourceMount m ∧
        getFirstContainerWithSourceVolume containers = (c.ID, m.Destination, none) := by
  intro containers
  induction containers with
  | nil => rintro ⟨c, hc, _⟩; simp at hc
  | cons c cs ih =>
    intro hex
    unfold getFirstContainerWithSourceVolume
    cases hf : c.Mounts.find? (fun m => Contains m.Name ProjectSourceVolumeName) with
    | some m =>
      obtain ⟨mpre, mpost, hl, hpre, hm⟩ := find?_split _ _ _ hf
      refine ⟨[], c, cs, mpre, m, mpost, rfl, by simp, hl, ?_, hm, rfl⟩
      intro k hk
      have := hpre k hk
      simpa [IsSourceMount] using this
    | none =>
      have hno : ∀ m ∈ c.Mounts, ¬ IsSourceMount m := by
        intro m hm
        have := List.find?_eq_none.mp hf m hm
        simpa [IsSourceMount] using this
      have hex2 : ∃ d ∈ cs, ∃ m ∈ d.Mounts, IsSourceMount m := by
        obtain ⟨d, hd, m, hm, hs⟩ := hex
        rcases List.mem_cons.mp hd with rfl | hd
        · exact absurd hs (hno m hm)
        · exact ⟨d, hd, m, hm, hs⟩
      obtain ⟨pre, d, post, mpre, m, mpost, h1, h2, h3, h4, h5, h6⟩ := ih hex2
      refine ⟨c :: pre, d, post, mpre, m, mpost, by rw [h1]; rfl, ?_, h3, h4, h5, h6⟩
      intro x hx
      rcases List.mem_cons.mp hx with rfl | hx
      · exact hno
      · exact h2 x hx

/-- C25. When some container of the list has a mount of the source-sync volume,
`getFirstContainerWithSourceVolume` returns, without error, the ID of the first such
container in list order and the destination of its first such mount. It returns an error
if and only if no container of the list has such a mount, and then the ID and the path are
empty. -/
theorem getFirstContainerWithSourceVolume_first (containers : List Container) :
    ((∃ c ∈ containers, ∃ m ∈ c.Mounts, IsSourceMount m) →
      ∃ pre c post mpre m mpost,
        containers = pre ++ c :: post ∧
        (∀ d ∈ pre, ∀ k ∈ d.Mounts, ¬ IsSourceMount k) ∧
        c.Mounts = mpre ++ m :: mpost ∧
        (∀ k ∈ mpre, ¬ IsSourceMount k) ∧ IsSourceMount m ∧
        getFirstContainerWithSourceVolume containers = (c.ID, m.Destination, none)) ∧
    ((getFirstContainerWithSourceVolume containers).2.2 ≠ none ↔
      ∀ c ∈ containers, ∀ m ∈ c.Mounts, ¬ IsSourceMount m) ∧
    ((getFirstContainerWithSourceVolume containers).2.2 ≠ none →
      (getFirstContainerWithSourceVolume containers).1 = "" ∧
      (getFirstContainerWithSourceVolume containers).2.1 = "") := by
  refine ⟨getFirstContainerWithSourceVolume_some containers,
    getFirstContainerWithSourceVolume_none containers, ?_⟩
  induction containers with
  | nil => intro _; exact ⟨rfl, rfl⟩
  | cons c cs ih =>
    unfold getFirstContainerWithSourceVolume
    cases hf : c.Mounts.find? (fun m => Contains m.Name ProjectSourceVolumeName) with
    | some m => intro hne; exact absurd rfl hne
    | none => exact ih

/-- C25 on three containers: the second is the first with a mount of the source volume,
and `/test` is the destination of its first such mount. -/
theorem getFirstContainerWithSourceVolume_first_witness :
    getFirstContainerWithSourceVolume sourceContainers = ("c2", "/test", none) ∧
    (∃ c ∈ sourceContainers, ∃ m ∈ c.Mounts, IsSourceMount m) ∧
    ∃ pre c post mpre m mpost,
      sourceContainers = pre ++ c :: post ∧
      (∀ d ∈ pre, ∀ k ∈ d.Mounts, ¬ IsSourceMount k) ∧
      c.Mounts = mpre ++ m :: mpost ∧
      (∀ k ∈ mpre, ¬ IsSourceMount k) ∧ IsSourceMount m ∧
      getFirstContainerWithSourceVolume sourceContainers = (c.ID, m.Destination, none) :=
  have hex : ∃ c ∈ sourceContainers, ∃ m ∈ c.Mounts, IsSourceMount m :=
    ⟨mountedContainer "c3" [⟨TypeVolume, "odo-project-source-nodejs-abcd", "", "/projects"⟩],
      by decide, ⟨TypeVolume, "odo-project-source-nodejs-abcd", "", "/projects"⟩, by decide,
      by unfold IsSourceMount; decide⟩
  ⟨by decide, hex, (getFirstContainerWithSourceVolume_first sourceContainers).1 hex⟩

/-! ## Validation of components, `describe`, services -/

/-- C26. `validateComponents` returns `nil` if and only if the list has a component of type
container; the empty list fails with `no components present`, a non-empty list without
container component fails with the error that asks for one. -/
theorem validateComponents_accepts (components : List validate.DevfileComponent) :
    (validateComponents components = none ↔ ∃ c ∈ components, c.Container ≠ none) ∧
    (components = [] → validateComponents components = some ErrorNoComponents) ∧
    (components ≠ [] → (∀ c ∈ components, c.Container = none) →
      validateComponents components = some ErrorNoContainerComponent) := by
  have hpres : isContainerComponentPresent components = true ↔
      ∃ c ∈ components, c.Container ≠ none := by
    induction components with
    | nil => simp [isContainerComponentPresent]
    | cons c cs ih =>
      unfold isContainerComponentPresent
      cases hc : c.Container with
      | none => simp [ih, hc]
      | some x => simp [hc]
  refine ⟨?_, ?_, ?_⟩
  · cases components with
    | nil => simp [validateComponents, ErrorNoComponents]
    | cons c cs =>
      unfold validateComponents
      by_cases hp : isContainerComponentPresent (c :: cs) = true
      · rw [hp]
        simp only [List.length_cons, Bool.not_true]
        constructor
        · intro _; exact hpres.mp hp
        · intro _; simp
      · have hn : ¬ ∃ x ∈ c :: cs, x.Container ≠ none := fun hx => hp (hpres.mpr hx)
        have hp2 : isContainerComponentPresent (c :: cs) = false := by simpa using hp
        rw [hp2]
        simp only [List.length_cons, Bool.not_false, if_true]
        constructor
        · intro hx; simp at hx
        · intro hx; exact absurd hx hn
  · intro he; subst he; rfl
  · intro hne hall
    cases components with
    | nil => exact absurd rfl hne
    | cons c cs =>
      unfold validateComponents
      have hp2 : isContainerComponentPresent (c :: cs) = false := by
        cases hp : isContainerComponentPresent (c :: cs) with
        | false => rfl
        | true =>
          obtain ⟨x, hx, hxc⟩ := hpres.mp hp
          exact absurd (hall x hx) hxc
      rw [hp2]
      simp

/-- C26 on three lists: a container component after a component of another type is
accepted; the empty list and a list of one component of another type fail, each with its
error. -/
theorem validateComponents_accepts_witness :
    validateComponents [⟨none⟩, ⟨some (plainContainer "runtime" "node")⟩] = none ∧
    validateComponents [] = some "no components present" ∧
    validateComponents [⟨none⟩] =
      some "odo requires atleast one component of type \x27container\x27 in devfile" ∧
    ((validateComponents [⟨none⟩, ⟨some (plainContainer "runtime" "node")⟩] = none ↔
        ∃ c ∈ [(⟨none⟩ : validate.DevfileComponent), ⟨some (plainContainer "runtime" "node")⟩],
          c.Container ≠ none) ∧
      (([] : List validate.DevfileComponent) = [] →
        validateComponents [] = some ErrorNoComponents) ∧
      ([(⟨none⟩ : validate.DevfileComponent)] ≠ [] →
        (∀ c ∈ [(⟨none⟩ : validate.DevfileComponent)], c.Container = none) →
        validateComponents [⟨none⟩] = some ErrorNoContainerComponent)) :=
  ⟨by decide, by decide, by decide,
    (validateComponents_accepts [⟨none⟩, ⟨some (plainContainer "runtime" "node")⟩]).1,
    (validateComponents_accepts []).2.1, (validateComponents_accepts [⟨none⟩]).2.2⟩

/-- C27. `Validate` returns `nil` when no devfile component matched the name and no classic
component was found: the error it builds wraps the named result `err`, which is `nil`, and
`errors.Wrapf` of `nil` is `nil`. It returns `nil` for all options. -/
theorem Validate_unknown_component :
    unknownComponentOptions.devfileComponents = [] ∧
    unknownComponentOptions.component = "" ∧
    unknownComponentOptions.Validate = none ∧
    ∀ o : DescribeComponentOptions, o.Validate = none := by
  refine ⟨by decide, by decide, by decide, ?_⟩
  intro o
  unfold DescribeComponentOptions.Validate
  simp [Wrapf]

/-- C28. The secret of the service `mysql` exists and a deployment configuration of the
application takes its environment from that secret, as the second source of its first
container or in a second deployment configuration: the status stays `ProvisionedAndBound`.
As the first source of the first deployment configuration it becomes
`ProvisionedAndLinked`. -/
theorem ListWithDetailedStatus_linked_later :
    ListWithDetailedStatus (serviceCluster [deploymentConfig "backend" ["redis", "mysql"]])
        "app" =
      some (.ok [⟨"mysql", "mysql-persistent", "default", "ProvisionedAndBound"⟩]) ∧
    ListWithDetailedStatus
        (serviceCluster [deploymentConfig "frontend" ["redis"], deploymentConfig "backend" ["mysql"]])
        "app" =
      some (.ok [⟨"mysql", "mysql-persistent", "default", "ProvisionedAndBound"⟩]) ∧
    ListWithDetailedStatus (serviceCluster [deploymentConfig "backend" ["mysql", "redis"]])
        "app" =
      some (.ok [⟨"mysql", "mysql-persistent", "default", "ProvisionedAndLinked"⟩]) ∧
    ListWithDetailedStatus (serviceCluster []) "app" =
      some (.ok [⟨"mysql", "mysql-persistent", "default", "ProvisionedAndBound"⟩]) := by
  refine ⟨rfl, rfl, rfl, rfl⟩

/-! ## `Delete`: containers before volumes -/

theorem removeContainers_shape (cl : Client) (cn : String) (vols : List Volume)
    (ntd : List String) :
    ∀ (cs : List Container) (h : Trace) (td : List String),
      ((∃ out, (removeContainers cl cn vols ntd h cs td).2 = .ok out) ∧
        (removeContainers cl cn vols ntd h cs td).1 =
          cs.map (fun c => (⟨.RemoveContainer c.ID, true⟩ : Event))) ∨
      ((∃ err, (removeContainers cl cn vols ntd h cs td).2 = .error err) ∧
        ∃ id, (⟨.RemoveContainer id, false⟩ : Event) ∈
          (removeContainers cl cn vols ntd h cs td).1) := by
  intro cs
  induction cs with
  | nil => intro h td; left; simp [removeContainers]
  | cons c cs ih =>
    intro h td
    unfold removeContainers
    cases hr : cl.RemoveContainer h c.ID with
    | some err =>
      right
      exact ⟨⟨_, rfl⟩, c.ID, by simp⟩
    | none =>
      simp only
      rcases ih (h ++ [⟨.RemoveContainer c.ID, true⟩])
        (markVolumes ntd (volumeNames c) vols td) with ⟨⟨out, ho⟩, ht⟩ | ⟨⟨err, he⟩, id, hid⟩
      · left
        exact ⟨⟨out, ho⟩, by rw [ht]; rfl⟩
      · right
        exact ⟨⟨err, he⟩, id, List.mem_cons_of_mem _ hid⟩

theorem removeVolumes_all (cl : Client) (cn : String) (names : List String) (h : Trace) :
    ∀ e ∈ (removeVolumes cl cn h names).1, e.call.isRemoveVolume = true := by
  intro e he
  obtain ⟨n, _, ok, hn⟩ := removeVolumes_trace cl cn names h e he
  subst hn
  rfl

/-- C29. The trace of `Delete` is a part without removal of a volume followed by the
removals of volumes. When the removal of a container fails, `Delete` returns an error and
its trace has no removal of a volume. When a volume is removed, every call before the
removals succeeded and every container of the component that was listed has been removed
with success before. -/
theorem Delete_containers_first (cl : Client) (ord : RangeOrder) (h : Trace) (labels : Labels) :
    ((∃ id, (⟨.RemoveContainer id, false⟩ : Event) ∈ (Delete cl ord h labels).1) →
      (Delete cl ord h labels).2 ≠ none ∧
        ∀ e ∈ (Delete cl ord h labels).1, e.call.isRemoveVolume = false) ∧
    ∃ before after,
      (Delete cl ord h labels).1 = before ++ after ∧
      (∀ e ∈ before, e.call.isRemoveVolume = false) ∧
      (∀ e ∈ after, e.call.isRemoveVolume = true) ∧
      (after ≠ [] →
        (∀ e ∈ before, e.ok = true) ∧
        ∀ target containers, labels.lookup "component" = some target →
          cl.GetContainerList h = .ok containers →
          ∀ c ∈ containers, getLabel c.Labels "component" = target →
            (⟨.RemoveContainer c.ID, true⟩ : Event) ∈ before) := by
  unfold Delete
  cases hl : labels.lookup "component" with
  | none =>
    simp only
    refine ⟨fun ⟨id, hid⟩ => by simp at hid, [], [], rfl, by simp, by simp, by simp⟩
  | some target =>
    simp only
    cases hc : cl.GetContainerList h with
    | error err =>
      simp only
      refine ⟨fun ⟨id, hid⟩ => by simp at hid, [⟨.GetContainerList, false⟩], [], rfl, ?_,
        by simp, by simp⟩
      intro e he
      simp only [List.mem_singleton] at he
      subst he; rfl
    | ok containers =>
      simp only
      split
      · refine ⟨fun ⟨id, hid⟩ => by simp at hid, [⟨.GetContainerList, true⟩], [], rfl, ?_,
          by simp, by simp⟩
        intro e he
        simp only [List.mem_singleton] at he
        subst he; rfl
      · cases hv : cl.GetVolumes (h ++ [⟨.GetContainerList, true⟩]) with
        | error err =>
          simp only
          refine ⟨fun ⟨id, hid⟩ => by simp at hid,
            [⟨.GetContainerList, true⟩] ++ [⟨.GetVolumes, false⟩], [], by simp, ?_,
            by simp, by simp⟩
          intro e he
          simp only [List.singleton_append, List.mem_cons, List.mem_singleton,
            List.not_mem_nil, or_false] at he
          rcases he with rfl | rfl <;> rfl
        | ok allVolumes =>
          simp only
          have hshape := removeContainers_shape cl target
            (allVolumes.filter (isComponentVolume target))
            (volumesNotToDelete target containers)
            (GetContainersByComponent target containers)
            (h ++ ([⟨.GetContainerList, true⟩] ++ [⟨.GetVolumes, true⟩])) []
          have htr := removeContainers_trace cl target
            (allVolumes.filter (isComponentVolume target))
            (volumesNotToDelete target containers)
            (GetContainersByComponent target containers)
            (h ++ ([⟨.GetContainerList, true⟩] ++ [⟨.GetVolumes, true⟩])) []
          generalize removeContainers cl target (allVolumes.filter (isComponentVolume target))
            (volumesNotToDelete target containers)
            (h ++ ([⟨.GetContainerList, true⟩] ++ [⟨.GetVolumes, true⟩]))
            (GetContainersByComponent target containers) [] = r
            at hshape htr
          obtain ⟨t3, res⟩ := r
          have hpre : ∀ e ∈ [(⟨.GetContainerList, true⟩ : Event)] ++ [⟨.GetVolumes, true⟩] ++ t3,
              e.call.isRemoveVolume = false := by
            intro e he
            simp only [List.singleton_append, List.cons_append, List.nil_append,
              List.mem_cons] at he
            rcases he with rfl | rfl | he
            · rfl
            · rfl
            · obtain ⟨c, _, ok, hce⟩ := htr e he
              subst hce; rfl
          cases res with
          | error err =>
            simp only
            refine ⟨fun _ => ⟨by simp, hpre⟩, _, [], (List.append_nil _).symm, hpre,
              by simp, by simp⟩
          | ok toDelete =>
            simp only
            rcases hshape with ⟨_, ht3⟩ | ⟨⟨err, he⟩, _⟩
            · simp only at ht3
              have hvol := removeVolumes_all cl target (ord.order toDelete)
                (h ++ ([⟨.GetContainerList, true⟩] ++ [⟨.GetVolumes, true⟩]) ++ t3)
              refine ⟨?_, [⟨.GetContainerList, true⟩] ++ [⟨.GetVolumes, true⟩] ++ t3, _, rfl,
                hpre, hvol, ?_⟩
              · rintro ⟨id, hid⟩
                exfalso
                rcases List.mem_append.mp hid with hid | hid
                · simp only [List.singleton_append, List.cons_append, List.nil_append,
                    List.mem_cons] at hid
                  rcases hid with hid | hid | hid
                  · simp at hid
                  · simp at hid
                  · rw [ht3] at hid
                    simp at hid
                · have := hvol _ hid
                  simp [Call.isRemoveVolume] at this
              · intro _
                constructor
                · intro e he
                  simp only [List.singleton_append, List.cons_append, List.nil_append,
                    List.mem_cons] at he
                  rcases he with rfl | rfl | he
                  · rfl
                  · rfl
                  · rw [ht3] at he
                    obtain ⟨c, _, hce⟩ := List.mem_map.mp he
                    subst hce; rfl
                · intro target2 containers2 ht2 hc2 c hcm hcl
                  simp only [Option.some.injEq] at ht2
                  simp only [Except.ok.injEq] at hc2
                  subst ht2; subst hc2
                  have hcc : c ∈ GetContainersByComponent target containers :=
                    (mem_GetContainersByComponent target c containers).mpr ⟨hcm, hcl⟩
                  apply List.mem_append_right
                  rw [ht3]
                  exact List.mem_map.mpr ⟨c, hcc, rfl⟩
            · simp at he

/-- C29 on Case 5 of the test with a daemon that refuses to remove a container: `Delete`
returns an error and removes no volume. -/
theorem Delete_containers_first_witness :
    (∃ id, (⟨.RemoveContainer id, false⟩ : Event) ∈
      (Delete stuckDaemon RangeOrder.insertion [] [("component", "my-component")]).1) ∧
    (Delete stuckDaemon RangeOrder.insertion [] [("component", "my-component")]).2 ≠ none ∧
    ∀ e ∈ (Delete stuckDaemon RangeOrder.insertion [] [("component", "my-component")]).1,
      e.call.isRemoveVolume = false :=
  have hex : ∃ id, (⟨.RemoveContainer id, false⟩ : Event) ∈
      (Delete stuckDaemon RangeOrder.insertion [] [("component", "my-component")]).1 :=
    ⟨"my-component", by decide⟩
  ⟨hex, (Delete_containers_first stuckDaemon RangeOrder.insertion []
    [("component", "my-component")]).1 hex⟩

/-! ## `getPortMap` -/

theorem mem_mapSet {α β : Type} [BEq α] (m : List (α × β)) (k : α) (v : β) (x : α × β)
    (hx : x ∈ mapSet m k v) : x = (k, v) ∨ (x ∈ m ∧ (x.1 == k) = false) := by
  unfold mapSet at hx
  rcases List.mem_cons.mp hx with hx | hx
  · exact Or.inl hx
  · rw [List.mem_filter] at hx
    exact Or.inr ⟨hx.1, by simpa using hx.2⟩

theorem mapSet_keys_nodup {β : Type} (m : List (Port × β)) (k : Port) (v : β)
    (hm : (m.map Prod.fst).Nodup) : ((mapSet m k v).map Prod.fst).Nodup := by
  unfold mapSet
  rw [List.map_cons, List.nodup_cons]
  constructor
  · intro hk
    obtain ⟨x, hx, hxk⟩ := List.mem_map.mp hk
    rw [List.mem_filter] at hx
    have h2 := hx.2
    simp only [Bool.not_eq_true', beq_eq_false_iff_ne, ne_eq] at h2
    exact h2 hxk
  · exact (List.Nodup.sublist ((List.filter_sublist _).map Prod.fst) hm)

theorem portMapLoop_loopback (endpoints : List Endpoint) (all : List EnvInfoURL) :
    ∀ (urls : List EnvInfoURL) (portmap : PortMap) (names : List (Port × String))
      (res : PortMap × List (Port × String)),
      (∀ url ∈ urls, url ∈ all) →
      (portmap.map Prod.fst).Nodup →
      (∀ entry ∈ portmap, IsLoopbackBinding endpoints all entry) →
      portMapLoop endpoints urls portmap names = .ok res →
      (res.1.map Prod.fst).Nodup ∧ ∀ entry ∈ res.1, IsLoopbackBinding endpoints all entry := by
  intro urls
  induction urls with
  | nil =>
    intro portmap names res _ hnd hinv hres
    simp only [portMapLoop, Except.ok.injEq] at hres
    subst hres
    exact ⟨hnd, hinv⟩
  | cons url urls ih =>
    intro portmap names res hsub hnd hinv hres
    have hsub2 : ∀ u ∈ urls, u ∈ all := fun u hu => hsub u (List.mem_cons_of_mem _ hu)
    unfold portMapLoop at hres
    split at hres
    · rename_i hcond
      simp only [Bool.and_eq_true, decide_eq_true_eq] at hcond
      cases hp : NewPort url.Port with
      | error err => rw [hp] at hres; simp at hres
      | ok port =>
        rw [hp] at hres
        simp only at hres
        refine ih _ _ res hsub2 (mapSet_keys_nodup _ _ _ hnd) ?_ hres
        intro entry hentry
        rcases mem_mapSet _ _ _ _ hentry with he | ⟨he, _⟩
        · subst he
          refine ⟨url, hsub url (List.mem_cons_self _ _), hp, hcond.1, ?_, rfl⟩
          have hpres := hcond.2
          unfold IsPortPresent at hpres
          rw [List.any_eq_true] at hpres
          obtain ⟨e, he, hte⟩ := hpres
          exact ⟨e, he, by simpa using hte⟩
        · exact hinv entry he
    · split at hres
      · simp at hres
      · exact ih _ _ res hsub2 hnd hinv hres

/-- C30. When `getPortMap` succeeds, no container port has two entries in the port map it
returns, and every entry comes from a URL of `env.yaml` whose exposed port is positive and
whose port is declared among the endpoints of the unit: its bindings are exactly one
binding, with host IP `127.0.0.1` and the exposed port of that URL as host port. -/
theorem getPortMap_loopback (a : Adapter) (context : String) (endpoints : List Endpoint)
    (sh : Bool) (portMap : PortMap) (names : List (Port × String))
    (hok : getPortMap a context endpoints sh = .ok (portMap, names)) :
    ∃ dir urlArr, a.NewEnvSpecificInfo dir = .ok urlArr ∧
      (portMap.map Prod.fst).Nodup ∧
      ∀ entry ∈ portMap, IsLoopbackBinding endpoints urlArr entry ∧
        ∃ binding, entry.2 = [binding] ∧ binding.HostIP = LocalhostIP := by
  unfold getPortMap at hok
  simp only at hok
  split at hok
  · simp at hok
  · rename_i dir _
    cases hu : a.NewEnvSpecificInfo dir with
    | error err => rw [hu] at hok; simp at hok
    | ok urlArr =>
      rw [hu] at hok
      simp only at hok
      obtain ⟨hnd, hall⟩ := portMapLoop_loopback endpoints urlArr urlArr [] [] (portMap, names)
        (fun _ hu => hu) (by simp) (by simp) hok
      refine ⟨dir, urlArr, hu, hnd, ?_⟩
      intro entry hentry
      have hb := hall entry hentry
      refine ⟨hb, ?_⟩
      obtain ⟨url, _, _, _, _, h5⟩ := hb
      exact ⟨_, h5, rfl⟩

/-- C30 on an `env.yaml` with two URLs for the port 3000: the later URL gives the binding
of the port, the URL without exposed port gives none. -/
theorem getPortMap_loopback_witness :
    getPortMap urlAdapter "" [⟨"http", 3000⟩, ⟨"web", 8080⟩] true =
      .ok ([(⟨3000⟩, [⟨"127.0.0.1", "30002"⟩]), (⟨8080⟩, [⟨"127.0.0.1", "30080"⟩])],
        [(⟨3000⟩, "second"), (⟨8080⟩, "web")]) ∧
    ∃ dir urlArr, urlAdapter.NewEnvSpecificInfo dir = .ok urlArr ∧
      (([(⟨3000⟩, [⟨"127.0.0.1", "30002"⟩]), (⟨8080⟩, [⟨"127.0.0.1", "30080"⟩])] :
        PortMap).map Prod.fst).Nodup ∧
      ∀ entry ∈ ([(⟨3000⟩, [⟨"127.0.0.1", "30002"⟩]), (⟨8080⟩, [⟨"127.0.0.1", "30080"⟩])] :
          PortMap),
        IsLoopbackBinding [⟨"http", 3000⟩, ⟨"web", 8080⟩] urlArr entry ∧
          ∃ binding, entry.2 = [binding] ∧ binding.HostIP = LocalhostIP :=
  ⟨rfl, getPortMap_loopback urlAdapter "" [⟨"http", 3000⟩, ⟨"web", 8080⟩] true _ _ rfl⟩

end Odo
